import Mathlib

/-!
# Grouped convolution on ARM: `ArmConvLayerGroup`

A shallow embedding of `source/tnn/device/arm/acc/convolution/arm_conv_layer_group.cc`.

Conventions of the embedding.

* The C++ object `ArmConvLayerGroup` is a record of its member variables; every member
  function is a Lean function that takes the record (and the memory it touches) and
  returns the status together with whatever it changed.
* `int` quantities (dims, group count, byte sizes) are natural numbers.  Signed overflow
  and division by zero are undefined behaviour in C++ and are not modelled; the theorems
  carry `1 ≤ group_` wherever it matters.
* The element type `float` is an arbitrary type `α`: the transcoder only moves values.
* A `float *` is an index (in units of one `float`) into the buffer it points into, and
  a buffer is a list.  A store outside the list is dropped and a load outside the list
  yields `default`, so a theorem about a buffer holds only if the code allocated enough.
* The sub-kernels, their applicability predicates and the base class are external to
  the file; they are the fields of `Env`.
-/

namespace TNN_NS

/-! ## Data model -/

/-- Element type tag of a blob or of a raw buffer. -/
inductive DataType where
  | DATA_TYPE_FLOAT
  | DATA_TYPE_HALF
  | DATA_TYPE_INT8
  | DATA_TYPE_INT32
  | DATA_TYPE_BFP16
  deriving DecidableEq, Repr, Inhabited

/-- Status codes used by the file. -/
inductive StatusCode where
  | TNN_OK
  | TNNERR_PARAM_ERR
  | TNNERR_LAYER_ERR
  | TNNERR_OTHER (code : Nat)
  deriving DecidableEq, Repr, Inhabited

/-- A status is a code with a message; `Status == TNN_OK` compares the code. -/
structure Status where
  code : StatusCode
  message : String
  deriving DecidableEq, Repr, Inhabited

/-- The successful status. -/
def TNN_OK : Status := ⟨StatusCode.TNN_OK, ""⟩

/-- The test `status != TNN_OK` of `RETURN_ON_NEQ`. -/
def Status.isOk (s : Status) : Bool := decide (s.code = StatusCode.TNN_OK)

/-- Modelled from the spec: `CHECK_PARAM_NULL` (its header is not in the source tree)
returns this status when the checked pointer is null: "null/missing parameter object is a
fatal configuration error at initialization". -/
def paramNullStatus : Status := ⟨StatusCode.TNNERR_PARAM_ERR, "Error: param is nil"⟩

/-- The dims of a blob, `std::vector<int>`. -/
abbrev DimsVector := List Nat

/-- The read `dims[i]`. -/
def dim (dims : DimsVector) (i : Nat) : Nat := dims.getD i 0

/-- Modelled from the spec: the blob descriptor (blob.h is not in the source tree),
"a 4D tensor (batch, channel, height, width)" with "a data-type/quantization tag per
tensor". -/
structure BlobDesc where
  data_type : DataType
  data_format : Nat
  dims : DimsVector
  name : String
  deriving DecidableEq, Repr, Inhabited

/-- The handle of a blob: `base` is the address of the data, here an index in floats into
the backing buffer, and `bytes_offset` a further offset in bytes. -/
structure BlobHandle where
  base : Nat
  bytes_offset : Nat
  deriving DecidableEq, Repr, Inhabited

/-- A blob: a descriptor and a handle. -/
structure Blob where
  desc : BlobDesc
  handle : BlobHandle
  deriving DecidableEq, Repr, Inhabited

/-- Modelled from the spec: `GetBlobHandlePtr` (not in the source tree), the address the
handle designates; with addresses counted in floats the byte offset is divided by
`sizeof(float)`. -/
def GetBlobHandlePtr (h : BlobHandle) : Nat := h.base + h.bytes_offset / 4

/-- Modelled from the spec: the `ROUND_UP` of the source is the spec's
`round_up(channels, lane_width)`, the least multiple of `y` that is at least `x`. -/
def ROUND_UP (x y : Nat) : Nat := (x + y - 1) / y * y

/-- Modelled from the spec: `DimsVectorUtils::Count(dims, start, end)` (not in the source
tree) is the number of elements spanned by the dims of index `start ≤ i < end`; the spec
needs it for "the contiguous channel sub-range belonging to g" of the unpacked scratch. -/
def DimsVectorUtils.Count (dims : DimsVector) (start_index end_index : Nat) : Nat :=
  ((dims.take end_index).drop start_index).prod

/-- The memory of `RawBuffer temp(bytes_size)` seen through `force_to<float *>()`:
`bytes_size / sizeof(float)` fresh floats. -/
def RawBuffer.floats {α : Type} [Inhabited α] (bytes_size : Nat) : List α :=
  List.replicate (bytes_size / 4) default

/-- Index, inside one lane-packed batch row with `hw` spatial positions, of channel `c` at
spatial position `s`: lanes of four channels are interleaved per spatial position. -/
def c4Index (hw c s : Nat) : Nat := c / 4 * hw * 4 + 4 * s + c % 4

/-- Modelled from the spec: `PackC4(dst, src, hw, channel)` (arm_util is not in the source
tree), the "conversion between lane-packed layout and a flat channel-major layout": it
stores the flat channel-major `src` into the lane-packed `dst`.  "Padding channels beyond
the true channel count [are] left unused": the padding lanes of `dst` are not written. -/
def PackC4 {α : Type} [Inhabited α] (dst : List α) (dstPtr : Nat) (src : List α) (srcPtr : Nat)
    (hw channel : Nat) : List α :=
  (List.range channel).foldl (fun d c =>
    (List.range hw).foldl (fun d cur_hw =>
      d.set (dstPtr + c4Index hw c cur_hw) (src.getD (srcPtr + (c * hw + cur_hw)) default)) d) dst

/-- Modelled from the spec: `UnpackC4(dst, src, hw, channel)` (arm_util is not in the
source tree), the inverse conversion: it stores the `channel` real channels of the
lane-packed `src` into the flat channel-major `dst`. -/
def UnpackC4 {α : Type} [Inhabited α] (dst : List α) (dstPtr : Nat) (src : List α) (srcPtr : Nat)
    (hw channel : Nat) : List α :=
  (List.range channel).foldl (fun d c =>
    (List.range hw).foldl (fun d cur_hw =>
      d.set (dstPtr + (c * hw + cur_hw)) (src.getD (srcPtr + c4Index hw c cur_hw) default)) d) dst

/-! ## Parameters, resources and sub-kernels -/

/-- Modelled from the spec: the convolution parameters (layer_param.h is not in the
source tree): "kernel size, stride, dilation, padding, group count, output channel count,
bias flag". -/
structure ConvLayerParam where
  name : String
  kernels : List Nat
  strides : List Nat
  dialations : List Nat
  pads : List Nat
  group : Nat
  output_channel : Nat
  bias : Bool
  deriving DecidableEq, Repr, Inhabited

/-- One byte of a trained resource. -/
abbrev Byte := Fin 256

/-- A `char *`: the storage it points into and the byte offset in it. -/
structure CharPtr where
  buff : List Byte
  offset : Nat
  deriving DecidableEq, Repr, Inhabited

/-- Pointer arithmetic `p + n`. -/
def CharPtr.add (p : CharPtr) (n : Nat) : CharPtr := ⟨p.buff, p.offset + n⟩

/-- Modelled from the spec: `RawBuffer` (raw_buffer.h is not in the source tree), "a
non-owning slice (pointer + length + offset)" with an element type: the buffer is the
`bytes_size` bytes found at `ptr`. -/
structure RawBuffer where
  bytes_size : Nat
  data_type : DataType
  ptr : CharPtr
  deriving DecidableEq, Repr

/-- The default-constructed `RawBuffer()`: empty. -/
instance : Inhabited RawBuffer := ⟨⟨0, DataType.DATA_TYPE_FLOAT, ⟨[], 0⟩⟩⟩

/-- The constructor `RawBuffer(bytes_size, buffer)`. -/
def RawBuffer.ofPtr (bytes_size : Nat) (buffer : CharPtr) : RawBuffer :=
  ⟨bytes_size, DataType.DATA_TYPE_FLOAT, buffer⟩

/-- The getter `GetBytesSize()`. -/
def RawBuffer.GetBytesSize (b : RawBuffer) : Nat := b.bytes_size

/-- The getter `GetDataType()`. -/
def RawBuffer.GetDataType (b : RawBuffer) : DataType := b.data_type

/-- The cast `force_to<char *>()`. -/
def RawBuffer.force_to (b : RawBuffer) : CharPtr := b.ptr

/-- The bytes a buffer designates: `bytes_size` bytes from its pointer on. -/
def RawBuffer.bytes (b : RawBuffer) : List Byte := (b.ptr.buff.drop b.ptr.offset).take b.bytes_size

/-- The resource of a convolution: filter and bias; a fresh `ConvLayerResource()` has two
empty buffers. -/
structure ConvLayerResource where
  filter_handle : RawBuffer
  bias_handle : RawBuffer
  deriving DecidableEq, Repr, Inhabited

/-- The convolution implementations the selector chooses from (the dynamic type of a
sub-kernel). -/
inductive ConvImpl where
  | ArmConvLayer3x3
  | ArmConvLayer1x1
  | ArmConvLayerCommon
  | ArmConvInt8LayerCommon
  deriving DecidableEq, Repr, Inhabited

/-- The arguments a sub-kernel was initialised with. -/
structure InitArgs where
  param : Option ConvLayerParam
  resource : Option ConvLayerResource
  inputs : List Blob
  outputs : List Blob
  deriving DecidableEq, Repr

/-- A sub-kernel instance: its dynamic type and, once `Init` was called on it, the
arguments of that call. -/
structure ArmLayerAcc where
  impl : ConvImpl
  init_args : Option InitArgs
  deriving DecidableEq, Repr

/-- The allocation `std::make_shared<T>()` of a fresh, uninitialised sub-kernel. -/
def make_shared (t : ConvImpl) : ArmLayerAcc := ⟨t, none⟩

/-- The test `dynamic_cast<T *>(p.get())`: the instance when it is non-null and of dynamic
type `T`, null otherwise. -/
def dynamic_cast (t : ConvImpl) (p : Option ArmLayerAcc) : Option ArmLayerAcc :=
  p.filter (fun a => decide (a.impl = t))

/-- What the file takes from its collaborators (none of them is in the source tree): the
status of the base class `ArmLayerAcc::Init`, the applicability predicates
`ArmConvLayer3x3::isPrefered` and `ArmConvLayer1x1::isPrefered`, the status of a
sub-kernel `Init`, and a sub-kernel `DoForward`.  Modelled from the spec: a sub-kernel
"reads only its own group input/resources and writes only its own group output", so its
forward is a function from the group input buffer to a status and the group output
buffer. -/
structure Env (α : Type) where
  baseInit : ConvLayerParam → ConvLayerResource → List Blob → List Blob → Status
  isPrefered3x3 : ConvLayerParam → List Blob → List Blob → Bool
  isPrefered1x1 : ConvLayerParam → List Blob → List Blob → Bool
  accInit : ConvImpl → InitArgs → Status
  accForward : ArmLayerAcc → BlobDesc → BlobDesc → List α → Status × List α

/-- The member variables of `ArmConvLayerGroup`. -/
structure ArmConvLayerGroup where
  param_ : ConvLayerParam
  resource_ : ConvLayerResource
  group_ : Nat
  group_inputs_ : List Blob
  group_outputs_ : List Blob
  group_conv_param_ : Option ConvLayerParam
  conv_acc_impls_ : List (Option ArmLayerAcc)
  deriving DecidableEq, Repr, Inhabited

/-- A `for` loop whose body may `return` a status: the body runs on the indices in order,
threading the state, and the loop stops at the first body that returns. -/
def forReturn {ι σ : Type} (body : ι → σ → Option Status × σ) : List ι → σ → Option Status × σ
  | [], s => (none, s)
  | i :: rest, s =>
    match body i s with
    | (some st, s1) => (some st, s1)
    | (none, s1) => forReturn body rest s1

/-- The buffer `buf` with the `len` floats at `ptr` replaced by the first `len` of `data`. -/
def writeRegion {α : Type} [Inhabited α] (buf : List α) (ptr len : Nat) (data : List α) : List α :=
  (List.range len).foldl (fun d k => d.set (ptr + k) (data.getD k default)) buf

/-- The `len` floats of `buf` at `ptr`. -/
def readRegion {α : Type} [Inhabited α] (buf : List α) (ptr len : Nat) : List α :=
  (List.range len).map (fun k => buf.getD (ptr + k) default)

/-- Number of floats of a lane-packed blob of dims `(n, c, h, w)`. -/
def packedCount (dims : DimsVector) : Nat :=
  dim dims 0 * (ROUND_UP (dim dims 1) 4 * dim dims 2 * dim dims 3)

namespace ArmConvLayerGroup

/-! ## The member functions -/

/-- Member function `CreateImpInt8`: the quantized generic implementation, kept when already held. -/
def CreateImpInt8 (_self : ArmConvLayerGroup) (_inputs _outputs : List Blob)
    (_param : Option ConvLayerParam) (conv_acc_impl : Option ArmLayerAcc) : Option ArmLayerAcc :=
  if (dynamic_cast ConvImpl.ArmConvInt8LayerCommon conv_acc_impl).isNone then
    some (make_shared ConvImpl.ArmConvInt8LayerCommon)
  else conv_acc_impl

/-- Member function `CreateImpFP`: 3x3 when its predicate accepts, else 1x1 when its predicate accepts;
the generic implementation when the slot is still empty.  The predicates are evaluated on
the member `param_`, not on the argument `param`. -/
def CreateImpFP {α : Type} (env : Env α) (self : ArmConvLayerGroup) (inputs outputs : List Blob)
    (_param : Option ConvLayerParam) (conv_acc_impl : Option ArmLayerAcc) : Option ArmLayerAcc :=
  let conv_acc_impl :=
    if env.isPrefered3x3 self.param_ inputs outputs then
      if (dynamic_cast ConvImpl.ArmConvLayer3x3 conv_acc_impl).isNone then
        some (make_shared ConvImpl.ArmConvLayer3x3)
      else conv_acc_impl
    else if env.isPrefered1x1 self.param_ inputs outputs then
      if (dynamic_cast ConvImpl.ArmConvLayer1x1 conv_acc_impl).isNone then
        some (make_shared ConvImpl.ArmConvLayer1x1)
      else conv_acc_impl
    else conv_acc_impl
  if conv_acc_impl.isNone then some (make_shared ConvImpl.ArmConvLayerCommon) else conv_acc_impl

/-- Member function `SetGroupParam`: a copy of `param_` with `output_channel` divided by `group` and
`group` set to one is stored in `group_param`.  (`new` does not return null, so the check
after it never fires.)  The object is returned as well: no member is assigned. -/
def SetGroupParam (self : ArmConvLayerGroup) (_group_param : Option ConvLayerParam) :
    Status × ArmConvLayerGroup × Option ConvLayerParam :=
  let conv_param := self.param_
  let conv_param := { conv_param with output_channel := conv_param.output_channel / conv_param.group }
  let conv_param := { conv_param with group := 1 }
  (TNN_OK, self, some conv_param)

/-- Member function `SetSplitBlobDesc`: every blob of index below `group_` gets a copy of the descriptor
of `blob` whose channel dim is divided by `group_`.  The blob is returned as well: it is
only read. -/
def SetSplitBlobDesc (self : ArmConvLayerGroup) (blob : Blob) (blobs : List Blob) :
    Status × Blob × List Blob :=
  let group_desc := blob.desc
  let group_desc := { group_desc with dims := group_desc.dims.set 1 (dim group_desc.dims 1 / self.group_) }
  let blobs := (List.range self.group_).foldl
    (fun blobs g => blobs.set g { blobs.getD g default with desc := group_desc }) blobs
  (TNN_OK, blob, blobs)

/-- Member function `SetSplitBlobHandle`: for float blobs, one fresh buffer for all groups, group `g`
starting `g * r * batch` floats into it; an error for any other element type. -/
def SetSplitBlobHandle {α : Type} [Inhabited α] (self : ArmConvLayerGroup) (blobs : List Blob)
    (buf : List α) : Status × List Blob × List α :=
  let dims := (blobs.getD 0 default).desc.dims
  let batch := dim dims 0
  if (blobs.getD 0 default).desc.data_type = DataType.DATA_TYPE_FLOAT then
    let r_split_data_count_per_batch := ROUND_UP (dim dims 1) 4 * dim dims 2 * dim dims 3
    let temp : List α := RawBuffer.floats (self.group_ * batch * r_split_data_count_per_batch * 4)
    let blobs := (List.range self.group_).foldl
      (fun blobs g =>
        let handle : BlobHandle := ⟨0 + g * r_split_data_count_per_batch * batch, 0⟩
        blobs.set g { blobs.getD g default with handle := handle }) blobs
    (TNN_OK, blobs, temp)
  else
    (⟨StatusCode.TNNERR_LAYER_ERR, "split int8 resource not supported"⟩, blobs, buf)

/-- What `DoForward` sets up for one side before it moves data: `SetSplitBlobDesc` from
the aggregate blob, then `SetSplitBlobHandle`; the group blobs and their buffer. -/
def splitSide {α : Type} [Inhabited α] (self : ArmConvLayerGroup) (blob : Blob)
    (blobs : List Blob) : List Blob × List α :=
  let blobs := (self.SetSplitBlobDesc blob blobs).2.2
  let r := self.SetSplitBlobHandle blobs ([] : List α)
  (r.2.1, r.2.2)

/-- Member function `CopyInputSplitBlob`: per batch, unpack the aggregate row into a fresh flat scratch,
then pack each group's channel range into the group's buffer.  `input_mem` is the memory
the handle of `input` points into, `group_mem` the one the group handles point into. -/
def CopyInputSplitBlob {α : Type} [Inhabited α] (self : ArmConvLayerGroup) (input : Blob)
    (input_mem : List α) (group_mem : List α) : Status × List α :=
  let dims := input.desc.dims
  let group_dims := (self.group_inputs_.getD 0 default).desc.dims
  let batch := dim dims 0
  if input.desc.data_type = DataType.DATA_TYPE_FLOAT then
    let r_split_data_count_per_batch := ROUND_UP (dim dims 1 / self.group_) 4 * dim dims 2 * dim dims 3
    let r_ori_data_count_per_batch := ROUND_UP (dim dims 1) 4 * dim dims 2 * dim dims 3
    let input_origin := GetBlobHandlePtr input.handle
    let group_mem := (List.range batch).foldl (fun group_mem b =>
      let input_ptr := input_origin + b * r_ori_data_count_per_batch
      let temp : List α := RawBuffer.floats (self.group_ * r_split_data_count_per_batch * 4)
      let temp := UnpackC4 temp 0 input_mem input_ptr (dim dims 2 * dim dims 3) (dim dims 1)
      (List.range self.group_).foldl (fun group_mem g =>
        let group_input_ptr := GetBlobHandlePtr (self.group_inputs_.getD g default).handle
        PackC4 group_mem (group_input_ptr + b * r_split_data_count_per_batch)
          temp (0 + g * DimsVectorUtils.Count group_dims 1 4)
          (DimsVectorUtils.Count group_dims 2 4) (dim group_dims 1)) group_mem) group_mem
    (TNN_OK, group_mem)
  else
    (⟨StatusCode.TNNERR_LAYER_ERR, "split int8 resource not supported"⟩, group_mem)

/-- Member function `CopyOutputSplitBlob`: per batch, unpack each group's row into a fresh flat scratch at
the group's channel offset, then pack the scratch into the aggregate row.  `output_mem`
is the memory the handle of `output` points into, `group_mem` the one the group handles
point into. -/
def CopyOutputSplitBlob {α : Type} [Inhabited α] (self : ArmConvLayerGroup) (output : Blob)
    (output_mem : List α) (group_mem : List α) : Status × List α :=
  let dims := output.desc.dims
  let group_dims := (self.group_outputs_.getD 0 default).desc.dims
  let batch := dim dims 0
  if output.desc.data_type = DataType.DATA_TYPE_FLOAT then
    let r_split_data_count_per_batch := ROUND_UP (dim dims 1 / self.group_) 4 * dim dims 2 * dim dims 3
    let r_ori_data_count_per_batch := ROUND_UP (dim dims 1) 4 * dim dims 2 * dim dims 3
    let output_origin := GetBlobHandlePtr output.handle
    let output_mem := (List.range batch).foldl (fun output_mem b =>
      let output_ptr := output_origin + b * r_ori_data_count_per_batch
      let temp : List α := RawBuffer.floats (self.group_ * r_split_data_count_per_batch * 4)
      let temp := (List.range self.group_).foldl (fun temp g =>
        let group_output_ptr := GetBlobHandlePtr (self.group_outputs_.getD g default).handle
        UnpackC4 temp (0 + g * DimsVectorUtils.Count group_dims 1 4)
          group_mem (group_output_ptr + b * r_split_data_count_per_batch)
          (DimsVectorUtils.Count group_dims 2 4) (dim group_dims 1)) temp
      PackC4 output_mem output_ptr temp 0 (dim dims 2 * dim dims 3) (dim dims 1)) output_mem
    (TNN_OK, output_mem)
  else
    (⟨StatusCode.TNNERR_LAYER_ERR, "split int8 resource not supported"⟩, output_mem)

/-- The input side of `DoForward` up to step 1: the group input blobs and their buffer are
set up from the aggregate input, then `CopyInputSplitBlob` runs.  Returns the object, the
status of the copy and the group input buffer. -/
def splitInput {α : Type} [Inhabited α] (self : ArmConvLayerGroup) (input : Blob)
    (input_mem : List α) : ArmConvLayerGroup × Status × List α :=
  let side : List Blob × List α := self.splitSide input self.group_inputs_
  let self := { self with group_inputs_ := side.1 }
  let r := self.CopyInputSplitBlob input input_mem side.2
  (self, r.1, r.2)

/-- The output side of `DoForward` at step 3: the group output blobs are set up from the
aggregate output, then `CopyOutputSplitBlob` runs on the group output buffer `group_mem`
(in `DoForward`, the fresh buffer after the sub-kernels wrote it).  Returns the object, the
status of the copy and the memory of the aggregate output. -/
def mergeOutput {α : Type} [Inhabited α] (self : ArmConvLayerGroup) (output : Blob)
    (output_mem group_mem : List α) : ArmConvLayerGroup × Status × List α :=
  let side : List Blob × List α := self.splitSide output self.group_outputs_
  let self := { self with group_outputs_ := side.1 }
  let r := self.CopyOutputSplitBlob output output_mem group_mem
  (self, r.1, r.2)

/-- Member function `SplitResource`: for a float filter, group `g` gets the `GetBytesSize() / group_`
bytes at offset `g * (GetBytesSize() / group_)` of the filter, and likewise of the bias
when the parameters have a bias; any other filter type is an error, returned before the
group's resource is pushed. -/
def SplitResource (self : ArmConvLayerGroup) (resources : List ConvLayerResource) :
    Status × List ConvLayerResource :=
  let conv_param := self.param_
  let conv_res := self.resource_
  let group_filter_bytes_size := conv_res.filter_handle.GetBytesSize / self.group_
  let origin_filter_ptr := conv_res.filter_handle.force_to
  let r := forReturn (fun g (resources : List ConvLayerResource) =>
    let group_res : ConvLayerResource := default
    if conv_res.filter_handle.GetDataType = DataType.DATA_TYPE_FLOAT then
      let group_res := { group_res with
        filter_handle := RawBuffer.ofPtr group_filter_bytes_size (origin_filter_ptr.add (g * group_filter_bytes_size)) }
      let group_res :=
        if conv_param.bias then
          let group_bias_bytes_size := conv_res.bias_handle.GetBytesSize / self.group_
          let origin_bias_ptr := conv_res.bias_handle.force_to
          { group_res with
            bias_handle := RawBuffer.ofPtr group_bias_bytes_size (origin_bias_ptr.add (g * group_bias_bytes_size)) }
        else group_res
      (none, resources ++ [group_res])
    else
      (some ⟨StatusCode.TNNERR_LAYER_ERR, "split int8 resource not supported"⟩, resources))
    (List.range self.group_) resources
  match r with
  | (some st, resources) => (st, resources)
  | (none, resources) => (TNN_OK, resources)

/-- Modelled from the spec: the base class `ArmLayerAcc::Init` (not in the source tree)
records the parameters and the resource in `param_` and `resource_`, which the other
member functions read as "the aggregate convolution parameters" and "the aggregate filter
resource"; its status is the collaborator's. -/
def baseInit {α : Type} (env : Env α) (self : ArmConvLayerGroup) (param : ConvLayerParam)
    (resource : ConvLayerResource) (inputs outputs : List Blob) : Status × ArmConvLayerGroup :=
  (env.baseInit param resource inputs outputs, { self with param_ := param, resource_ := resource })

/-- The call `tmp_acc->Init(...)` on a sub-kernel: the collaborator's status, and the
instance remembers its arguments. -/
def accInit {α : Type} (env : Env α) (acc : ArmLayerAcc) (args : InitArgs) : Status × ArmLayerAcc :=
  (env.accInit acc.impl args, { acc with init_args := some args })

/-- The first loop of `Init`: `group_` times, an empty blob is pushed on each side. -/
def initBlobs (self : ArmConvLayerGroup) : ArmConvLayerGroup :=
  (List.range self.group_).foldl (fun (self : ArmConvLayerGroup) _ =>
    let empty_desc : BlobDesc := default
    let self := { self with group_inputs_ := self.group_inputs_ ++ [Blob.mk empty_desc default] }
    { self with group_outputs_ := self.group_outputs_ ++ [Blob.mk empty_desc default] }) self

/-- The body of the second loop of `Init`, for group `g`: select a sub-kernel for the
element type of `inputs[0]`, return at a null selection, initialise it on the blobs and
the resource of the group, return at a failure, else push it. -/
def initGroup {α : Type} (env : Env α) (inputs : List Blob) (resources : List ConvLayerResource)
    (g : Nat) (self : ArmConvLayerGroup) : Option Status × ArmConvLayerGroup :=
  let local_inputs : List Blob := [self.group_inputs_.getD g default]
  let local_outputs : List Blob := [self.group_outputs_.getD g default]
  let tmp_acc : Option ArmLayerAcc := none
  let tmp_acc :=
    if (inputs.getD 0 default).desc.data_type = DataType.DATA_TYPE_FLOAT then
      CreateImpFP env self local_inputs local_outputs self.group_conv_param_ tmp_acc
    else if (inputs.getD 0 default).desc.data_type = DataType.DATA_TYPE_INT8 then
      CreateImpInt8 self local_inputs local_outputs self.group_conv_param_ tmp_acc
    else tmp_acc
  match tmp_acc with
  | none => (some paramNullStatus, self)
  | some acc =>
    let r := accInit env acc ⟨self.group_conv_param_, resources.get? g, local_inputs, local_outputs⟩
    if !r.1.isOk then (some r.1, self) else
    (none, { self with conv_acc_impls_ := self.conv_acc_impls_ ++ [some r.2] })

/-- Member function `Init`: null checks, base class, `group_` blobs per side, group parameters, resource
views, group descriptors, then one selected and initialised sub-kernel per group; every
`RETURN_ON_NEQ` and `CHECK_PARAM_NULL` returns at once. -/
def Init {α : Type} (env : Env α) (self : ArmConvLayerGroup) (param : Option ConvLayerParam)
    (resource : Option ConvLayerResource) (inputs outputs : List Blob) : Status × ArmConvLayerGroup :=
  let resources : List ConvLayerResource := []
  match param with
  | none => (paramNullStatus, self)
  | some conv_param =>
  match resource with
  | none => (paramNullStatus, self)
  | some conv_res =>
  let (st, self) := baseInit env self conv_param conv_res inputs outputs
  if !st.isOk then (st, self) else
  let self := { self with group_ := conv_param.group }
  let self := initBlobs self
  let (st, self, group_param) := self.SetGroupParam self.group_conv_param_
  let self := { self with group_conv_param_ := group_param }
  if !st.isOk then (st, self) else
  let (st, resources) := self.SplitResource resources
  if !st.isOk then (st, self) else
  let (st, _, blobs) := self.SetSplitBlobDesc (inputs.getD 0 default) self.group_inputs_
  let self := { self with group_inputs_ := blobs }
  if !st.isOk then (st, self) else
  let (st, _, blobs) := self.SetSplitBlobDesc (outputs.getD 0 default) self.group_outputs_
  let self := { self with group_outputs_ := blobs }
  if !st.isOk then (st, self) else
  match forReturn (initGroup env inputs resources) (List.range self.group_) self with
  | (some st, self) => (st, self)
  | (none, self) => (TNN_OK, self)

end ArmConvLayerGroup

/-- What a forward call does, in order. -/
inductive Event where
  | split
  | forward (i : Nat)
  | merge
  deriving DecidableEq, Repr

/-- The outcome of `DoForward`: the status, the object, the memory of the aggregate
output, and the log of the steps that ran. -/
structure ForwardResult (α : Type) where
  status : Status
  self : ArmConvLayerGroup
  output_mem : List α
  log : List Event

namespace ArmConvLayerGroup

/-- The call `conv_acc_impls_[i]->DoForward(local_inputs, local_outputs)`: the sub-kernel
reads the memory of its group input blob and writes the memory of its group output
blob. -/
def accForward {α : Type} [Inhabited α] (env : Env α) (acc : ArmLayerAcc) (local_input local_output : Blob)
    (input_buf output_buf : List α) : Status × List α :=
  let r := env.accForward acc local_input.desc local_output.desc
    (readRegion input_buf (GetBlobHandlePtr local_input.handle) (packedCount local_input.desc.dims))
  (r.1, writeRegion output_buf (GetBlobHandlePtr local_output.handle) (packedCount local_output.desc.dims) r.2)

/-- The body of the loop of `DoForward`, for sub-kernel `i`: return at a null sub-kernel,
run its forward on the blobs of group `i`, return at a failure.  The state is the group
output buffer and the log. -/
def forwardGroup {α : Type} [Inhabited α] (env : Env α) (self : ArmConvLayerGroup)
    (input_buf : List α) (i : Nat) (s : List α × List Event) : Option Status × (List α × List Event) :=
  match self.conv_acc_impls_.getD i none with
  | none => (some paramNullStatus, s)
  | some acc =>
    let r := accForward env acc (self.group_inputs_.getD i default)
      (self.group_outputs_.getD i default) input_buf s.1
    if !r.1.isOk then (some r.1, (r.2, s.2 ++ [Event.forward i]))
    else (none, (r.2, s.2 ++ [Event.forward i]))

/-- Member function `DoForward`: group descriptors and buffers, split (status dropped), the sub-kernels
in index order with a return at the first null or failing one, merge (status dropped).
`input_mem` and `output_mem` are the memories of the aggregate input and output. -/
def DoForward {α : Type} [Inhabited α] (env : Env α) (self : ArmConvLayerGroup) (inputs outputs : List Blob)
    (input_mem output_mem : List α) : ForwardResult α :=
  let input_buf : List α := []
  let output_buf : List α := []
  let (st, _, blobs) := self.SetSplitBlobDesc (inputs.getD 0 default) self.group_inputs_
  let self := { self with group_inputs_ := blobs }
  if !st.isOk then ForwardResult.mk st self output_mem [] else
  let (st, _, blobs) := self.SetSplitBlobDesc (outputs.getD 0 default) self.group_outputs_
  let self := { self with group_outputs_ := blobs }
  if !st.isOk then ForwardResult.mk st self output_mem [] else
  let (st, blobs, input_buf) := self.SetSplitBlobHandle self.group_inputs_ input_buf
  let self := { self with group_inputs_ := blobs }
  if !st.isOk then ForwardResult.mk st self output_mem [] else
  let (st, blobs, output_buf) := self.SetSplitBlobHandle self.group_outputs_ output_buf
  let self := { self with group_outputs_ := blobs }
  if !st.isOk then ForwardResult.mk st self output_mem [] else
  -- step 1 : split inputs to group inputs
  let (_, input_buf) := self.CopyInputSplitBlob (inputs.getD 0 default) input_mem input_buf
  let log := [Event.split]
  -- step 2 : group forward
  if self.conv_acc_impls_.length ≠ 0 then
    match forReturn (forwardGroup env self input_buf) (List.range self.conv_acc_impls_.length)
        (output_buf, log) with
    | (some st, s) => ForwardResult.mk st self output_mem s.2
    | (none, s) =>
      -- step 3 : merge group outputs into one
      let (_, output_mem) := self.CopyOutputSplitBlob (outputs.getD 0 default) output_mem s.1
      ForwardResult.mk TNN_OK self output_mem (s.2 ++ [Event.merge])
  else
    ForwardResult.mk ⟨StatusCode.TNNERR_LAYER_ERR, "conv_acc_impl_ is nil"⟩ self output_mem log

end ArmConvLayerGroup


/-! ## The channel block of a group -/

/-- The channel that cell `i` of a lane-packed batch row with `hw` spatial positions
belongs to (a padding channel when it is not below the channel count). -/
def laneChannel (hw i : Nat) : Nat := i / (4 * hw) * 4 + i % 4

/-- The spatial position that cell `i` of a lane-packed batch row belongs to. -/
def laneSpatial (hw i : Nat) : Nat := i % (4 * hw) / 4

/-- The lane-packed tensor of dims `(N, C / G, H, W)` that holds the channel block
`[g * (C / G), (g + 1) * (C / G))` of the lane-packed aggregate tensor of dims
`(N, C, H, W)` found at `origin` in `input_mem`: cell `k` lies in batch row
`k / r`, at offset `k % r`, with `r = ROUND_UP (C / G) 4 * H * W`; a cell of a real
channel `c` holds the aggregate's channel `g * (C / G) + c`, a padding cell holds
`default`.  No channel outside the block is read. -/
def groupSlice {α : Type} [Inhabited α] (input_mem : List α) (origin N C H W G g : Nat) : List α :=
  (List.range (N * (ROUND_UP (C / G) 4 * H * W))).map (fun k =>
    if laneChannel (H * W) (k % (ROUND_UP (C / G) 4 * H * W)) < C / G then
      input_mem.getD (origin + k / (ROUND_UP (C / G) 4 * H * W) * (ROUND_UP C 4 * H * W)
        + c4Index (H * W)
            (g * (C / G) + laneChannel (H * W) (k % (ROUND_UP (C / G) 4 * H * W)))
            (laneSpatial (H * W) (k % (ROUND_UP (C / G) 4 * H * W)))) default
    else default)

/-! ## Concrete inputs -/

/-- Aggregate parameters with two groups, six output channels and a bias. -/
def exampleParam : ConvLayerParam :=
  { name := "conv", kernels := [3, 3], strides := [1, 1], dialations := [1, 1], pads := [1, 1, 1, 1],
    group := 2, output_channel := 6, bias := true }

/-- A float filter of eight bytes and a float bias of four bytes. -/
def exampleResource : ConvLayerResource :=
  { filter_handle := ⟨8, DataType.DATA_TYPE_FLOAT, ⟨[10, 11, 12, 13, 14, 15, 16, 17], 0⟩⟩
    bias_handle := ⟨4, DataType.DATA_TYPE_FLOAT, ⟨[20, 21, 22, 23], 0⟩⟩ }

/-- An object with two groups and two placeholder blobs per side, as `Init` leaves it. -/
def exampleGroup : ArmConvLayerGroup :=
  { param_ := exampleParam
    resource_ := exampleResource
    group_ := 2
    group_inputs_ := [default, default]
    group_outputs_ := [default, default]
    group_conv_param_ := none
    conv_acc_impls_ := [] }

/-- An object with three groups whose float filter has four bytes (one float). -/
def unevenGroup : ArmConvLayerGroup :=
  { exampleGroup with
    group_ := 3
    resource_ := { exampleResource with
      filter_handle := ⟨4, DataType.DATA_TYPE_FLOAT, ⟨[10, 11, 12, 13], 0⟩⟩ } }

/-- An object with two groups whose filter is quantized. -/
def int8Group : ArmConvLayerGroup :=
  { exampleGroup with
    resource_ := { exampleResource with
      filter_handle := ⟨8, DataType.DATA_TYPE_INT8, ⟨[10, 11, 12, 13, 14, 15, 16, 17], 0⟩⟩ } }

/-- A quantized aggregate blob of dims `(2, 6, 1, 2)`. -/
def int8Blob : Blob := ⟨⟨DataType.DATA_TYPE_INT8, 0, [2, 6, 1, 2], "blob"⟩, ⟨0, 0⟩⟩

/-- A float aggregate blob of dims `(2, 6, 1, 2)` whose data starts its memory. -/
def exampleBlob : Blob := ⟨⟨DataType.DATA_TYPE_FLOAT, 0, [2, 6, 1, 2], "blob"⟩, ⟨0, 0⟩⟩

/-- The memory of a lane-packed tensor of dims `(2, 6, 1, 2)`: 32 cells, all distinct. -/
def exampleMem : List Nat := (List.range 32).map (fun k => k + 100)

/-- An aggregate memory of 32 cells to merge into. -/
def exampleOut : List Nat := List.replicate 32 7

/-- Collaborators that always succeed: 3x3 is preferred for 3x3 kernels, 1x1 for 1x1
kernels, and a sub-kernel forward adds 1000 to every cell of its group input. -/
def exampleEnv : Env Nat :=
  { baseInit := fun _ _ _ _ => TNN_OK
    isPrefered3x3 := fun p _ _ => decide (p.kernels = [3, 3])
    isPrefered1x1 := fun p _ _ => decide (p.kernels = [1, 1])
    accInit := fun _ _ => TNN_OK
    accForward := fun _ _ _ data => (TNN_OK, data.map (fun v => v + 1000)) }

/-- A float aggregate blob of dims `(1, 3, 1, 1)`: three channels. -/
def oddBlob : Blob := ⟨⟨DataType.DATA_TYPE_FLOAT, 0, [1, 3, 1, 1], "odd"⟩, ⟨0, 0⟩⟩

/-- A freshly constructed object: no blobs, no sub-kernels. -/
def freshGroup : ArmConvLayerGroup :=
  { param_ := default
    resource_ := default
    group_ := 0
    group_inputs_ := []
    group_outputs_ := []
    group_conv_param_ := none
    conv_acc_impls_ := [] }

/-- Aggregate parameters with two groups and three output channels. -/
def oddParam : ConvLayerParam := { exampleParam with output_channel := 3 }

/-- The object after `Init` with `exampleParam` on the blob of dims `(2, 6, 1, 2)`: two
groups, two sub-kernels. -/
def readyGroup : ArmConvLayerGroup :=
  (ArmConvLayerGroup.Init exampleEnv freshGroup (some exampleParam) (some exampleResource)
    [exampleBlob] [exampleBlob]).2

/-- The sub-kernel of group `g` of `readyGroup`. -/
def readyAcc (g : Nat) : ArmLayerAcc :=
  (readyGroup.conv_acc_impls_.getD g none).getD (make_shared ConvImpl.ArmConvLayerCommon)

/-! ## The selection policy in the words of the spec -/

/-- The selection policy for floating-point inputs in the words of the spec, "evaluated
in fixed priority order (first match wins)": the 3x3 implementation if its predicate
accepts, else the 1x1 implementation if its predicate accepts, else the generic dense
implementation. -/
def specSelectFP (accepts3x3 accepts1x1 : Bool) : ConvImpl :=
  if accepts3x3 then ConvImpl.ArmConvLayer3x3
  else if accepts1x1 then ConvImpl.ArmConvLayer1x1
  else ConvImpl.ArmConvLayerCommon

/-- Collaborators whose 3x3 predicate accepts 3x3 kernels of an ungrouped convolution
only (`group = 1`), and whose 1x1 predicate never accepts. -/
def ungroupedOnlyEnv : Env Nat :=
  { baseInit := fun _ _ _ _ => TNN_OK
    isPrefered3x3 := fun p _ _ => decide (p.group = 1 ∧ p.kernels = [3, 3])
    isPrefered1x1 := fun _ _ _ => false
    accInit := fun _ _ => TNN_OK
    accForward := fun _ _ _ data => (TNN_OK, data) }

/-- An initialised 1x1 sub-kernel. -/
def heldAcc : ArmLayerAcc :=
  { impl := ConvImpl.ArmConvLayer1x1
    init_args := some ⟨some exampleParam, some exampleResource, [exampleBlob], [exampleBlob]⟩ }

/-! ## Names for the stages of a forward call -/

/-- The object as `DoForward` has it once both sides are set up, when the split, the
sub-kernels and the merge run: the group blobs of each side come from `SetSplitBlobDesc`
and `SetSplitBlobHandle` on the aggregate blob of that side. -/
def forwardSelf (α : Type) [Inhabited α] (self : ArmConvLayerGroup) (inputs outputs : List Blob) :
    ArmConvLayerGroup :=
  { self with
    group_inputs_ := (self.splitSide (inputs.getD 0 default) self.group_inputs_ : List Blob × List α).1
    group_outputs_ := (self.splitSide (outputs.getD 0 default) self.group_outputs_ : List Blob × List α).1 }

/-- The group input buffer as step 1 of `DoForward` leaves it. -/
def forwardInput {α : Type} [Inhabited α] (self : ArmConvLayerGroup) (inputs outputs : List Blob)
    (input_mem : List α) : List α :=
  ((forwardSelf α self inputs outputs).CopyInputSplitBlob (inputs.getD 0 default) input_mem
    (self.splitSide (inputs.getD 0 default) self.group_inputs_ : List Blob × List α).2).2

/-- The status that the forward of the instance `acc` returns when it runs as sub-kernel
`i` on the group blobs of the object `S` and the group input buffer `input_buf`. -/
def subStatus {α : Type} [Inhabited α] (env : Env α) (S : ArmConvLayerGroup) (input_buf : List α)
    (acc : ArmLayerAcc) (i : Nat) : Status :=
  (env.accForward acc (S.group_inputs_.getD i default).desc (S.group_outputs_.getD i default).desc
    (readRegion input_buf (GetBlobHandlePtr (S.group_inputs_.getD i default).handle)
      (packedCount (S.group_inputs_.getD i default).desc.dims))).1

/-- The status that the forward of the instance `acc` returns when it runs as sub-kernel
`i` of the call `DoForward(inputs, outputs)`. -/
def forwardStatus {α : Type} [Inhabited α] (env : Env α) (self : ArmConvLayerGroup)
    (inputs outputs : List Blob) (input_mem : List α) (acc : ArmLayerAcc) (i : Nat) : Status :=
  subStatus env (forwardSelf α self inputs outputs) (forwardInput self inputs outputs input_mem) acc i

/-- Collaborators whose sub-kernel forward fails with `TNNERR_OTHER 7` unless the group
input buffer starts with the cell 100. -/
def failingEnv : Env Nat :=
  { exampleEnv with
    accForward := fun _ _ _ data =>
      if data.head? = some 100 then (TNN_OK, data) else (⟨StatusCode.TNNERR_OTHER 7, "forward"⟩, data) }

/-! ## Names for the stages of `Init` -/

/-- The object when the second loop of `Init` starts: parameters and resource recorded,
`group_` set, the empty blobs pushed, the group parameters stored and both sides given
their descriptors. -/
def initState (self : ArmConvLayerGroup) (p : ConvLayerParam) (res : ConvLayerResource)
    (inputs outputs : List Blob) : ArmConvLayerGroup :=
  let s1 := ArmConvLayerGroup.initBlobs { self with param_ := p, resource_ := res, group_ := p.group }
  { s1 with
    group_conv_param_ := (s1.SetGroupParam s1.group_conv_param_).2.2
    group_inputs_ := (s1.SetSplitBlobDesc (inputs.getD 0 default) s1.group_inputs_).2.2
    group_outputs_ := (s1.SetSplitBlobDesc (outputs.getD 0 default) s1.group_outputs_).2.2 }

/-- The resource views that `Init` obtains from `SplitResource`. -/
def initResources (self : ArmConvLayerGroup) (p : ConvLayerParam) (res : ConvLayerResource)
    (inputs outputs : List Blob) : List ConvLayerResource :=
  ((initState self p res inputs outputs).SplitResource []).2

/-- Collaborators of which the `Init` of a sub-kernel fails with `TNNERR_OTHER 9` on the
resource view that starts four bytes into the filter (the view of group 1 of
`exampleResource`). -/
def initFailEnv : Env Nat :=
  { exampleEnv with
    accInit := fun _ args =>
      if (args.resource.map (fun r => r.filter_handle.ptr.offset)) = some 4 then
        ⟨StatusCode.TNNERR_OTHER 9, "init"⟩
      else TNN_OK }

open ArmConvLayerGroup

/-! ## Loops and stores -/

theorem foldl_range_succ {σ : Type} (step : σ → Nat → σ) (n : Nat) (d : σ) :
    (List.range (n + 1)).foldl step d = step ((List.range n).foldl step d) n := by
  rw [List.range_succ, List.foldl_append]
  rfl

/-- Loop invariant rule for a counting `for` loop. -/
theorem foldl_range_inv {σ : Type} (step : σ → Nat → σ) (I : Nat → σ → Prop) (n : Nat) (d0 : σ)
    (h0 : I 0 d0) (hstep : ∀ k d, k < n → I k d → I (k + 1) (step d k)) :
    I n ((List.range n).foldl step d0) := by
  induction n with
  | zero => simpa using h0
  | succ m ih =>
    rw [foldl_range_succ]
    exact hstep m _ (Nat.lt_succ_self m)
      (ih (fun k d hk hI => hstep k d (Nat.lt_succ_of_lt hk) hI))

theorem getD_set {α : Type} (l : List α) (i j : Nat) (v d : α) :
    (l.set i v).getD j d = if i = j ∧ i < l.length then v else l.getD j d := by
  simp only [List.getD_eq_getElem?_getD, List.getElem?_set]
  by_cases hij : i = j
  · subst hij
    by_cases hi : i < l.length
    · simp [hi]
    · simp [hi, List.getElem?_eq_none (Nat.le_of_not_lt hi)]
  · simp [hij]


theorem length_foldl_set {α : Type} (n : Nat) (f : Nat → Nat) (v : Nat → α) (d : List α) :
    ((List.range n).foldl (fun d k => d.set (f k) (v k)) d).length = d.length := by
  refine foldl_range_inv (fun d k => d.set (f k) (v k)) (fun _ e => e.length = d.length) n d rfl ?_
  intro k e _ he
  simpa using he

theorem getD_foldl_set_frame {α : Type} [Inhabited α] (n : Nat) (f : Nat → Nat) (v : Nat → α)
    (d : List α) (a : Nat) (h : ∀ k, k < n → f k ≠ a) :
    ((List.range n).foldl (fun d k => d.set (f k) (v k)) d).getD a default = d.getD a default := by
  refine foldl_range_inv (fun d k => d.set (f k) (v k))
    (fun m e => m ≤ n → e.getD a default = d.getD a default) n d (fun _ => rfl) ?_ (Nat.le_refl n)
  intro k e hk he _
  rw [getD_set, if_neg (fun hc => h k hk hc.1)]
  exact he (Nat.le_of_lt hk)

theorem getD_foldl_set_hit {α : Type} [Inhabited α] (n : Nat) (f : Nat → Nat) (v : Nat → α)
    (d : List α) (k : Nat) (hk : k < n) (hinj : ∀ j, j < n → f j = f k → j = k)
    (hb : f k < d.length) :
    ((List.range n).foldl (fun d k => d.set (f k) (v k)) d).getD (f k) default = v k := by
  have key := foldl_range_inv (fun d k => d.set (f k) (v k))
    (fun m e => e.length = d.length ∧ (k < m → e.getD (f k) default = v k)) n d
    ⟨rfl, fun h => absurd h (Nat.not_lt_zero k)⟩ ?_
  · exact key.2 hk
  · intro j e hj he
    refine ⟨by simpa using he.1, fun hkj => ?_⟩
    rw [getD_set]
    by_cases hjk : j = k
    · subst hjk
      rw [if_pos ⟨rfl, by rw [he.1]; exact hb⟩]
    · rw [if_neg (fun hc => hjk (hinj j hj hc.1))]
      exact he.2 (Nat.lt_of_le_of_ne (Nat.le_of_lt_succ hkj) (fun h => hjk h.symm))

theorem length_nest_set {α : Type} (n m : Nat) (f : Nat → Nat → Nat) (v : Nat → Nat → α) (d : List α) :
    ((List.range n).foldl (fun d c =>
      (List.range m).foldl (fun d s => d.set (f c s) (v c s)) d) d).length = d.length := by
  refine foldl_range_inv _ (fun _ e => e.length = d.length) n d rfl ?_
  intro k e _ he
  rw [length_foldl_set]
  exact he

theorem getD_nest_set_frame {α : Type} [Inhabited α] (n m : Nat) (f : Nat → Nat → Nat)
    (v : Nat → Nat → α) (d : List α) (a : Nat) (h : ∀ c s, c < n → s < m → f c s ≠ a) :
    ((List.range n).foldl (fun d c =>
      (List.range m).foldl (fun d s => d.set (f c s) (v c s)) d) d).getD a default
      = d.getD a default := by
  refine foldl_range_inv _ (fun k e => k ≤ n → e.getD a default = d.getD a default) n d
    (fun _ => rfl) ?_ (Nat.le_refl n)
  intro k e hk he _
  rw [getD_foldl_set_frame m (f k) (v k) e a (fun s hs => h k s hk hs)]
  exact he (Nat.le_of_lt hk)

theorem getD_nest_set_hit {α : Type} [Inhabited α] (n m : Nat) (f : Nat → Nat → Nat)
    (v : Nat → Nat → α) (d : List α) (c s : Nat) (hc : c < n) (hs : s < m)
    (hinj : ∀ c1 s1, c1 < n → s1 < m → f c1 s1 = f c s → c1 = c ∧ s1 = s)
    (hb : f c s < d.length) :
    ((List.range n).foldl (fun d c =>
      (List.range m).foldl (fun d s => d.set (f c s) (v c s)) d) d).getD (f c s) default
      = v c s := by
  have key := foldl_range_inv
    (fun d c => (List.range m).foldl (fun d s => d.set (f c s) (v c s)) d)
    (fun k e => e.length = d.length ∧ (c < k → e.getD (f c s) default = v c s)) n d
    ⟨rfl, fun h => absurd h (Nat.not_lt_zero c)⟩ ?_
  · exact key.2 hc
  · intro j e hj he
    refine ⟨by rw [length_foldl_set]; exact he.1, fun hcj => ?_⟩
    by_cases hjc : j = c
    · subst hjc
      exact getD_foldl_set_hit m (f j) (v j) e s hs
        (fun s1 hs1 h1 => (hinj j s1 hj hs1 h1).2) (by rw [he.1]; exact hb)
    · rw [getD_foldl_set_frame m (f j) (v j) e (f c s)
        (fun s1 hs1 h1 => hjc (hinj j s1 hj hs1 h1).1)]
      exact he.2 (Nat.lt_of_le_of_ne (Nat.le_of_lt_succ hcj) (fun h => hjc h.symm))


/-! ## Index arithmetic -/

theorem flat_inj (hw c s c1 s1 : Nat) (hs : s < hw) (hs1 : s1 < hw)
    (h : c1 * hw + s1 = c * hw + s) : c1 = c ∧ s1 = s := by
  have hpos : 0 < hw := Nat.lt_of_le_of_lt (Nat.zero_le s) hs
  have e1 : (c1 * hw + s1) / hw = c1 := by
    rw [Nat.add_comm, Nat.add_mul_div_right _ _ hpos, Nat.div_eq_of_lt hs1, Nat.zero_add]
  have e2 : (c * hw + s) / hw = c := by
    rw [Nat.add_comm, Nat.add_mul_div_right _ _ hpos, Nat.div_eq_of_lt hs, Nat.zero_add]
  have hc : c1 = c := by rw [← e1, ← e2, h]
  subst hc
  exact ⟨rfl, by omega⟩

theorem flat_lt (hw n c s : Nat) (hc : c < n) (hs : s < hw) : c * hw + s < n * hw := by
  have h1 : (c + 1) * hw ≤ n * hw := Nat.mul_le_mul_right hw hc
  rw [Nat.add_mul] at h1
  omega

theorem c4Index_inj (hw c s c1 s1 : Nat) (hs : s < hw) (hs1 : s1 < hw)
    (h : c4Index hw c1 s1 = c4Index hw c s) : c1 = c ∧ s1 = s := by
  unfold c4Index at h
  have h2 : c1 / 4 * hw + s1 = c / 4 * hw + s := by omega
  have h3 := flat_inj hw (c / 4) s (c1 / 4) s1 hs hs1 h2
  exact ⟨by omega, h3.2⟩

theorem ROUND_UP_four (x : Nat) : ROUND_UP x 4 = (x + 3) / 4 * 4 := rfl

theorem le_ROUND_UP_four (x : Nat) : x ≤ ROUND_UP x 4 := by
  rw [ROUND_UP_four]; omega

theorem c4Index_lt (hw n c s : Nat) (hc : c < n) (hs : s < hw) :
    c4Index hw c s < ROUND_UP n 4 * hw := by
  unfold c4Index
  rw [ROUND_UP_four]
  have hq : c / 4 + 1 ≤ (n + 3) / 4 := by omega
  have h1 : (c / 4 + 1) * hw ≤ (n + 3) / 4 * hw := Nat.mul_le_mul_right hw hq
  rw [Nat.add_mul] at h1
  have h2 : (n + 3) / 4 * 4 * hw = (n + 3) / 4 * hw * 4 := by
    rw [Nat.mul_assoc, Nat.mul_comm 4 hw, ← Nat.mul_assoc]
  rw [h2]
  omega


/-! ## `PackC4` and `UnpackC4`, pointwise -/

theorem length_PackC4 {α : Type} [Inhabited α] (dst : List α) (p : Nat) (src : List α) (q hw ch : Nat) :
    (PackC4 dst p src q hw ch).length = dst.length :=
  length_nest_set ch hw (fun c s => p + c4Index hw c s)
    (fun c s => src.getD (q + (c * hw + s)) default) dst

theorem getD_PackC4_hit {α : Type} [Inhabited α] (dst : List α) (p : Nat) (src : List α)
    (q hw ch c s : Nat) (hc : c < ch) (hs : s < hw) (hb : p + c4Index hw c s < dst.length) :
    (PackC4 dst p src q hw ch).getD (p + c4Index hw c s) default
      = src.getD (q + (c * hw + s)) default :=
  getD_nest_set_hit ch hw (fun c s => p + c4Index hw c s)
    (fun c s => src.getD (q + (c * hw + s)) default) dst c s hc hs
    (fun c1 s1 _ hs1 h => c4Index_inj hw c s c1 s1 hs hs1 (Nat.add_left_cancel h)) hb

theorem getD_PackC4_frame {α : Type} [Inhabited α] (dst : List α) (p : Nat) (src : List α)
    (q hw ch a : Nat) (h : a < p ∨ p + ROUND_UP ch 4 * hw ≤ a) :
    (PackC4 dst p src q hw ch).getD a default = dst.getD a default := by
  refine getD_nest_set_frame ch hw (fun c s => p + c4Index hw c s)
    (fun c s => src.getD (q + (c * hw + s)) default) dst a ?_
  intro c s hc hs
  have := c4Index_lt hw ch c s hc hs
  show p + c4Index hw c s ≠ a
  omega

theorem length_UnpackC4 {α : Type} [Inhabited α] (dst : List α) (p : Nat) (src : List α) (q hw ch : Nat) :
    (UnpackC4 dst p src q hw ch).length = dst.length :=
  length_nest_set ch hw (fun c s => p + (c * hw + s))
    (fun c s => src.getD (q + c4Index hw c s) default) dst

theorem getD_UnpackC4_hit {α : Type} [Inhabited α] (dst : List α) (p : Nat) (src : List α)
    (q hw ch c s : Nat) (hc : c < ch) (hs : s < hw) (hb : p + (c * hw + s) < dst.length) :
    (UnpackC4 dst p src q hw ch).getD (p + (c * hw + s)) default
      = src.getD (q + c4Index hw c s) default :=
  getD_nest_set_hit ch hw (fun c s => p + (c * hw + s))
    (fun c s => src.getD (q + c4Index hw c s) default) dst c s hc hs
    (fun c1 s1 _ hs1 h => flat_inj hw c s c1 s1 hs hs1 (Nat.add_left_cancel h)) hb

theorem getD_UnpackC4_frame {α : Type} [Inhabited α] (dst : List α) (p : Nat) (src : List α)
    (q hw ch a : Nat) (h : a < p ∨ p + ch * hw ≤ a) :
    (UnpackC4 dst p src q hw ch).getD a default = dst.getD a default := by
  refine getD_nest_set_frame ch hw (fun c s => p + (c * hw + s))
    (fun c s => src.getD (q + c4Index hw c s) default) dst a ?_
  intro c s hc hs
  have := flat_lt hw ch c s hc hs
  show p + (c * hw + s) ≠ a
  omega

/-- Two batch rows of two groups in the shared group buffer do not overlap. -/
theorem region_disjoint (N r g b g0 b0 i : Nat) (hb : b < N) (hb0 : b0 < N) (hi : i < r)
    (hne : ¬ (g = g0 ∧ b = b0)) :
    g0 * (r * N) + b0 * r + i < g * (r * N) + b * r ∨ g * (r * N) + b * r + r ≤ g0 * (r * N) + b0 * r + i := by
  by_contra hcon
  have e1 : g * (r * N) + b * r = (g * N + b) * r := by
    rw [Nat.add_mul, Nat.mul_assoc, Nat.mul_comm N r]
  have e0 : g0 * (r * N) + b0 * r = (g0 * N + b0) * r := by
    rw [Nat.add_mul, Nat.mul_assoc, Nat.mul_comm N r]
  rw [e1, e0] at hcon
  have hr : 0 < r := Nat.lt_of_le_of_lt (Nat.zero_le i) hi
  have d0 : ((g0 * N + b0) * r + i) / r = g0 * N + b0 := by
    rw [Nat.add_comm, Nat.add_mul_div_right _ _ hr, Nat.div_eq_of_lt hi, Nat.zero_add]
  have d1 : ((g0 * N + b0) * r + i) / r = g * N + b := by
    apply Nat.div_eq_of_lt_le
    · omega
    · have e2 : (g * N + b + 1) * r = (g * N + b) * r + r := by
        rw [Nat.add_mul, Nat.one_mul]
      omega
  exact hne (flat_inj N g0 b0 g b hb0 hb (d1.symm.trans d0))

/-- A batch row of a group lies inside the shared group buffer. -/
theorem region_inside (G N r g b i : Nat) (hg : g < G) (hb : b < N) (hi : i < r) :
    g * (r * N) + b * r + i < G * N * r := by
  have e1 : g * (r * N) + b * r = (g * N + b) * r := by
    rw [Nat.add_mul, Nat.mul_assoc, Nat.mul_comm N r]
  rw [e1]
  exact flat_lt r (G * N) (g * N + b) i (flat_lt N G g b hg hb) hi


/-! ## The split, pointwise -/

/-- The double loop of the split: the row of batch `b0` of group `g0` holds, lane-packed,
what the scratch of batch `b0` holds at the source offset of group `g0`. -/
theorem split_core {α : Type} [Inhabited α] (G N q HW r : Nat) (D : Nat → Nat → Nat)
    (T : Nat → List α) (S : Nat → Nat) (group_mem : List α)
    (hr : ROUND_UP q 4 * HW = r)
    (hD : ∀ g b, g < G → b < N → D g b = g * (r * N) + b * r)
    (hlen : group_mem.length = G * N * r)
    (g0 b0 c s : Nat) (hg0 : g0 < G) (hb0 : b0 < N) (hc : c < q) (hs : s < HW) :
    ((List.range N).foldl (fun gm b =>
      (List.range G).foldl (fun gm g => PackC4 gm (D g b) (T b) (S g) HW q) gm) group_mem).getD
        (D g0 b0 + c4Index HW c s) default
      = (T b0).getD (S g0 + (c * HW + s)) default := by
  have hidx : c4Index HW c s < r := hr ▸ c4Index_lt HW q c s hc hs
  have inner_len : ∀ b (gm : List α),
      ((List.range G).foldl (fun gm g => PackC4 gm (D g b) (T b) (S g) HW q) gm).length
        = gm.length := by
    intro b gm
    refine foldl_range_inv _ (fun _ e => e.length = gm.length) G gm rfl ?_
    intro k e _ he
    rw [length_PackC4]; exact he
  have key := foldl_range_inv
    (fun gm b => (List.range G).foldl (fun gm g => PackC4 gm (D g b) (T b) (S g) HW q) gm)
    (fun k gm => gm.length = G * N * r ∧
      (b0 < k → gm.getD (D g0 b0 + c4Index HW c s) default
        = (T b0).getD (S g0 + (c * HW + s)) default)) N group_mem
    ⟨hlen, fun h => absurd h (Nat.not_lt_zero b0)⟩ ?_
  · exact key.2 hb0
  · intro b gm hb hI
    refine ⟨by rw [inner_len]; exact hI.1, fun hlt => ?_⟩
    by_cases hbb : b = b0
    · subst hbb
      have inner := foldl_range_inv
        (fun gm g => PackC4 gm (D g b) (T b) (S g) HW q)
        (fun k e => e.length = G * N * r ∧
          (g0 < k → e.getD (D g0 b + c4Index HW c s) default
            = (T b).getD (S g0 + (c * HW + s)) default)) G gm
        ⟨hI.1, fun h => absurd h (Nat.not_lt_zero g0)⟩ ?_
      · exact inner.2 hg0
      · intro g e hg he
        refine ⟨by rw [length_PackC4]; exact he.1, fun hgl => ?_⟩
        by_cases hgg : g = g0
        · subst hgg
          refine getD_PackC4_hit e (D g b) (T b) (S g) HW q c s hc hs ?_
          rw [he.1, hD g b hg hb]
          exact region_inside G N r g b _ hg hb hidx
        · rw [getD_PackC4_frame]
          · exact he.2 (Nat.lt_of_le_of_ne (Nat.le_of_lt_succ hgl) (fun h => hgg h.symm))
          · rw [hD g b hg hb, hD g0 b hg0 hb, hr]
            exact region_disjoint N r g b g0 b _ hb hb hidx (fun h => hgg h.1)
    · have inner := foldl_range_inv
        (fun gm g => PackC4 gm (D g b) (T b) (S g) HW q)
        (fun k e => k ≤ G → e.getD (D g0 b0 + c4Index HW c s) default
            = gm.getD (D g0 b0 + c4Index HW c s) default) G gm (fun _ => rfl) ?_ (Nat.le_refl G)
      · rw [inner]
        exact hI.2 (Nat.lt_of_le_of_ne (Nat.le_of_lt_succ hlt) (fun h => hbb h.symm))
      · intro g e hg he _
        rw [getD_PackC4_frame]
        · exact he (Nat.le_of_lt hg)
        · rw [hD g b hg hb, hD g0 b0 hg0 hb0, hr]
          exact region_disjoint N r g b g0 b0 _ hb hb0 hidx (fun h => hbb h.2)


/-! ## The group blobs -/

theorem foldl_set_each {β : Type} [Inhabited β] (n : Nat) (F : Nat → β → β) (bl : List β) :
    ((List.range n).foldl (fun bl g => bl.set g (F g (bl.getD g default))) bl).length = bl.length ∧
    ∀ g, ((List.range n).foldl (fun bl g => bl.set g (F g (bl.getD g default))) bl).getD g default
      = if g < n ∧ g < bl.length then F g (bl.getD g default) else bl.getD g default := by
  refine foldl_range_inv (fun bl g => bl.set g (F g (bl.getD g default)))
    (fun k e => e.length = bl.length ∧ ∀ g, e.getD g default
      = if g < k ∧ g < bl.length then F g (bl.getD g default) else bl.getD g default) n bl
    ⟨rfl, fun g => by simp⟩ ?_
  intro k e _ he
  refine ⟨by simpa using he.1, fun g => ?_⟩
  rw [getD_set, he.1]
  by_cases hkg : k = g
  · subst hkg
    by_cases hk : k < bl.length
    · rw [if_pos ⟨rfl, hk⟩, if_pos ⟨Nat.lt_succ_self k, hk⟩, he.2 k,
        if_neg (fun h => Nat.lt_irrefl k h.1)]
    · rw [if_neg (fun h => hk h.2), if_neg (fun h => hk h.2), he.2 k,
        if_neg (fun h => hk h.2)]
  · rw [if_neg (fun h => hkg h.1), he.2 g]
    have : (g < k ∧ g < bl.length) ↔ (g < k + 1 ∧ g < bl.length) := by omega
    simp only [this]

theorem CopyInputSplitBlob_getD {α : Type} [Inhabited α] (self : ArmConvLayerGroup) (input : Blob)
    (input_mem group_mem : List α) (N C H W : Nat)
    (hfloat : input.desc.data_type = DataType.DATA_TYPE_FLOAT)
    (hdims : input.desc.dims = [N, C, H, W]) (hdiv : C % self.group_ = 0)
    (hgd : (self.group_inputs_.getD 0 default).desc.dims = [N, C / self.group_, H, W])
    (hh : ∀ g, g < self.group_ → GetBlobHandlePtr (self.group_inputs_.getD g default).handle
      = g * (ROUND_UP (C / self.group_) 4 * H * W * N))
    (hlen : group_mem.length = self.group_ * N * (ROUND_UP (C / self.group_) 4 * H * W))
    (b g c s : Nat) (hb : b < N) (hg : g < self.group_) (hc : c < C / self.group_) (hs : s < H * W) :
    (self.CopyInputSplitBlob input input_mem group_mem).2.getD
        (GetBlobHandlePtr (self.group_inputs_.getD g default).handle
          + b * (ROUND_UP (C / self.group_) 4 * H * W) + c4Index (H * W) c s) default
      = input_mem.getD (GetBlobHandlePtr input.handle + b * (ROUND_UP C 4 * H * W)
          + c4Index (H * W) (g * (C / self.group_) + c) s) default := by
  simp only [CopyInputSplitBlob, hdims, hgd, hfloat, if_true, dim, List.getD_cons_zero,
    List.getD_cons_succ, DimsVectorUtils.Count, List.take, List.drop, List.prod_cons,
    List.prod_nil, Nat.mul_one, Nat.zero_add]
  have hC : self.group_ * (C / self.group_) = C := Nat.mul_div_cancel' (Nat.dvd_of_mod_eq_zero hdiv)
  have hcC : g * (C / self.group_) + c < C := by
    have := flat_lt (C / self.group_) self.group_ g c hg hc
    rw [hC] at this; exact this
  refine Eq.trans (split_core self.group_ N (C / self.group_) (H * W)
    (ROUND_UP (C / self.group_) 4 * H * W)
    (fun g b => GetBlobHandlePtr (self.group_inputs_.getD g default).handle
      + b * (ROUND_UP (C / self.group_) 4 * H * W))
    (fun b => UnpackC4
      (RawBuffer.floats (self.group_ * (ROUND_UP (C / self.group_) 4 * H * W) * 4)) 0
      input_mem (GetBlobHandlePtr input.handle + b * (ROUND_UP C 4 * H * W)) (H * W) C)
    (fun g => g * (C / self.group_ * (H * W))) group_mem
    (Nat.mul_assoc _ _ _).symm (fun g1 b1 hg1 _ => by simp only [hh g1 hg1]) hlen g b c s hg hb hc hs) ?_
  have e : g * (C / self.group_ * (H * W)) + (c * (H * W) + s)
      = 0 + ((g * (C / self.group_) + c) * (H * W) + s) := by
    rw [Nat.zero_add, Nat.add_mul, Nat.mul_assoc, Nat.add_assoc]
  show (UnpackC4 _ 0 input_mem _ (H * W) C).getD
    (g * (C / self.group_ * (H * W)) + (c * (H * W) + s)) default = _
  rw [e]
  refine getD_UnpackC4_hit _ 0 input_mem _ (H * W) C _ s hcC hs ?_
  have h1 := flat_lt (H * W) C _ s hcC hs
  have h2 : C * (H * W) ≤ self.group_ * (ROUND_UP (C / self.group_) 4 * H * W) := by
    calc C * (H * W) = self.group_ * (C / self.group_) * (H * W) := by rw [hC]
      _ = self.group_ * (C / self.group_ * (H * W)) := Nat.mul_assoc _ _ _
      _ ≤ self.group_ * (ROUND_UP (C / self.group_) 4 * (H * W)) :=
        Nat.mul_le_mul_left _ (Nat.mul_le_mul_right _ (le_ROUND_UP_four _))
      _ = self.group_ * (ROUND_UP (C / self.group_) 4 * H * W) := by rw [Nat.mul_assoc _ H W]
  simp only [RawBuffer.floats, List.length_replicate, Nat.mul_div_cancel _ (by decide : 0 < 4)]
  omega


/-! ## The merge, pointwise -/

/-- Two rows of equal size laid out one after the other do not overlap. -/
theorem row_disjoint (R k k0 i : Nat) (hi : i < R) (hne : k ≠ k0) :
    k0 * R + i < k * R ∨ k * R + R ≤ k0 * R + i := by
  rcases Nat.lt_or_gt_of_ne hne with h | h
  · right
    have h1 : (k + 1) * R ≤ k0 * R := Nat.mul_le_mul_right R h
    rw [Nat.add_mul, Nat.one_mul] at h1
    omega
  · left
    have h1 : (k0 + 1) * R ≤ k * R := Nat.mul_le_mul_right R h
    rw [Nat.add_mul, Nat.one_mul] at h1
    omega

/-- The scratch of the merge: at the channel offset of group `g0` it holds, channel-major,
the lane-packed row that group `g0` is read from. -/
theorem gather_core {α : Type} [Inhabited α] (G q HW : Nat) (S : Nat → Nat)
    (group_mem temp0 : List α) (hlen : G * (q * HW) ≤ temp0.length)
    (g0 c s : Nat) (hg0 : g0 < G) (hc : c < q) (hs : s < HW) :
    ((List.range G).foldl (fun temp g =>
      UnpackC4 temp (g * (q * HW)) group_mem (S g) HW q) temp0).getD
        (g0 * (q * HW) + (c * HW + s)) default
      = group_mem.getD (S g0 + c4Index HW c s) default := by
  have hi : c * HW + s < q * HW := flat_lt HW q c s hc hs
  have key := foldl_range_inv
    (fun temp g => UnpackC4 temp (g * (q * HW)) group_mem (S g) HW q)
    (fun k e => e.length = temp0.length ∧
      (g0 < k → e.getD (g0 * (q * HW) + (c * HW + s)) default
        = group_mem.getD (S g0 + c4Index HW c s) default)) G temp0
    ⟨rfl, fun h => absurd h (Nat.not_lt_zero g0)⟩ ?_
  · exact key.2 hg0
  · intro g e hg he
    refine ⟨by rw [length_UnpackC4]; exact he.1, fun hgl => ?_⟩
    by_cases hgg : g = g0
    · subst hgg
      refine getD_UnpackC4_hit e _ group_mem (S g) HW q c s hc hs ?_
      have := flat_lt (q * HW) G g (c * HW + s) hg hi
      rw [he.1]; omega
    · rw [getD_UnpackC4_frame]
      · exact he.2 (Nat.lt_of_le_of_ne (Nat.le_of_lt_succ hgl) (fun h => hgg h.symm))
      · exact row_disjoint (q * HW) g g0 _ hi hgg

/-- The outer loop of the merge: the row of batch `b0` of the aggregate holds,
lane-packed, the scratch of batch `b0`. -/
theorem merge_core {α : Type} [Inhabited α] (N C HW rori origin : Nat) (T : Nat → List α)
    (output_mem : List α) (hr : ROUND_UP C 4 * HW = rori)
    (hlen : origin + N * rori ≤ output_mem.length)
    (b0 c s : Nat) (hb0 : b0 < N) (hc : c < C) (hs : s < HW) :
    ((List.range N).foldl (fun om b =>
      PackC4 om (origin + b * rori) (T b) 0 HW C) output_mem).getD
        (origin + b0 * rori + c4Index HW c s) default
      = (T b0).getD (0 + (c * HW + s)) default := by
  have hi : c4Index HW c s < rori := hr ▸ c4Index_lt HW C c s hc hs
  have key := foldl_range_inv
    (fun om b => PackC4 om (origin + b * rori) (T b) 0 HW C)
    (fun k e => e.length = output_mem.length ∧
      (b0 < k → e.getD (origin + b0 * rori + c4Index HW c s) default
        = (T b0).getD (0 + (c * HW + s)) default)) N output_mem
    ⟨rfl, fun h => absurd h (Nat.not_lt_zero b0)⟩ ?_
  · exact key.2 hb0
  · intro b e hb he
    refine ⟨by rw [length_PackC4]; exact he.1, fun hbl => ?_⟩
    by_cases hbb : b = b0
    · subst hbb
      refine getD_PackC4_hit e _ (T b) 0 HW C c s hc hs ?_
      have := flat_lt rori N b _ hb hi
      rw [he.1]; omega
    · rw [getD_PackC4_frame]
      · exact he.2 (Nat.lt_of_le_of_ne (Nat.le_of_lt_succ hbl) (fun h => hbb h.symm))
      · rw [hr]
        have := row_disjoint rori b b0 _ hi hbb
        omega

theorem CopyOutputSplitBlob_getD {α : Type} [Inhabited α] (self : ArmConvLayerGroup) (output : Blob)
    (output_mem group_mem : List α) (N C H W : Nat)
    (hfloat : output.desc.data_type = DataType.DATA_TYPE_FLOAT)
    (hdims : output.desc.dims = [N, C, H, W]) (hdiv : C % self.group_ = 0)
    (hgd : (self.group_outputs_.getD 0 default).desc.dims = [N, C / self.group_, H, W])
    (hlen : GetBlobHandlePtr output.handle + N * (ROUND_UP C 4 * H * W) ≤ output_mem.length)
    (b g c s : Nat) (hb : b < N) (hg : g < self.group_) (hc : c < C / self.group_) (hs : s < H * W) :
    (self.CopyOutputSplitBlob output output_mem group_mem).2.getD
        (GetBlobHandlePtr output.handle + b * (ROUND_UP C 4 * H * W)
          + c4Index (H * W) (g * (C / self.group_) + c) s) default
      = group_mem.getD (GetBlobHandlePtr (self.group_outputs_.getD g default).handle
          + b * (ROUND_UP (C / self.group_) 4 * H * W) + c4Index (H * W) c s) default := by
  simp only [CopyOutputSplitBlob, hdims, hgd, hfloat, if_true, dim, List.getD_cons_zero,
    List.getD_cons_succ, DimsVectorUtils.Count, List.take, List.drop, List.prod_cons,
    List.prod_nil, Nat.mul_one, Nat.zero_add]
  have hC : self.group_ * (C / self.group_) = C := Nat.mul_div_cancel' (Nat.dvd_of_mod_eq_zero hdiv)
  have hcC : g * (C / self.group_) + c < C := by
    have := flat_lt (C / self.group_) self.group_ g c hg hc
    rw [hC] at this; exact this
  refine Eq.trans (merge_core N C (H * W) (ROUND_UP C 4 * H * W) (GetBlobHandlePtr output.handle)
    (fun b => (List.range self.group_).foldl (fun temp g =>
      UnpackC4 temp (g * (C / self.group_ * (H * W))) group_mem
        (GetBlobHandlePtr (self.group_outputs_.getD g default).handle
          + b * (ROUND_UP (C / self.group_) 4 * H * W)) (H * W) (C / self.group_))
      (RawBuffer.floats (self.group_ * (ROUND_UP (C / self.group_) 4 * H * W) * 4)))
    output_mem (Nat.mul_assoc _ _ _).symm hlen b _ s hb hcC hs) ?_
  have e : 0 + ((g * (C / self.group_) + c) * (H * W) + s)
      = g * (C / self.group_ * (H * W)) + (c * (H * W) + s) := by
    rw [Nat.zero_add, Nat.add_mul, Nat.mul_assoc, Nat.add_assoc]
  rw [e]
  refine gather_core self.group_ (C / self.group_) (H * W)
    (fun g => GetBlobHandlePtr (self.group_outputs_.getD g default).handle
      + b * (ROUND_UP (C / self.group_) 4 * H * W)) group_mem _ ?_ g c s hg hc hs
  simp only [RawBuffer.floats, List.length_replicate, Nat.mul_div_cancel _ (by decide : 0 < 4)]
  rw [Nat.mul_assoc _ H W]
  exact Nat.mul_le_mul_left _ (Nat.mul_le_mul_right _ (le_ROUND_UP_four _))


/-! ## What the setters establish -/

theorem SetSplitBlobDesc_length (self : ArmConvLayerGroup) (blob : Blob) (blobs : List Blob) :
    (self.SetSplitBlobDesc blob blobs).2.2.length = blobs.length :=
  (foldl_set_each self.group_ (fun _ (x : Blob) =>
    { x with desc := { blob.desc with
        dims := blob.desc.dims.set 1 (dim blob.desc.dims 1 / self.group_) } }) blobs).1

theorem SetSplitBlobDesc_getD (self : ArmConvLayerGroup) (blob : Blob) (blobs : List Blob)
    (g : Nat) (hg : g < self.group_) (hl : g < blobs.length) :
    (self.SetSplitBlobDesc blob blobs).2.2.getD g default
      = { blobs.getD g default with desc := { blob.desc with
          dims := blob.desc.dims.set 1 (dim blob.desc.dims 1 / self.group_) } } := by
  have h := (foldl_set_each self.group_ (fun _ (x : Blob) =>
    { x with desc := { blob.desc with
        dims := blob.desc.dims.set 1 (dim blob.desc.dims 1 / self.group_) } }) blobs).2 g
  rw [if_pos ⟨hg, hl⟩] at h
  exact h

theorem SetSplitBlobHandle_float {α : Type} [Inhabited α] (self : ArmConvLayerGroup)
    (blobs : List Blob) (buf : List α)
    (hfloat : (blobs.getD 0 default).desc.data_type = DataType.DATA_TYPE_FLOAT) :
    self.SetSplitBlobHandle blobs buf
      = (TNN_OK,
         (List.range self.group_).foldl (fun bl g => bl.set g { bl.getD g default with
            handle := ⟨0 + g * (ROUND_UP (dim (blobs.getD 0 default).desc.dims 1) 4
              * dim (blobs.getD 0 default).desc.dims 2
              * dim (blobs.getD 0 default).desc.dims 3)
              * dim (blobs.getD 0 default).desc.dims 0, 0⟩ }) blobs,
         RawBuffer.floats (self.group_ * dim (blobs.getD 0 default).desc.dims 0
            * (ROUND_UP (dim (blobs.getD 0 default).desc.dims 1) 4
              * dim (blobs.getD 0 default).desc.dims 2
              * dim (blobs.getD 0 default).desc.dims 3) * 4)) := by
  simp only [SetSplitBlobHandle, hfloat, if_true]

theorem SetSplitBlobHandle_getD {α : Type} [Inhabited α] (self : ArmConvLayerGroup)
    (blobs : List Blob) (buf : List α)
    (hfloat : (blobs.getD 0 default).desc.data_type = DataType.DATA_TYPE_FLOAT)
    (g : Nat) (hg : g < self.group_) (hl : g < blobs.length) :
    (self.SetSplitBlobHandle blobs buf).2.1.getD g default
      = { blobs.getD g default with
            handle := ⟨0 + g * (ROUND_UP (dim (blobs.getD 0 default).desc.dims 1) 4
              * dim (blobs.getD 0 default).desc.dims 2
              * dim (blobs.getD 0 default).desc.dims 3)
              * dim (blobs.getD 0 default).desc.dims 0, 0⟩ } := by
  rw [SetSplitBlobHandle_float self blobs buf hfloat]
  have h := (foldl_set_each self.group_ (fun g (x : Blob) => { x with
            handle := ⟨0 + g * (ROUND_UP (dim (blobs.getD 0 default).desc.dims 1) 4
              * dim (blobs.getD 0 default).desc.dims 2
              * dim (blobs.getD 0 default).desc.dims 3)
              * dim (blobs.getD 0 default).desc.dims 0, 0⟩ }) blobs).2 g
  rw [if_pos ⟨hg, hl⟩] at h
  exact h


theorem splitSide_facts (α : Type) [Inhabited α] (self : ArmConvLayerGroup) (blob : Blob)
    (blobs : List Blob) (N C H W : Nat) (hG : 1 ≤ self.group_)
    (hlen : blobs.length = self.group_)
    (hfloat : blob.desc.data_type = DataType.DATA_TYPE_FLOAT)
    (hdims : blob.desc.dims = [N, C, H, W]) :
    (self.SetSplitBlobHandle (self.SetSplitBlobDesc blob blobs).2.2 ([] : List α)).1 = TNN_OK ∧
    (self.splitSide blob blobs : List Blob × List α).2.length
      = self.group_ * N * (ROUND_UP (C / self.group_) 4 * H * W) ∧
    ∀ g, g < self.group_ →
      ((self.splitSide blob blobs : List Blob × List α).1.getD g default).desc
        = { blob.desc with dims := [N, C / self.group_, H, W] } ∧
      GetBlobHandlePtr ((self.splitSide blob blobs : List Blob × List α).1.getD g default).handle
        = g * (ROUND_UP (C / self.group_) 4 * H * W * N) := by
  have h0 : (self.SetSplitBlobDesc blob blobs).2.2.getD 0 default
      = { blobs.getD 0 default with desc := { blob.desc with dims := [N, C / self.group_, H, W] } } := by
    rw [SetSplitBlobDesc_getD self blob blobs 0 hG (by omega), hdims]
    simp [dim]
  have hf : ((self.SetSplitBlobDesc blob blobs).2.2.getD 0 default).desc.data_type
      = DataType.DATA_TYPE_FLOAT := by rw [h0]; exact hfloat
  refine ⟨?_, ?_, ?_⟩
  · rw [SetSplitBlobHandle_float self _ _ hf]
  · simp only [splitSide]
    rw [SetSplitBlobHandle_float self _ _ hf, h0]
    simp [RawBuffer.floats, dim]
  · intro g hg
    simp only [splitSide]
    rw [SetSplitBlobHandle_getD self _ _ hf g hg (by rw [SetSplitBlobDesc_length]; omega), h0,
      SetSplitBlobDesc_getD self blob blobs g hg (by omega), hdims]
    simp [dim, GetBlobHandlePtr, Nat.mul_assoc]


/-! ## The transcoder claims -/

/-- C2. Split is a channel slice: on the group blobs and buffer that `DoForward` sets up
from a float aggregate input of dims `(N, C, H, W)`, with `1 ≤ group_` dividing `C`,
`CopyInputSplitBlob` succeeds and afterwards the element of group `g` at lane-packed
position (batch `b`, channel `c`, spatial `s`), in a batch row of
`ROUND_UP (C / group_) 4 * H * W` floats, is the aggregate element at lane-packed
position (batch `b`, channel `g * (C / group_) + c`, spatial `s`). -/
theorem CopyInputSplitBlob_channel_slice {α : Type} [Inhabited α] (self : ArmConvLayerGroup)
    (input : Blob) (input_mem : List α) (N C H W : Nat)
    (hG : 1 ≤ self.group_) (hlen : self.group_inputs_.length = self.group_)
    (hfloat : input.desc.data_type = DataType.DATA_TYPE_FLOAT)
    (hdims : input.desc.dims = [N, C, H, W]) (hdiv : C % self.group_ = 0) :
    (self.splitInput input input_mem).2.1 = TNN_OK ∧
    ∀ b g c s, b < N → g < self.group_ → c < C / self.group_ → s < H * W →
      (self.splitInput input input_mem).2.2.getD
        (GetBlobHandlePtr ((self.splitInput input input_mem).1.group_inputs_.getD g default).handle
          + b * (ROUND_UP (C / self.group_) 4 * H * W) + c4Index (H * W) c s) default
      = input_mem.getD (GetBlobHandlePtr input.handle + b * (ROUND_UP C 4 * H * W)
          + c4Index (H * W) (g * (C / self.group_) + c) s) default := by
  obtain ⟨_, hl, hside⟩ := splitSide_facts α self input self.group_inputs_ N C H W hG hlen hfloat hdims
  refine ⟨by simp [splitInput, CopyInputSplitBlob, hfloat], ?_⟩
  intro b g c s hb hg hc hs
  exact CopyInputSplitBlob_getD
    { self with group_inputs_ := (self.splitSide input self.group_inputs_ : List Blob × List α).1 }
    input input_mem _ N C H W hfloat hdims hdiv
    (by rw [(hside 0 hG).1]) (fun g1 hg1 => (hside g1 hg1).2) hl b g c s hb hg hc hs

/-- C3. Merge is channel concatenation: on the group blobs that `DoForward` sets up from a
float aggregate output of dims `(N, C, H, W)` whose memory holds the tensor, with
`1 ≤ group_` dividing `C`, `CopyOutputSplitBlob` succeeds and afterwards the aggregate
element at lane-packed position (batch `b`, channel `g * (C / group_) + c`, spatial `s`)
is the element of group `g` at lane-packed position (batch `b`, channel `c`, spatial
`s`), whatever the group output buffer holds. -/
theorem CopyOutputSplitBlob_channel_concat {α : Type} [Inhabited α] (self : ArmConvLayerGroup)
    (output : Blob) (output_mem group_mem : List α) (N C H W : Nat)
    (hG : 1 ≤ self.group_) (hlen : self.group_outputs_.length = self.group_)
    (hfloat : output.desc.data_type = DataType.DATA_TYPE_FLOAT)
    (hdims : output.desc.dims = [N, C, H, W]) (hdiv : C % self.group_ = 0)
    (hmem : GetBlobHandlePtr output.handle + N * (ROUND_UP C 4 * H * W) ≤ output_mem.length) :
    (self.mergeOutput output output_mem group_mem).2.1 = TNN_OK ∧
    ∀ b g c s, b < N → g < self.group_ → c < C / self.group_ → s < H * W →
      (self.mergeOutput output output_mem group_mem).2.2.getD
        (GetBlobHandlePtr output.handle + b * (ROUND_UP C 4 * H * W)
          + c4Index (H * W) (g * (C / self.group_) + c) s) default
      = group_mem.getD
        (GetBlobHandlePtr
            ((self.mergeOutput output output_mem group_mem).1.group_outputs_.getD g default).handle
          + b * (ROUND_UP (C / self.group_) 4 * H * W) + c4Index (H * W) c s) default := by
  obtain ⟨_, _, hside⟩ := splitSide_facts α self output self.group_outputs_ N C H W hG hlen hfloat hdims
  refine ⟨by simp [mergeOutput, CopyOutputSplitBlob, hfloat], ?_⟩
  intro b g c s hb hg hc hs
  exact CopyOutputSplitBlob_getD
    { self with group_outputs_ := (self.splitSide output self.group_outputs_ : List Blob × List α).1 }
    output output_mem group_mem N C H W hfloat hdims hdiv
    (by rw [(hside 0 hG).1]) hmem b g c s hb hg hc hs


/-- C1. Round trip of the transcoder: for a float aggregate tensor `x` of dims
`(N, C, H, W)` and `1 ≤ group_` dividing `C`, splitting `x` with `CopyInputSplitBlob` and
merging the group buffers it filled with `CopyOutputSplitBlob` into an aggregate `y` of
the same dims gives back `x` at every real position (batch `b < N`, channel `c < C`,
spatial `s < H * W`). -/
theorem transcoder_round_trip {α : Type} [Inhabited α] (self : ArmConvLayerGroup)
    (x y : Blob) (x_mem y_mem : List α) (N C H W : Nat)
    (hG : 1 ≤ self.group_) (hlenI : self.group_inputs_.length = self.group_)
    (hlenO : self.group_outputs_.length = self.group_)
    (hxf : x.desc.data_type = DataType.DATA_TYPE_FLOAT) (hxd : x.desc.dims = [N, C, H, W])
    (hyf : y.desc.data_type = DataType.DATA_TYPE_FLOAT) (hyd : y.desc.dims = [N, C, H, W])
    (hdiv : C % self.group_ = 0)
    (hmem : GetBlobHandlePtr y.handle + N * (ROUND_UP C 4 * H * W) ≤ y_mem.length)
    (b c s : Nat) (hb : b < N) (hc : c < C) (hs : s < H * W) :
    ((self.splitInput x x_mem).1.mergeOutput y y_mem (self.splitInput x x_mem).2.2).2.2.getD
        (GetBlobHandlePtr y.handle + b * (ROUND_UP C 4 * H * W) + c4Index (H * W) c s) default
      = x_mem.getD
        (GetBlobHandlePtr x.handle + b * (ROUND_UP C 4 * H * W) + c4Index (H * W) c s) default := by
  obtain ⟨_, hl, hin⟩ := splitSide_facts α self x self.group_inputs_ N C H W hG hlenI hxf hxd
  obtain ⟨_, _, hout⟩ := splitSide_facts α self y self.group_outputs_ N C H W hG hlenO hyf hyd
  have hC : self.group_ * (C / self.group_) = C := Nat.mul_div_cancel' (Nat.dvd_of_mod_eq_zero hdiv)
  have hq : 0 < C / self.group_ := by
    rcases Nat.eq_zero_or_pos (C / self.group_) with h | h
    · rw [h, Nat.mul_zero] at hC; omega
    · exact h
  have hg : c / (C / self.group_) < self.group_ := by
    rw [Nat.div_lt_iff_lt_mul hq, hC]; exact hc
  have hc1 : c % (C / self.group_) < C / self.group_ := Nat.mod_lt _ hq
  have hcc : c / (C / self.group_) * (C / self.group_) + c % (C / self.group_) = c := by
    rw [Nat.mul_comm]; exact Nat.div_add_mod c _
  have h3 := CopyOutputSplitBlob_getD
    { self with
      group_inputs_ := (self.splitSide x self.group_inputs_ : List Blob × List α).1,
      group_outputs_ := (self.splitSide y self.group_outputs_ : List Blob × List α).1 }
    y y_mem (self.splitInput x x_mem).2.2 N C H W hyf hyd hdiv
    (by rw [(hout 0 hG).1]) hmem b _ _ s hb hg hc1 hs
  have h2 := CopyInputSplitBlob_getD
    { self with group_inputs_ := (self.splitSide x self.group_inputs_ : List Blob × List α).1 }
    x x_mem _ N C H W hxf hxd hdiv
    (by rw [(hin 0 hG).1]) (fun g1 hg1 => (hin g1 hg1).2) hl b _ _ s hb hg hc1 hs
  rw [hcc] at h3 h2
  refine Eq.trans h3 (Eq.trans ?_ h2)
  simp only [(hout _ hg).2, (hin _ hg).2]
  rfl

/-- C1 at a concrete input: two groups, dims `(2, 6, 1, 2)`, batch 1, channel 4, spatial 1. -/
theorem transcoder_round_trip_witness :
    1 ≤ exampleGroup.group_ ∧ 6 % exampleGroup.group_ = 0 ∧
    ((exampleGroup.splitInput exampleBlob exampleMem).1.mergeOutput exampleBlob exampleOut
        (exampleGroup.splitInput exampleBlob exampleMem).2.2).2.2.getD
        (GetBlobHandlePtr exampleBlob.handle + 1 * (ROUND_UP 6 4 * 1 * 2) + c4Index (1 * 2) 4 1) default
      = exampleMem.getD
        (GetBlobHandlePtr exampleBlob.handle + 1 * (ROUND_UP 6 4 * 1 * 2) + c4Index (1 * 2) 4 1) default :=
  ⟨by decide, by decide,
    transcoder_round_trip exampleGroup exampleBlob exampleBlob exampleMem exampleOut 2 6 1 2
      (by decide) (by decide) (by decide) rfl rfl rfl rfl (by decide) (by decide)
      1 4 1 (by decide) (by decide) (by decide)⟩

/-- C2 at a concrete input: two groups, dims `(2, 6, 1, 2)`, batch 1, group 1, channel 2,
spatial 1. -/
theorem CopyInputSplitBlob_channel_slice_witness :
    1 ≤ exampleGroup.group_ ∧ 6 % exampleGroup.group_ = 0 ∧
    (exampleGroup.splitInput exampleBlob exampleMem).2.2.getD
        (GetBlobHandlePtr
            ((exampleGroup.splitInput exampleBlob exampleMem).1.group_inputs_.getD 1 default).handle
          + 1 * (ROUND_UP (6 / exampleGroup.group_) 4 * 1 * 2) + c4Index (1 * 2) 2 1) default
      = exampleMem.getD (GetBlobHandlePtr exampleBlob.handle + 1 * (ROUND_UP 6 4 * 1 * 2)
          + c4Index (1 * 2) (1 * (6 / exampleGroup.group_) + 2) 1) default :=
  ⟨by decide, by decide,
    (CopyInputSplitBlob_channel_slice exampleGroup exampleBlob exampleMem 2 6 1 2
      (by decide) (by decide) rfl rfl (by decide)).2 1 1 2 1
      (by decide) (by decide) (by decide) (by decide)⟩

/-- C3 at a concrete input: two groups, dims `(2, 6, 1, 2)`, batch 1, group 1, channel 2,
spatial 1, reading the group buffer `exampleMem`. -/
theorem CopyOutputSplitBlob_channel_concat_witness :
    1 ≤ exampleGroup.group_ ∧ 6 % exampleGroup.group_ = 0 ∧
    (exampleGroup.mergeOutput exampleBlob exampleOut exampleMem).2.2.getD
        (GetBlobHandlePtr exampleBlob.handle + 1 * (ROUND_UP 6 4 * 1 * 2)
          + c4Index (1 * 2) (1 * (6 / exampleGroup.group_) + 2) 1) default
      = exampleMem.getD
        (GetBlobHandlePtr
            ((exampleGroup.mergeOutput exampleBlob exampleOut exampleMem).1.group_outputs_.getD 1 default).handle
          + 1 * (ROUND_UP (6 / exampleGroup.group_) 4 * 1 * 2) + c4Index (1 * 2) 2 1) default :=
  ⟨by decide, by decide,
    (CopyOutputSplitBlob_channel_concat exampleGroup exampleBlob exampleOut exampleMem 2 6 1 2
      (by decide) (by decide) rfl rfl (by decide) (by decide)).2 1 1 2 1
      (by decide) (by decide) (by decide) (by decide)⟩


/-! ## Loops with an early return -/

theorem forReturn_of_none {ι σ : Type} (body : ι → σ → Option Status × σ) (is : List ι) (s : σ)
    (h : ∀ i, i ∈ is → ∀ s, (body i s).1 = none) :
    forReturn body is s = (none, is.foldl (fun s i => (body i s).2) s) := by
  induction is generalizing s with
  | nil => rfl
  | cons i rest ih =>
    have hi := h i (List.mem_cons_self i rest) s
    have hb : body i s = (none, (body i s).2) := by rw [← hi]
    rw [forReturn, hb]
    exact ih _ (fun j hj => h j (List.mem_cons_of_mem i hj))

theorem forReturn_of_some {ι σ : Type} (body : ι → σ → Option Status × σ) (i : ι)
    (rest : List ι) (s : σ) (st : Status) (h : (body i s).1 = some st) :
    forReturn body (i :: rest) s = (some st, (body i s).2) := by
  have hb : body i s = (some st, (body i s).2) := by rw [← h]
  rw [forReturn, hb]

theorem foldl_append_singleton {ι β : Type} (f : ι → β) (is : List ι) (l : List β) :
    is.foldl (fun l i => l ++ [f i]) l = l ++ is.map f := by
  induction is generalizing l with
  | nil => simp
  | cons i rest ih => simp [ih]

/-! ## The resource views -/

theorem SplitResource_float (self : ArmConvLayerGroup) (resources : List ConvLayerResource)
    (hfloat : self.resource_.filter_handle.GetDataType = DataType.DATA_TYPE_FLOAT) :
    self.SplitResource resources = (TNN_OK, resources ++ (List.range self.group_).map (fun g =>
      if self.param_.bias then
        (⟨RawBuffer.ofPtr (self.resource_.filter_handle.GetBytesSize / self.group_)
          (self.resource_.filter_handle.force_to.add
            (g * (self.resource_.filter_handle.GetBytesSize / self.group_))),
          RawBuffer.ofPtr (self.resource_.bias_handle.GetBytesSize / self.group_)
            (self.resource_.bias_handle.force_to.add
              (g * (self.resource_.bias_handle.GetBytesSize / self.group_)))⟩ : ConvLayerResource)
      else
        ⟨RawBuffer.ofPtr (self.resource_.filter_handle.GetBytesSize / self.group_)
          (self.resource_.filter_handle.force_to.add
            (g * (self.resource_.filter_handle.GetBytesSize / self.group_))),
          default⟩)) := by
  unfold SplitResource
  simp only [hfloat, if_true]
  rw [forReturn_of_none _ _ _ (fun _ _ _ => rfl)]
  simp only []
  rw [foldl_append_singleton]
  rfl


theorem getD_map_range {β : Type} (f : Nat → β) (n g : Nat) (hg : g < n) (d : β) :
    ((List.range n).map f).getD g d = f g := by
  simp [List.getD_eq_getElem?_getD, List.getElem?_range hg]

/-- C5. Resource views: for a float filter and `1 ≤ group_`, `SplitResource` succeeds and
pushes exactly `group_` resources; the filter view of group `g` has
`GetBytesSize() / group_` bytes and starts `g * (GetBytesSize() / group_)` bytes into the
filter, it lies inside the filter, and it ends before the view of any later group starts.
With a bias the same holds of the bias views; without one every bias view is the empty
buffer. -/
theorem SplitResource_views (self : ArmConvLayerGroup) (hG : 1 ≤ self.group_)
    (hfloat : self.resource_.filter_handle.GetDataType = DataType.DATA_TYPE_FLOAT) :
    (self.SplitResource []).1 = TNN_OK ∧
    (self.SplitResource []).2.length = self.group_ ∧
    ∀ g, g < self.group_ →
      (((self.SplitResource []).2.getD g default).filter_handle.bytes_size
          = self.resource_.filter_handle.bytes_size / self.group_ ∧
        ((self.SplitResource []).2.getD g default).filter_handle.ptr
          = ⟨self.resource_.filter_handle.ptr.buff, self.resource_.filter_handle.ptr.offset
              + g * (self.resource_.filter_handle.bytes_size / self.group_)⟩ ∧
        ((self.SplitResource []).2.getD g default).filter_handle.ptr.offset
            + ((self.SplitResource []).2.getD g default).filter_handle.bytes_size
          ≤ self.resource_.filter_handle.ptr.offset + self.resource_.filter_handle.bytes_size ∧
        ∀ g1, g < g1 → g1 < self.group_ →
          ((self.SplitResource []).2.getD g default).filter_handle.ptr.offset
              + ((self.SplitResource []).2.getD g default).filter_handle.bytes_size
            ≤ ((self.SplitResource []).2.getD g1 default).filter_handle.ptr.offset) ∧
      (self.param_.bias = true →
        ((self.SplitResource []).2.getD g default).bias_handle.bytes_size
          = self.resource_.bias_handle.bytes_size / self.group_ ∧
        ((self.SplitResource []).2.getD g default).bias_handle.ptr
          = ⟨self.resource_.bias_handle.ptr.buff, self.resource_.bias_handle.ptr.offset
              + g * (self.resource_.bias_handle.bytes_size / self.group_)⟩ ∧
        ((self.SplitResource []).2.getD g default).bias_handle.ptr.offset
            + ((self.SplitResource []).2.getD g default).bias_handle.bytes_size
          ≤ self.resource_.bias_handle.ptr.offset + self.resource_.bias_handle.bytes_size ∧
        ∀ g1, g < g1 → g1 < self.group_ →
          ((self.SplitResource []).2.getD g default).bias_handle.ptr.offset
              + ((self.SplitResource []).2.getD g default).bias_handle.bytes_size
            ≤ ((self.SplitResource []).2.getD g1 default).bias_handle.ptr.offset) ∧
      (self.param_.bias = false →
        ((self.SplitResource []).2.getD g default).bias_handle = default) := by
  have hin : ∀ (T g : Nat), g < self.group_ →
      g * (T / self.group_) + T / self.group_ ≤ T := by
    intro T g hg
    have h1 : (g + 1) * (T / self.group_) ≤ self.group_ * (T / self.group_) :=
      Nat.mul_le_mul_right _ hg
    have h2 : self.group_ * (T / self.group_) ≤ T := Nat.mul_div_le T self.group_
    rw [Nat.add_mul, Nat.one_mul] at h1
    omega
  have hsep : ∀ (k g g1 : Nat), g < g1 → g * k + k ≤ g1 * k := by
    intro k g g1 hg
    have h1 : (g + 1) * k ≤ g1 * k := Nat.mul_le_mul_right _ hg
    rw [Nat.add_mul, Nat.one_mul] at h1
    exact h1
  rw [SplitResource_float self [] hfloat]
  refine ⟨rfl, by simp, ?_⟩
  intro g hg
  have hget : ∀ g1, g1 < self.group_ → ∀ f : Nat → ConvLayerResource,
      (([] : List ConvLayerResource) ++ (List.range self.group_).map f).getD g1 default = f g1 := by
    intro g1 hg1 f
    rw [List.nil_append]
    exact getD_map_range f self.group_ g1 hg1 default
  simp only [hget g hg]
  cases hb : self.param_.bias
  · simp only [Bool.false_eq_true, if_false]
    refine ⟨⟨rfl, rfl, ?_, ?_⟩, fun h => absurd h (by decide), ?_⟩
    rotate_left 2
    · trivial
    · have := hin self.resource_.filter_handle.bytes_size g hg
      simp only [RawBuffer.ofPtr, RawBuffer.GetBytesSize, RawBuffer.force_to, CharPtr.add]
      omega
    · intro g1 hgg hg1
      have := hsep (self.resource_.filter_handle.bytes_size / self.group_) g g1 hgg
      simp only [hget g1 hg1, RawBuffer.ofPtr, RawBuffer.GetBytesSize, RawBuffer.force_to,
        CharPtr.add]
      omega
  · simp only [if_true]
    refine ⟨⟨rfl, rfl, ?_, ?_⟩, fun _ => ⟨rfl, rfl, ?_, ?_⟩, fun h => absurd h (by decide)⟩
    · have := hin self.resource_.filter_handle.bytes_size g hg
      simp only [RawBuffer.ofPtr, RawBuffer.GetBytesSize, RawBuffer.force_to, CharPtr.add]
      omega
    · intro g1 hgg hg1
      have := hsep (self.resource_.filter_handle.bytes_size / self.group_) g g1 hgg
      simp only [hget g1 hg1, RawBuffer.ofPtr, RawBuffer.GetBytesSize, RawBuffer.force_to,
        CharPtr.add]
      omega
    · have := hin self.resource_.bias_handle.bytes_size g hg
      simp only [RawBuffer.ofPtr, RawBuffer.GetBytesSize, RawBuffer.force_to, CharPtr.add]
      omega
    · intro g1 hgg hg1
      have := hsep (self.resource_.bias_handle.bytes_size / self.group_) g g1 hgg
      simp only [hget g1 hg1, RawBuffer.ofPtr, RawBuffer.GetBytesSize, RawBuffer.force_to,
        CharPtr.add]
      omega

/-- C5 at a concrete input: two groups, a float filter of eight bytes. -/
theorem SplitResource_views_witness :
    1 ≤ exampleGroup.group_ ∧ (exampleGroup.SplitResource []).2.length = exampleGroup.group_ :=
  ⟨by decide, (SplitResource_views exampleGroup (by decide) rfl).2.1⟩

theorem flatten_chunks {β : Type} (L : List β) (k n : Nat) :
    ((List.range n).map (fun g => (L.drop (g * k)).take k)).flatten = L.take (n * k) := by
  induction n with
  | zero => simp
  | succ m ih =>
    rw [List.range_succ, List.map_append, List.flatten_append, ih, Nat.succ_mul, List.take_add]
    simp

/-- C6, as stated, fails: with three groups and a float filter of four bytes
`SplitResource` succeeds, and the three one-byte views concatenate to three bytes, not to
the four bytes of the filter. -/
theorem SplitResource_concat_counterexample :
    (unevenGroup.SplitResource []).1 = TNN_OK ∧
    ((unevenGroup.SplitResource []).2.map (fun r => r.filter_handle.bytes)).flatten
      ≠ unevenGroup.resource_.filter_handle.bytes := by
  decide

/-- C6, amended. Resource partition invariant: for a float filter and `1 ≤ group_`, when
`group_` divides the byte size of the filter, the filter views of the resources that
`SplitResource` pushes, concatenated in group order, are the bytes of the filter; when
the parameters have a bias and `group_` divides the byte size of the bias, the same holds
of the bias views. -/
theorem SplitResource_concat (self : ArmConvLayerGroup) (hG : 1 ≤ self.group_)
    (hfloat : self.resource_.filter_handle.GetDataType = DataType.DATA_TYPE_FLOAT) :
    (self.group_ ∣ self.resource_.filter_handle.bytes_size →
      ((self.SplitResource []).2.map (fun r => r.filter_handle.bytes)).flatten
        = self.resource_.filter_handle.bytes) ∧
    (self.param_.bias = true → self.group_ ∣ self.resource_.bias_handle.bytes_size →
      ((self.SplitResource []).2.map (fun r => r.bias_handle.bytes)).flatten
        = self.resource_.bias_handle.bytes) := by
  rw [SplitResource_float self [] hfloat]
  simp only [List.nil_append, List.map_map]
  constructor
  · intro hdvd
    have e : (fun r : ConvLayerResource => r.filter_handle.bytes) ∘ (fun g =>
        if self.param_.bias then
          (⟨RawBuffer.ofPtr (self.resource_.filter_handle.GetBytesSize / self.group_)
            (self.resource_.filter_handle.force_to.add
              (g * (self.resource_.filter_handle.GetBytesSize / self.group_))),
            RawBuffer.ofPtr (self.resource_.bias_handle.GetBytesSize / self.group_)
              (self.resource_.bias_handle.force_to.add
                (g * (self.resource_.bias_handle.GetBytesSize / self.group_)))⟩ : ConvLayerResource)
        else
          ⟨RawBuffer.ofPtr (self.resource_.filter_handle.GetBytesSize / self.group_)
            (self.resource_.filter_handle.force_to.add
              (g * (self.resource_.filter_handle.GetBytesSize / self.group_))),
            default⟩)
        = fun g => ((self.resource_.filter_handle.ptr.buff.drop
            self.resource_.filter_handle.ptr.offset).drop
              (g * (self.resource_.filter_handle.bytes_size / self.group_))).take
                (self.resource_.filter_handle.bytes_size / self.group_) := by
      funext g
      cases self.param_.bias <;>
        simp [RawBuffer.bytes, RawBuffer.ofPtr, RawBuffer.GetBytesSize, RawBuffer.force_to,
          CharPtr.add, Nat.add_comm]
    rw [e, flatten_chunks, Nat.mul_div_cancel' hdvd]
    rfl
  · intro hb hdvd
    have e : (fun r : ConvLayerResource => r.bias_handle.bytes) ∘ (fun g =>
        if self.param_.bias then
          (⟨RawBuffer.ofPtr (self.resource_.filter_handle.GetBytesSize / self.group_)
            (self.resource_.filter_handle.force_to.add
              (g * (self.resource_.filter_handle.GetBytesSize / self.group_))),
            RawBuffer.ofPtr (self.resource_.bias_handle.GetBytesSize / self.group_)
              (self.resource_.bias_handle.force_to.add
                (g * (self.resource_.bias_handle.GetBytesSize / self.group_)))⟩ : ConvLayerResource)
        else
          ⟨RawBuffer.ofPtr (self.resource_.filter_handle.GetBytesSize / self.group_)
            (self.resource_.filter_handle.force_to.add
              (g * (self.resource_.filter_handle.GetBytesSize / self.group_))),
            default⟩)
        = fun g => ((self.resource_.bias_handle.ptr.buff.drop
            self.resource_.bias_handle.ptr.offset).drop
              (g * (self.resource_.bias_handle.bytes_size / self.group_))).take
                (self.resource_.bias_handle.bytes_size / self.group_) := by
      funext g
      simp [hb, RawBuffer.bytes, RawBuffer.ofPtr, RawBuffer.GetBytesSize, RawBuffer.force_to,
          CharPtr.add, Nat.add_comm]
    rw [e, flatten_chunks, Nat.mul_div_cancel' hdvd]
    rfl

/-- C6, amended, at a concrete input: two groups, a filter of eight bytes. -/
theorem SplitResource_concat_witness :
    1 ≤ exampleGroup.group_ ∧
    ((exampleGroup.SplitResource []).2.map (fun r => r.filter_handle.bytes)).flatten
      = exampleGroup.resource_.filter_handle.bytes :=
  ⟨by decide, (SplitResource_concat exampleGroup (by decide) rfl).1 (by decide)⟩

/-! ## Group parameters and descriptors -/

/-- C7. Group parameters: for aggregate parameters `p = param_` with `1 ≤ p.group`,
`SetGroupParam` succeeds and stores parameters `q` with
`q.output_channel = p.output_channel / p.group`, `q.group = 1` and every other field that
of `p`; the object, hence `param_`, is unchanged; and when `p.group = 1`, `q = p`. -/
theorem SetGroupParam_spec (self : ArmConvLayerGroup) (group_param : Option ConvLayerParam)
    (hG : 1 ≤ self.param_.group) :
    (self.SetGroupParam group_param).1 = TNN_OK ∧
    (self.SetGroupParam group_param).2.1 = self ∧
    ∃ q, (self.SetGroupParam group_param).2.2 = some q ∧
      q.output_channel = self.param_.output_channel / self.param_.group ∧
      q.group = 1 ∧
      q.name = self.param_.name ∧ q.kernels = self.param_.kernels ∧
      q.strides = self.param_.strides ∧ q.dialations = self.param_.dialations ∧
      q.pads = self.param_.pads ∧ q.bias = self.param_.bias ∧
      (self.param_.group = 1 → q = self.param_) := by
  refine ⟨rfl, rfl, _, rfl, rfl, rfl, rfl, rfl, rfl, rfl, rfl, rfl, ?_⟩
  intro h1
  have hq : self.param_.output_channel / self.param_.group = self.param_.output_channel := by
    rw [h1, Nat.div_one]
  cases hp : self.param_ with
  | mk name kernels strides dialations pads group output_channel bias =>
    rw [hp] at hq h1 hG
    simp only at hq h1
    simp only [ConvLayerParam.mk.injEq, true_and, and_true]
    exact ⟨h1.symm, hq⟩

/-- C7 at a concrete input: the parameters with two groups and six output channels. -/
theorem SetGroupParam_spec_witness :
    1 ≤ exampleGroup.param_.group ∧
    (exampleGroup.SetGroupParam none).1 = TNN_OK ∧
    (exampleGroup.SetGroupParam none).2.1 = exampleGroup :=
  ⟨by decide, (SetGroupParam_spec exampleGroup none (by decide)).1,
    (SetGroupParam_spec exampleGroup none (by decide)).2.1⟩

/-- C8. Channel partition invariant: for an aggregate blob of dims `(N, C, H, W)`,
`1 ≤ group_` dividing `C` and `group_` group blobs, `SetSplitBlobDesc` succeeds, keeps
the number of group blobs, gives every group blob the descriptor of the aggregate with the
channel dim replaced by `C / group_` (batch, height, width, data type and the other
fields are the aggregate's), so that the group channel dims sum to `C`; the aggregate
blob is returned unchanged. -/
theorem SetSplitBlobDesc_spec (self : ArmConvLayerGroup) (blob : Blob) (blobs : List Blob)
    (N C H W : Nat) (hG : 1 ≤ self.group_) (hlen : blobs.length = self.group_)
    (hdims : blob.desc.dims = [N, C, H, W]) (hdiv : C % self.group_ = 0) :
    (self.SetSplitBlobDesc blob blobs).1 = TNN_OK ∧
    (self.SetSplitBlobDesc blob blobs).2.1 = blob ∧
    (self.SetSplitBlobDesc blob blobs).2.2.length = self.group_ ∧
    (∀ g, g < self.group_ →
      ((self.SetSplitBlobDesc blob blobs).2.2.getD g default).desc
        = { blob.desc with dims := [N, C / self.group_, H, W] }) ∧
    ((List.range self.group_).map (fun g =>
      dim ((self.SetSplitBlobDesc blob blobs).2.2.getD g default).desc.dims 1)).sum = C := by
  have hdesc : ∀ g, g < self.group_ →
      ((self.SetSplitBlobDesc blob blobs).2.2.getD g default).desc
        = { blob.desc with dims := [N, C / self.group_, H, W] } := by
    intro g hg
    rw [SetSplitBlobDesc_getD self blob blobs g hg (by omega), hdims]
    simp [dim]
  refine ⟨rfl, rfl, by rw [SetSplitBlobDesc_length, hlen], hdesc, ?_⟩
  have hmap : (List.range self.group_).map (fun g =>
      dim ((self.SetSplitBlobDesc blob blobs).2.2.getD g default).desc.dims 1)
      = (List.range self.group_).map (fun _ => C / self.group_) := by
    apply List.map_congr_left
    intro g hg
    rw [hdesc g (List.mem_range.mp hg)]
    simp [dim]
  rw [hmap]
  simp only [List.map_const', List.length_range, List.sum_replicate, smul_eq_mul]
  exact Nat.mul_div_cancel' (Nat.dvd_of_mod_eq_zero hdiv)

/-- C8 at a concrete input: two groups on dims `(2, 6, 1, 2)` give channel dim 3. -/
theorem SetSplitBlobDesc_spec_witness :
    1 ≤ exampleGroup.group_ ∧ 6 % exampleGroup.group_ = 0 ∧
    ((exampleGroup.SetSplitBlobDesc exampleBlob exampleGroup.group_inputs_).2.2.getD 1 default).desc
      = { exampleBlob.desc with dims := [2, 6 / exampleGroup.group_, 1, 2] } :=
  ⟨by decide, by decide,
    (SetSplitBlobDesc_spec exampleGroup exampleBlob exampleGroup.group_inputs_ 2 6 1 2
      (by decide) (by decide) rfl (by decide)).2.2.2.1 1 (by decide)⟩

/-! ## Rejection of quantized tensors -/

/-- C9. Rejection of quantized configurations: with `1 ≤ group_`, `SplitResource` on a
filter whose element type is not float returns the error `TNNERR_LAYER_ERR` and leaves
its output list as it was; `CopyInputSplitBlob` and `CopyOutputSplitBlob` on an aggregate
blob whose element type is not float return the error `TNNERR_LAYER_ERR` and leave the
memory they would write (the group buffer, the aggregate output) as it was. -/
theorem quantized_rejected {α : Type} [Inhabited α] (self : ArmConvLayerGroup)
    (resources : List ConvLayerResource) (blob : Blob) (mem group_mem : List α)
    (hG : 1 ≤ self.group_) :
    (self.resource_.filter_handle.GetDataType ≠ DataType.DATA_TYPE_FLOAT →
      (self.SplitResource resources).1.code = StatusCode.TNNERR_LAYER_ERR ∧
      (self.SplitResource resources).2 = resources) ∧
    (blob.desc.data_type ≠ DataType.DATA_TYPE_FLOAT →
      (self.CopyInputSplitBlob blob mem group_mem).1.code = StatusCode.TNNERR_LAYER_ERR ∧
      (self.CopyInputSplitBlob blob mem group_mem).2 = group_mem ∧
      (self.CopyOutputSplitBlob blob mem group_mem).1.code = StatusCode.TNNERR_LAYER_ERR ∧
      (self.CopyOutputSplitBlob blob mem group_mem).2 = mem) := by
  constructor
  · intro hq
    obtain ⟨n, hn⟩ : ∃ n, self.group_ = n + 1 := ⟨self.group_ - 1, by omega⟩
    unfold SplitResource
    simp only [hq, if_false, hn, List.range_succ_eq_map, forReturn]
    refine ⟨?_, ?_⟩ <;> first | rfl | trivial
  · intro hq
    simp only [CopyInputSplitBlob, CopyOutputSplitBlob, hq, if_false]
    refine ⟨?_, ?_, ?_, ?_⟩ <;> first | rfl | trivial

/-- C9 at a concrete input: a quantized filter and a quantized blob, two groups. -/
theorem quantized_rejected_witness :
    1 ≤ int8Group.group_ ∧
    (int8Group.SplitResource []).1.code = StatusCode.TNNERR_LAYER_ERR ∧
    (int8Group.CopyInputSplitBlob int8Blob exampleMem exampleOut).1.code
      = StatusCode.TNNERR_LAYER_ERR :=
  ⟨by decide,
    ((quantized_rejected int8Group [] int8Blob exampleMem exampleOut (by decide)).1 (by decide)).1,
    ((quantized_rejected int8Group [] int8Blob exampleMem exampleOut (by decide)).2 (by decide)).1⟩

/-! ## `Init` -/

theorem initBlobs_eq (self : ArmConvLayerGroup) :
    initBlobs self = { self with
      group_inputs_ := self.group_inputs_ ++ List.replicate self.group_ (Blob.mk default default)
      group_outputs_ := self.group_outputs_ ++ List.replicate self.group_ (Blob.mk default default) } := by
  unfold initBlobs
  refine foldl_range_inv _ (fun k (s : ArmConvLayerGroup) => s = { self with
      group_inputs_ := self.group_inputs_ ++ List.replicate k (Blob.mk default default)
      group_outputs_ := self.group_outputs_ ++ List.replicate k (Blob.mk default default) })
    self.group_ self (by simp) ?_
  intro k s _ hs
  rw [hs]
  simp [List.replicate_succ', List.append_assoc]

theorem CreateImpFP_none {α : Type} (env : Env α) (self : ArmConvLayerGroup)
    (inputs outputs : List Blob) (param : Option ConvLayerParam) :
    ∃ acc, CreateImpFP env self inputs outputs param none = some acc := by
  unfold CreateImpFP
  cases env.isPrefered3x3 self.param_ inputs outputs <;>
    cases env.isPrefered1x1 self.param_ inputs outputs <;>
    simp [dynamic_cast]

theorem CreateImpInt8_none (self : ArmConvLayerGroup)
    (inputs outputs : List Blob) (param : Option ConvLayerParam) :
    ∃ acc, CreateImpInt8 self inputs outputs param none = some acc := by
  simp [CreateImpInt8, dynamic_cast]

theorem initGroup_none {α : Type} (env : Env α) (inputs : List Blob)
    (resources : List ConvLayerResource) (g : Nat) (self : ArmConvLayerGroup)
    (htype : (inputs.getD 0 default).desc.data_type = DataType.DATA_TYPE_FLOAT ∨
      (inputs.getD 0 default).desc.data_type = DataType.DATA_TYPE_INT8)
    (hacc : ∀ impl args, (env.accInit impl args).isOk = true) :
    ∃ acc, initGroup env inputs resources g self
      = (none, { self with conv_acc_impls_ := self.conv_acc_impls_ ++ [some acc] }) := by
  unfold initGroup
  rcases htype with h | h
  · obtain ⟨acc, hacc1⟩ := CreateImpFP_none env self [self.group_inputs_.getD g default]
      [self.group_outputs_.getD g default] self.group_conv_param_
    simp only [h, if_true, hacc1, accInit, hacc, Bool.not_true, Bool.false_eq_true, if_false]
    exact ⟨_, rfl⟩
  · obtain ⟨acc, hacc1⟩ := CreateImpInt8_none self [self.group_inputs_.getD g default]
      [self.group_outputs_.getD g default] self.group_conv_param_
    have hne : ¬ (DataType.DATA_TYPE_INT8 = DataType.DATA_TYPE_FLOAT) := by decide
    simp only [h, hne, if_true, if_false, hacc1, accInit, hacc, Bool.not_true, Bool.false_eq_true]
    exact ⟨_, rfl⟩

theorem forReturn_initGroup {α : Type} (env : Env α) (inputs : List Blob)
    (resources : List ConvLayerResource) (n : Nat) (self : ArmConvLayerGroup)
    (htype : (inputs.getD 0 default).desc.data_type = DataType.DATA_TYPE_FLOAT ∨
      (inputs.getD 0 default).desc.data_type = DataType.DATA_TYPE_INT8)
    (hacc : ∀ impl args, (env.accInit impl args).isOk = true) :
    ∃ impls, impls.length = n ∧ forReturn (initGroup env inputs resources) (List.range n) self
      = (none, { self with conv_acc_impls_ := self.conv_acc_impls_ ++ impls }) := by
  rw [forReturn_of_none _ _ _ (fun i _ s => by
    obtain ⟨acc, h⟩ := initGroup_none env inputs resources i s htype hacc
    rw [h])]
  refine foldl_range_inv _ (fun k (s : ArmConvLayerGroup) => ∃ impls, impls.length = k ∧
    (none, s) = ((none : Option Status),
      { self with conv_acc_impls_ := self.conv_acc_impls_ ++ impls })) n self ⟨[], rfl, by simp⟩ ?_
  intro k s _ hs
  obtain ⟨impls, hl, he⟩ := hs
  obtain ⟨acc, h⟩ := initGroup_none env inputs resources k s htype hacc
  refine ⟨impls ++ [some acc], by simp [hl], ?_⟩
  rw [h]
  have hs2 : s = { self with conv_acc_impls_ := self.conv_acc_impls_ ++ impls } :=
    (Prod.mk.injEq _ _ _ _ ▸ he).2
  rw [hs2]
  simp [List.append_assoc]
theorem TNN_OK_isOk : TNN_OK.isOk = true := rfl

theorem SetSplitBlobDesc_status (self : ArmConvLayerGroup) (blob : Blob) (blobs : List Blob) :
    (self.SetSplitBlobDesc blob blobs).1 = TNN_OK := rfl

theorem SplitResource_status_float (self : ArmConvLayerGroup) (resources : List ConvLayerResource)
    (hfloat : self.resource_.filter_handle.GetDataType = DataType.DATA_TYPE_FLOAT) :
    (self.SplitResource resources).1 = TNN_OK := by
  rw [SplitResource_float self resources hfloat]

/-- Success of `Init` on present parameters and resource, when the base class and every sub-kernel
`Init` succeed, the filter is float and the input float or int8: it returns `TNN_OK`
after the setters ran and `group_` sub-kernels were pushed.  There is no other
condition: the channel counts are not looked at. -/
theorem Init_ok {α : Type} (env : Env α) (self : ArmConvLayerGroup) (p : ConvLayerParam)
    (res : ConvLayerResource) (inputs outputs : List Blob)
    (hbase : (env.baseInit p res inputs outputs).isOk = true)
    (hacc : ∀ impl args, (env.accInit impl args).isOk = true)
    (hfilter : res.filter_handle.GetDataType = DataType.DATA_TYPE_FLOAT)
    (htype : (inputs.getD 0 default).desc.data_type = DataType.DATA_TYPE_FLOAT ∨
      (inputs.getD 0 default).desc.data_type = DataType.DATA_TYPE_INT8) :
    ∃ impls, impls.length = p.group ∧
      Init env self (some p) (some res) inputs outputs = (TNN_OK,
        { param_ := p
          resource_ := res
          group_ := p.group
          group_inputs_ := ({ self with group_ := p.group }.SetSplitBlobDesc (inputs.getD 0 default)
            (self.group_inputs_ ++ List.replicate p.group (Blob.mk default default))).2.2
          group_outputs_ := ({ self with group_ := p.group }.SetSplitBlobDesc (outputs.getD 0 default)
            (self.group_outputs_ ++ List.replicate p.group (Blob.mk default default))).2.2
          group_conv_param_ := some { p with output_channel := p.output_channel / p.group, group := 1 }
          conv_acc_impls_ := self.conv_acc_impls_ ++ impls }) := by
  have hsr : ∀ s : ArmConvLayerGroup, s.resource_ = res → (s.SplitResource []).1 = TNN_OK :=
    fun s hs => SplitResource_status_float s [] (by rw [hs]; exact hfilter)
  unfold Init
  simp only [baseInit, hbase, Bool.not_true, Bool.false_eq_true, if_false, initBlobs_eq,
    SetGroupParam, TNN_OK_isOk, SetSplitBlobDesc_status, hsr]
  apply Exists.imp _ (forReturn_initGroup env inputs _ p.group _ htype hacc)
  rotate_left 2
  intro impls h
  refine ⟨h.1, ?_⟩
  rw [h.2]
  rfl

/-- C10, as stated, fails: with two groups, three input channels and three output
channels (two divides neither), a float filter and collaborators that succeed, `Init` on
a fresh object returns `TNN_OK`, with one channel per group. -/
theorem Init_divisibility_counterexample :
    3 % oddParam.group ≠ 0 ∧ oddParam.output_channel % oddParam.group ≠ 0 ∧
    (Init exampleEnv freshGroup (some oddParam) (some exampleResource) [oddBlob] [oddBlob]).1
      = TNN_OK ∧
    (((Init exampleEnv freshGroup (some oddParam) (some exampleResource) [oddBlob]
      [oddBlob]).2.group_inputs_.getD 0 default).desc.dims = [1, 1, 1, 1]) := by
  decide

/-- C10, amended. `Init` does not look at divisibility: on a fresh object, with present
parameters and resource, `1 ≤ group`, a float filter, a float or int8 input of dims
`(N, Cin, H, W)`, an output of dims `(N, Cout, Ho, Wo)`, and a base class and
sub-kernels whose `Init` succeed, `Init` returns `TNN_OK` whether or not `group` divides
`Cin` and `Cout`, and the group descriptors carry the truncated quotients `Cin / group`
and `Cout / group` as channel dims. -/
theorem Init_no_divisibility_check {α : Type} (env : Env α) (self : ArmConvLayerGroup)
    (p : ConvLayerParam) (res : ConvLayerResource) (inputs outputs : List Blob)
    (N Cin H W Cout Ho Wo : Nat) (hG : 1 ≤ p.group)
    (hfreshI : self.group_inputs_ = []) (hfreshO : self.group_outputs_ = [])
    (hbase : (env.baseInit p res inputs outputs).isOk = true)
    (hacc : ∀ impl args, (env.accInit impl args).isOk = true)
    (hfilter : res.filter_handle.GetDataType = DataType.DATA_TYPE_FLOAT)
    (htype : (inputs.getD 0 default).desc.data_type = DataType.DATA_TYPE_FLOAT ∨
      (inputs.getD 0 default).desc.data_type = DataType.DATA_TYPE_INT8)
    (hx : (inputs.getD 0 default).desc.dims = [N, Cin, H, W])
    (hy : (outputs.getD 0 default).desc.dims = [N, Cout, Ho, Wo]) :
    (Init env self (some p) (some res) inputs outputs).1 = TNN_OK ∧
    ∀ g, g < p.group →
      ((Init env self (some p) (some res) inputs outputs).2.group_inputs_.getD g default).desc.dims
        = [N, Cin / p.group, H, W] ∧
      ((Init env self (some p) (some res) inputs outputs).2.group_outputs_.getD g default).desc.dims
        = [N, Cout / p.group, Ho, Wo] := by
  obtain ⟨impls, _, h⟩ := Init_ok env self p res inputs outputs hbase hacc hfilter htype
  rw [h]
  refine ⟨rfl, ?_⟩
  intro g hg
  simp only [hfreshI, hfreshO, List.nil_append]
  rw [SetSplitBlobDesc_getD _ _ _ g hg (by simpa using hg),
    SetSplitBlobDesc_getD _ _ _ g hg (by simpa using hg), hx, hy]
  simp [dim]

/-- C10, amended, at a concrete input: two groups on three input and output channels. -/
theorem Init_no_divisibility_check_witness :
    1 ≤ oddParam.group ∧
    (Init exampleEnv freshGroup (some oddParam) (some exampleResource) [oddBlob] [oddBlob]).1
      = TNN_OK :=
  ⟨by decide,
    (Init_no_divisibility_check exampleEnv freshGroup oddParam exampleResource [oddBlob] [oddBlob]
      1 3 1 1 3 1 1 (by decide) rfl rfl rfl (fun _ _ => rfl) rfl (Or.inl rfl) rfl rfl).1⟩

/-! ## `DoForward` -/

/-- Normal form of `DoForward`, with its member updates resolved: the setters only read `group_`, so both
sides are set up from the object as it was on entry. -/
theorem DoForward_eq {α : Type} [Inhabited α] (env : Env α) (self : ArmConvLayerGroup)
    (inputs outputs : List Blob) (input_mem output_mem : List α) :
    DoForward env self inputs outputs input_mem output_mem =
      if !(self.SetSplitBlobHandle
          (self.SetSplitBlobDesc (inputs.getD 0 default) self.group_inputs_).2.2 ([] : List α)).1.isOk then
        ForwardResult.mk
          (self.SetSplitBlobHandle
            (self.SetSplitBlobDesc (inputs.getD 0 default) self.group_inputs_).2.2 ([] : List α)).1
          { self with
            group_inputs_ := (self.splitSide (inputs.getD 0 default) self.group_inputs_ : List Blob × List α).1
            group_outputs_ := (self.SetSplitBlobDesc (outputs.getD 0 default) self.group_outputs_).2.2 }
          output_mem []
      else if !(self.SetSplitBlobHandle
          (self.SetSplitBlobDesc (outputs.getD 0 default) self.group_outputs_).2.2 ([] : List α)).1.isOk then
        ForwardResult.mk
          (self.SetSplitBlobHandle
            (self.SetSplitBlobDesc (outputs.getD 0 default) self.group_outputs_).2.2 ([] : List α)).1
          { self with
            group_inputs_ := (self.splitSide (inputs.getD 0 default) self.group_inputs_ : List Blob × List α).1
            group_outputs_ := (self.splitSide (outputs.getD 0 default) self.group_outputs_ : List Blob × List α).1 }
          output_mem []
      else if self.conv_acc_impls_.length ≠ 0 then
        match forReturn
          (forwardGroup env
            { self with
              group_inputs_ := (self.splitSide (inputs.getD 0 default) self.group_inputs_ : List Blob × List α).1
              group_outputs_ := (self.splitSide (outputs.getD 0 default) self.group_outputs_ : List Blob × List α).1 }
            ({ self with
              group_inputs_ := (self.splitSide (inputs.getD 0 default) self.group_inputs_ : List Blob × List α).1
              group_outputs_ := (self.splitSide (outputs.getD 0 default) self.group_outputs_ : List Blob × List α).1
              }.CopyInputSplitBlob (inputs.getD 0 default) input_mem
                (self.splitSide (inputs.getD 0 default) self.group_inputs_ : List Blob × List α).2).2)
          (List.range self.conv_acc_impls_.length)
          ((self.splitSide (outputs.getD 0 default) self.group_outputs_ : List Blob × List α).2,
            [Event.split]) with
        | (some st, s) =>
          ForwardResult.mk st
            { self with
              group_inputs_ := (self.splitSide (inputs.getD 0 default) self.group_inputs_ : List Blob × List α).1
              group_outputs_ := (self.splitSide (outputs.getD 0 default) self.group_outputs_ : List Blob × List α).1 }
            output_mem s.2
        | (none, s) =>
          ForwardResult.mk TNN_OK
            { self with
              group_inputs_ := (self.splitSide (inputs.getD 0 default) self.group_inputs_ : List Blob × List α).1
              group_outputs_ := (self.splitSide (outputs.getD 0 default) self.group_outputs_ : List Blob × List α).1 }
            ({ self with
              group_inputs_ := (self.splitSide (inputs.getD 0 default) self.group_inputs_ : List Blob × List α).1
              group_outputs_ := (self.splitSide (outputs.getD 0 default) self.group_outputs_ : List Blob × List α).1
              }.CopyOutputSplitBlob (outputs.getD 0 default) output_mem s.1).2
            (s.2 ++ [Event.merge])
      else
        ForwardResult.mk ⟨StatusCode.TNNERR_LAYER_ERR, "conv_acc_impl_ is nil"⟩
          { self with
            group_inputs_ := (self.splitSide (inputs.getD 0 default) self.group_inputs_ : List Blob × List α).1
            group_outputs_ := (self.splitSide (outputs.getD 0 default) self.group_outputs_ : List Blob × List α).1 }
          output_mem [Event.split] := by
  rfl
/-! ## Cells of a lane-packed row -/

theorem laneChannel_c4Index (hw c s : Nat) (hs : s < hw) : laneChannel hw (c4Index hw c s) = c := by
  unfold laneChannel c4Index
  have h1 : (c / 4 * hw * 4 + 4 * s + c % 4) / (4 * hw) = c / 4 := by
    apply Nat.div_eq_of_lt_le
    · have : c / 4 * (4 * hw) = c / 4 * hw * 4 := by
        rw [Nat.mul_assoc, Nat.mul_comm 4 hw]
      omega
    · have : (c / 4 + 1) * (4 * hw) = c / 4 * hw * 4 + 4 * hw := by
        rw [Nat.add_mul, Nat.one_mul, Nat.mul_assoc, Nat.mul_comm 4 hw]
      omega
  rw [h1]
  omega

theorem c4Index_lane (hw i : Nat) (hhw : 0 < hw) :
    c4Index hw (laneChannel hw i) (laneSpatial hw i) = i ∧ laneSpatial hw i < hw := by
  unfold laneChannel laneSpatial c4Index
  have h0 : 4 * hw * (i / (4 * hw)) + i % (4 * hw) = i := Nat.div_add_mod i (4 * hw)
  have h1 : i % (4 * hw) % 4 = i % 4 := Nat.mod_mod_of_dvd i (Dvd.intro hw rfl)
  have h2 : i % (4 * hw) < 4 * hw := Nat.mod_lt _ (by omega)
  have h3 : 4 * hw * (i / (4 * hw)) = i / (4 * hw) * hw * 4 := by
    rw [Nat.mul_comm (4 * hw), Nat.mul_assoc, Nat.mul_comm 4 hw]
  have h4 : (i / (4 * hw) * 4 + i % 4) / 4 = i / (4 * hw) := by omega
  have h5 : (i / (4 * hw) * 4 + i % 4) % 4 = i % 4 := by omega
  rw [h4, h5]
  constructor
  · omega
  · omega

theorem getD_PackC4_miss {α : Type} [Inhabited α] (dst : List α) (p : Nat) (src : List α)
    (q hw ch a : Nat) (h : ∀ c s, c < ch → s < hw → p + c4Index hw c s ≠ a) :
    (PackC4 dst p src q hw ch).getD a default = dst.getD a default :=
  getD_nest_set_frame ch hw (fun c s => p + c4Index hw c s)
    (fun c s => src.getD (q + (c * hw + s)) default) dst a h

/-- The double loop of the split leaves alone every cell that no `PackC4` stores to. -/
theorem split_core_miss {α : Type} [Inhabited α] (G N q HW : Nat) (D : Nat → Nat → Nat)
    (T : Nat → List α) (S : Nat → Nat) (group_mem : List α) (a : Nat)
    (h : ∀ g b c s, g < G → b < N → c < q → s < HW → D g b + c4Index HW c s ≠ a) :
    ((List.range N).foldl (fun gm b =>
      (List.range G).foldl (fun gm g => PackC4 gm (D g b) (T b) (S g) HW q) gm) group_mem).getD
        a default = group_mem.getD a default := by
  refine foldl_range_inv _ (fun k e => k ≤ N → e.getD a default = group_mem.getD a default) N
    group_mem (fun _ => rfl) ?_ (Nat.le_refl N)
  intro b e hb he _
  rw [← he (Nat.le_of_lt hb)]
  refine foldl_range_inv _ (fun k e1 => k ≤ G → e1.getD a default = e.getD a default) G
    e (fun _ => rfl) ?_ (Nat.le_refl G)
  intro g e1 hg he1 _
  rw [getD_PackC4_miss _ _ _ _ _ _ _ (fun c s hc hs => h g b c s hg hb hc hs)]
  exact he1 (Nat.le_of_lt hg)

/-- Every cell of the row of batch `b0` of group `g0` after the double loop of the split:
a cell of a real channel holds the scratch cell of that channel, a padding cell is as it
was. -/
theorem split_core_full {α : Type} [Inhabited α] (G N q HW r : Nat) (D : Nat → Nat → Nat)
    (T : Nat → List α) (S : Nat → Nat) (group_mem : List α)
    (hr : ROUND_UP q 4 * HW = r)
    (hD : ∀ g b, g < G → b < N → D g b = g * (r * N) + b * r)
    (hlen : group_mem.length = G * N * r)
    (g0 b0 i : Nat) (hg0 : g0 < G) (hb0 : b0 < N) (hi : i < r) :
    ((List.range N).foldl (fun gm b =>
      (List.range G).foldl (fun gm g => PackC4 gm (D g b) (T b) (S g) HW q) gm) group_mem).getD
        (D g0 b0 + i) default
      = if laneChannel HW i < q then
          (T b0).getD (S g0 + (laneChannel HW i * HW + laneSpatial HW i)) default
        else group_mem.getD (D g0 b0 + i) default := by
  have hHW : 0 < HW := by
    rcases Nat.eq_zero_or_pos HW with h | h
    · rw [h, Nat.mul_zero] at hr; omega
    · exact h
  obtain ⟨hci, hsi⟩ := c4Index_lane HW i hHW
  by_cases hc : laneChannel HW i < q
  · rw [if_pos hc]
    have := split_core G N q HW r D T S group_mem hr hD hlen g0 b0 _ _ hg0 hb0 hc hsi
    rw [hci] at this
    exact this
  · rw [if_neg hc]
    apply split_core_miss
    intro g b c s hg hb hcq hs
    by_cases hgb : g = g0 ∧ b = b0
    · rw [hgb.1, hgb.2]
      intro heq
      have h1 : c4Index HW c s = i := Nat.add_left_cancel heq
      have h2 := laneChannel_c4Index HW c s hs
      rw [h1] at h2
      exact hc (h2 ▸ hcq)
    · have hidx : c4Index HW c s < r := hr ▸ c4Index_lt HW q c s hcq hs
      have := region_disjoint N r g0 b0 g b (c4Index HW c s) hb0 hb hidx
        (fun h => hgb ⟨h.1.symm, h.2.symm⟩)
      rw [hD g b hg hb, hD g0 b0 hg0 hb0]
      omega

/-- After the split, the row block of group `g` in the group buffer is the channel block
`g` of the aggregate, as `groupSlice` describes it, provided the buffer was fresh. -/
theorem CopyInputSplitBlob_region {α : Type} [Inhabited α] (self : ArmConvLayerGroup) (input : Blob)
    (input_mem group_mem : List α) (N C H W : Nat)
    (hfloat : input.desc.data_type = DataType.DATA_TYPE_FLOAT)
    (hdims : input.desc.dims = [N, C, H, W]) (hdiv : C % self.group_ = 0)
    (hgd : (self.group_inputs_.getD 0 default).desc.dims = [N, C / self.group_, H, W])
    (hh : ∀ g, g < self.group_ → GetBlobHandlePtr (self.group_inputs_.getD g default).handle
      = g * (ROUND_UP (C / self.group_) 4 * H * W * N))
    (hlen : group_mem.length = self.group_ * N * (ROUND_UP (C / self.group_) 4 * H * W))
    (hfresh : ∀ a, group_mem.getD a default = default)
    (g : Nat) (hg : g < self.group_) :
    readRegion (self.CopyInputSplitBlob input input_mem group_mem).2
        (GetBlobHandlePtr (self.group_inputs_.getD g default).handle)
        (N * (ROUND_UP (C / self.group_) 4 * H * W))
      = groupSlice input_mem (GetBlobHandlePtr input.handle) N C H W self.group_ g := by
  unfold readRegion groupSlice
  apply List.map_congr_left
  intro k hk
  have hkN : k < N * (ROUND_UP (C / self.group_) 4 * H * W) := List.mem_range.mp hk
  have hr : 0 < ROUND_UP (C / self.group_) 4 * H * W := by
    rcases Nat.eq_zero_or_pos (ROUND_UP (C / self.group_) 4 * H * W) with h | h
    · rw [h, Nat.mul_zero] at hkN; omega
    · exact h
  have hb : k / (ROUND_UP (C / self.group_) 4 * H * W) < N :=
    Nat.div_lt_of_lt_mul (by rw [Nat.mul_comm]; exact hkN)
  have hi : k % (ROUND_UP (C / self.group_) 4 * H * W) < ROUND_UP (C / self.group_) 4 * H * W :=
    Nat.mod_lt _ hr
  have hk2 : GetBlobHandlePtr (self.group_inputs_.getD g default).handle + k
      = GetBlobHandlePtr (self.group_inputs_.getD g default).handle
        + k / (ROUND_UP (C / self.group_) 4 * H * W) * (ROUND_UP (C / self.group_) 4 * H * W)
        + k % (ROUND_UP (C / self.group_) 4 * H * W) := by
    have := Nat.div_add_mod k (ROUND_UP (C / self.group_) 4 * H * W)
    rw [Nat.mul_comm] at this
    omega
  have hHW : 0 < H * W := by
    rcases Nat.eq_zero_or_pos (H * W) with h | h
    · rw [Nat.mul_assoc, h, Nat.mul_zero] at hr; omega
    · exact h
  have hC : self.group_ * (C / self.group_) = C := Nat.mul_div_cancel' (Nat.dvd_of_mod_eq_zero hdiv)
  rw [hk2]
  simp only [CopyInputSplitBlob, hdims, hgd, hfloat, if_true, dim, List.getD_cons_zero,
    List.getD_cons_succ, DimsVectorUtils.Count, List.take, List.drop, List.prod_cons,
    List.prod_nil, Nat.mul_one, Nat.zero_add]
  refine Eq.trans (split_core_full self.group_ N (C / self.group_) (H * W)
    (ROUND_UP (C / self.group_) 4 * H * W)
    (fun g b => GetBlobHandlePtr (self.group_inputs_.getD g default).handle
      + b * (ROUND_UP (C / self.group_) 4 * H * W))
    (fun b => UnpackC4
      (RawBuffer.floats (self.group_ * (ROUND_UP (C / self.group_) 4 * H * W) * 4)) 0
      input_mem (GetBlobHandlePtr input.handle + b * (ROUND_UP C 4 * H * W)) (H * W) C)
    (fun g => g * (C / self.group_ * (H * W))) group_mem
    (Nat.mul_assoc _ _ _).symm (fun g1 b1 hg1 _ => by simp only [hh g1 hg1]) hlen g _ _ hg hb hi) ?_
  by_cases hc : laneChannel (H * W) (k % (ROUND_UP (C / self.group_) 4 * H * W)) < C / self.group_
  · rw [if_pos hc, if_pos hc]
    have hs := (c4Index_lane (H * W) (k % (ROUND_UP (C / self.group_) 4 * H * W)) hHW).2
    have hcC : g * (C / self.group_)
        + laneChannel (H * W) (k % (ROUND_UP (C / self.group_) 4 * H * W)) < C := by
      have := flat_lt (C / self.group_) self.group_ g _ hg hc
      rw [hC] at this; exact this
    have e : g * (C / self.group_ * (H * W))
        + (laneChannel (H * W) (k % (ROUND_UP (C / self.group_) 4 * H * W)) * (H * W)
          + laneSpatial (H * W) (k % (ROUND_UP (C / self.group_) 4 * H * W)))
        = 0 + ((g * (C / self.group_)
          + laneChannel (H * W) (k % (ROUND_UP (C / self.group_) 4 * H * W))) * (H * W)
          + laneSpatial (H * W) (k % (ROUND_UP (C / self.group_) 4 * H * W))) := by
      rw [Nat.zero_add, Nat.add_mul, Nat.add_assoc, Nat.mul_assoc g]
    show (UnpackC4 _ 0 input_mem _ (H * W) C).getD _ default = _
    rw [e]
    refine getD_UnpackC4_hit _ 0 input_mem _ (H * W) C _ _ hcC hs ?_
    have h1 := flat_lt (H * W) C _ _ hcC hs
    have h2 : C * (H * W) ≤ self.group_ * (ROUND_UP (C / self.group_) 4 * H * W) := by
      calc C * (H * W) = self.group_ * (C / self.group_) * (H * W) := by rw [hC]
        _ = self.group_ * (C / self.group_ * (H * W)) := Nat.mul_assoc _ _ _
        _ ≤ self.group_ * (ROUND_UP (C / self.group_) 4 * (H * W)) :=
          Nat.mul_le_mul_left _ (Nat.mul_le_mul_right _ (le_ROUND_UP_four _))
        _ = self.group_ * (ROUND_UP (C / self.group_) 4 * H * W) := by rw [Nat.mul_assoc _ H W]
    simp only [RawBuffer.floats, List.length_replicate, Nat.mul_div_cancel _ (by decide : 0 < 4)]
    omega
  · rw [if_neg hc, if_neg hc]
    exact hfresh _

theorem groupSlice_congr {α : Type} [Inhabited α] (x x1 : List α) (origin N C H W G g : Nat)
    (h : ∀ b c s, b < N → c < C / G → s < H * W →
      x1.getD (origin + b * (ROUND_UP C 4 * H * W) + c4Index (H * W) (g * (C / G) + c) s) default
        = x.getD (origin + b * (ROUND_UP C 4 * H * W) + c4Index (H * W) (g * (C / G) + c) s) default) :
    groupSlice x1 origin N C H W G g = groupSlice x origin N C H W G g := by
  unfold groupSlice
  apply List.map_congr_left
  intro k hk
  have hkN : k < N * (ROUND_UP (C / G) 4 * H * W) := List.mem_range.mp hk
  have hr : 0 < ROUND_UP (C / G) 4 * H * W := by
    rcases Nat.eq_zero_or_pos (ROUND_UP (C / G) 4 * H * W) with h0 | h0
    · rw [h0, Nat.mul_zero] at hkN; omega
    · exact h0
  have hHW : 0 < H * W := by
    rcases Nat.eq_zero_or_pos (H * W) with h0 | h0
    · rw [Nat.mul_assoc, h0, Nat.mul_zero] at hr; omega
    · exact h0
  have hb : k / (ROUND_UP (C / G) 4 * H * W) < N :=
    Nat.div_lt_of_lt_mul (by rw [Nat.mul_comm]; exact hkN)
  by_cases hc : laneChannel (H * W) (k % (ROUND_UP (C / G) 4 * H * W)) < C / G
  · rw [if_pos hc, if_pos hc]
    exact h _ _ _ hb hc (c4Index_lane (H * W) _ hHW).2
  · rw [if_neg hc, if_neg hc]

/-! ## The sub-kernel loop -/

theorem length_writeRegion {α : Type} [Inhabited α] (buf : List α) (ptr len : Nat) (data : List α) :
    (writeRegion buf ptr len data).length = buf.length :=
  length_foldl_set len (fun k => ptr + k) (fun k => data.getD k default) buf

theorem getD_writeRegion_hit {α : Type} [Inhabited α] (buf : List α) (ptr len : Nat)
    (data : List α) (k : Nat) (hk : k < len) (hb : ptr + k < buf.length) :
    (writeRegion buf ptr len data).getD (ptr + k) default = data.getD k default :=
  getD_foldl_set_hit len (fun k => ptr + k) (fun k => data.getD k default) buf k hk
    (fun _ _ h => Nat.add_left_cancel h) hb

theorem getD_writeRegion_frame {α : Type} [Inhabited α] (buf : List α) (ptr len : Nat)
    (data : List α) (a : Nat) (h : a < ptr ∨ ptr + len ≤ a) :
    (writeRegion buf ptr len data).getD a default = buf.getD a default := by
  refine getD_foldl_set_frame len (fun k => ptr + k) (fun k => data.getD k default) buf a ?_
  intro k hk
  show ptr + k ≠ a
  omega

theorem forwardGroup_ok {α : Type} [Inhabited α] (env : Env α) (self : ArmConvLayerGroup)
    (input_buf : List α) (i : Nat) (s : List α × List Event) (acc : ArmLayerAcc)
    (hacc : self.conv_acc_impls_.getD i none = some acc)
    (hfwd : ∀ acc d1 d2 data, (env.accForward acc d1 d2 data).1.isOk = true) :
    forwardGroup env self input_buf i s = (none,
      (writeRegion s.1 (GetBlobHandlePtr (self.group_outputs_.getD i default).handle)
        (packedCount (self.group_outputs_.getD i default).desc.dims)
        (env.accForward acc (self.group_inputs_.getD i default).desc
          (self.group_outputs_.getD i default).desc
          (readRegion input_buf (GetBlobHandlePtr (self.group_inputs_.getD i default).handle)
            (packedCount (self.group_inputs_.getD i default).desc.dims))).2,
       s.2 ++ [Event.forward i])) := by
  unfold forwardGroup
  simp only [hacc, accForward, hfwd, Bool.not_true, Bool.false_eq_true, if_false]

/-- The sub-kernel loop, when every sub-kernel is present and succeeds: it does not return
early, and afterwards the row block of group `g` in the group output buffer holds the
output of sub-kernel `g`. -/
theorem forward_loop {α : Type} [Inhabited α] (env : Env α) (self : ArmConvLayerGroup)
    (input_buf output_buf : List α) (log : List Event) (accs : Nat → ArmLayerAcc) (n R : Nat)
    (haccs : ∀ g, g < n → self.conv_acc_impls_.getD g none = some (accs g))
    (hfwd : ∀ acc d1 d2 data, (env.accForward acc d1 d2 data).1.isOk = true)
    (hP : ∀ g, g < n → GetBlobHandlePtr (self.group_outputs_.getD g default).handle = g * R)
    (hL : ∀ g, g < n → packedCount (self.group_outputs_.getD g default).desc.dims = R)
    (hlen : output_buf.length = n * R) :
    ∃ s, forReturn (forwardGroup env self input_buf) (List.range n) (output_buf, log) = (none, s) ∧
      ∀ g k, g < n → k < R →
        s.1.getD (g * R + k) default
          = (env.accForward (accs g) (self.group_inputs_.getD g default).desc
              (self.group_outputs_.getD g default).desc
              (readRegion input_buf (GetBlobHandlePtr (self.group_inputs_.getD g default).handle)
                (packedCount (self.group_inputs_.getD g default).desc.dims))).2.getD k default := by
  refine ⟨_, forReturn_of_none _ _ _ (fun i hi s => by
    rw [forwardGroup_ok env self input_buf i s (accs i) (haccs i (List.mem_range.mp hi)) hfwd]), ?_⟩
  intro g k hg hk
  have key := foldl_range_inv (fun s i => (forwardGroup env self input_buf i s).2)
    (fun m (s : List α × List Event) => s.1.length = n * R ∧
      (g < m → s.1.getD (g * R + k) default
          = (env.accForward (accs g) (self.group_inputs_.getD g default).desc
              (self.group_outputs_.getD g default).desc
              (readRegion input_buf (GetBlobHandlePtr (self.group_inputs_.getD g default).handle)
                (packedCount (self.group_inputs_.getD g default).desc.dims))).2.getD k default))
    n (output_buf, log) ⟨hlen, fun h => absurd h (Nat.not_lt_zero g)⟩ ?_
  · exact key.2 hg
  · intro i s hi hs
    show (forwardGroup env self input_buf i s).2.1.length = n * R ∧
      (g < i + 1 → (forwardGroup env self input_buf i s).2.1.getD (g * R + k) default = _)
    rw [forwardGroup_ok env self input_buf i s (accs i) (haccs i hi) hfwd]
    simp only [hP i hi, hL i hi]
    refine ⟨by rw [length_writeRegion]; exact hs.1, fun hgi => ?_⟩
    by_cases hig : i = g
    · subst hig
      refine getD_writeRegion_hit _ _ _ _ k hk ?_
      rw [hs.1]
      exact flat_lt R n i k hi hk
    · rw [getD_writeRegion_frame]
      · exact hs.2 (Nat.lt_of_le_of_ne (Nat.le_of_lt_succ hgi) (fun h => hig h.symm))
      · have := row_disjoint R i g k hk hig
        omega

theorem getD_floats {α : Type} [Inhabited α] (n a : Nat) :
    (RawBuffer.floats n : List α).getD a default = default := by
  unfold RawBuffer.floats
  rw [List.getD_eq_getElem?_getD, List.getElem?_replicate]
  split <;> rfl

theorem splitSide_fresh (α : Type) [Inhabited α] (self : ArmConvLayerGroup) (blob : Blob)
    (blobs : List Blob) (hG : 1 ≤ self.group_) (hlen : blobs.length = self.group_)
    (hfloat : blob.desc.data_type = DataType.DATA_TYPE_FLOAT) (a : Nat) :
    (self.splitSide blob blobs : List Blob × List α).2.getD a default = default := by
  have hf : ((self.SetSplitBlobDesc blob blobs).2.2.getD 0 default).desc.data_type
      = DataType.DATA_TYPE_FLOAT := by
    rw [SetSplitBlobDesc_getD self blob blobs 0 hG (by omega)]
    exact hfloat
  simp only [splitSide]
  rw [SetSplitBlobHandle_float self _ _ hf]
  exact getD_floats _ a

/-- The output of `DoForward` when every sub-kernel is present and succeeds. -/
theorem DoForward_output {α : Type} [Inhabited α] (env : Env α) (self : ArmConvLayerGroup)
    (inputs outputs : List Blob) (input_mem output_mem : List α) (accs : Nat → ArmLayerAcc)
    (N Cin H W Cout Ho Wo : Nat)
    (hG : 1 ≤ self.group_) (hlenI : self.group_inputs_.length = self.group_)
    (hlenO : self.group_outputs_.length = self.group_)
    (hlenA : self.conv_acc_impls_.length = self.group_)
    (haccs : ∀ g, g < self.group_ → self.conv_acc_impls_.getD g none = some (accs g))
    (hfwd : ∀ acc d1 d2 data, (env.accForward acc d1 d2 data).1.isOk = true)
    (hxf : (inputs.getD 0 default).desc.data_type = DataType.DATA_TYPE_FLOAT)
    (hxd : (inputs.getD 0 default).desc.dims = [N, Cin, H, W])
    (hyf : (outputs.getD 0 default).desc.data_type = DataType.DATA_TYPE_FLOAT)
    (hyd : (outputs.getD 0 default).desc.dims = [N, Cout, Ho, Wo])
    (hdivI : Cin % self.group_ = 0) (hdivO : Cout % self.group_ = 0)
    (hmem : GetBlobHandlePtr (outputs.getD 0 default).handle + N * (ROUND_UP Cout 4 * Ho * Wo)
      ≤ output_mem.length) :
    (DoForward env self inputs outputs input_mem output_mem).status = TNN_OK ∧
    ∀ b g c s, b < N → g < self.group_ → c < Cout / self.group_ → s < Ho * Wo →
      (DoForward env self inputs outputs input_mem output_mem).output_mem.getD
        (GetBlobHandlePtr (outputs.getD 0 default).handle + b * (ROUND_UP Cout 4 * Ho * Wo)
          + c4Index (Ho * Wo) (g * (Cout / self.group_) + c) s) default
      = (env.accForward (accs g)
          { (inputs.getD 0 default).desc with dims := [N, Cin / self.group_, H, W] }
          { (outputs.getD 0 default).desc with dims := [N, Cout / self.group_, Ho, Wo] }
          (groupSlice input_mem (GetBlobHandlePtr (inputs.getD 0 default).handle)
            N Cin H W self.group_ g)).2.getD
        (b * (ROUND_UP (Cout / self.group_) 4 * Ho * Wo) + c4Index (Ho * Wo) c s) default := by
  obtain ⟨hsI, hlI, hI⟩ := splitSide_facts α self (inputs.getD 0 default) self.group_inputs_
    N Cin H W hG hlenI hxf hxd
  obtain ⟨hsO, hlO, hO⟩ := splitSide_facts α self (outputs.getD 0 default) self.group_outputs_
    N Cout Ho Wo hG hlenO hyf hyd
  have hne : self.conv_acc_impls_.length ≠ 0 := by omega
  obtain ⟨sf, hloop, hsf⟩ := forward_loop env
    { self with
      group_inputs_ := (self.splitSide (inputs.getD 0 default) self.group_inputs_ : List Blob × List α).1
      group_outputs_ := (self.splitSide (outputs.getD 0 default) self.group_outputs_ : List Blob × List α).1 }
    ({ self with
      group_inputs_ := (self.splitSide (inputs.getD 0 default) self.group_inputs_ : List Blob × List α).1
      group_outputs_ := (self.splitSide (outputs.getD 0 default) self.group_outputs_ : List Blob × List α).1
      }.CopyInputSplitBlob (inputs.getD 0 default) input_mem
        (self.splitSide (inputs.getD 0 default) self.group_inputs_ : List Blob × List α).2).2
    (self.splitSide (outputs.getD 0 default) self.group_outputs_ : List Blob × List α).2
    [Event.split] accs self.group_ (ROUND_UP (Cout / self.group_) 4 * Ho * Wo * N)
    haccs hfwd (fun g hg => (hO g hg).2)
    (fun g hg => by
      show packedCount ((self.splitSide (outputs.getD 0 default) self.group_outputs_ :
        List Blob × List α).1.getD g default).desc.dims = _
      rw [(hO g hg).1]
      simp [packedCount, dim, Nat.mul_comm])
    (by rw [hlO, Nat.mul_assoc, Nat.mul_comm N])
  rw [DoForward_eq, hsI, hsO]
  simp only [TNN_OK_isOk, Bool.not_true, Bool.false_eq_true, if_false, hne, ne_eq,
    not_false_eq_true, if_true]
  rw [hlenA, hloop]
  refine ⟨rfl, ?_⟩
  intro b g c s hb hg hc hs
  simp only []
  rw [CopyOutputSplitBlob_getD
    { self with
      group_inputs_ := (self.splitSide (inputs.getD 0 default) self.group_inputs_ : List Blob × List α).1
      group_outputs_ := (self.splitSide (outputs.getD 0 default) self.group_outputs_ : List Blob × List α).1 }
    (outputs.getD 0 default) output_mem sf.1 N Cout Ho Wo hyf hyd
    hdivO (by rw [(hO 0 hG).1]) hmem b g c s hb hg hc hs]
  have hidx : c4Index (Ho * Wo) c s < ROUND_UP (Cout / self.group_) 4 * Ho * Wo := by
    rw [Nat.mul_assoc]; exact c4Index_lt (Ho * Wo) _ c s hc hs
  have hk := flat_lt (ROUND_UP (Cout / self.group_) 4 * Ho * Wo) N b _ hb hidx
  have hsf1 := hsf g (b * (ROUND_UP (Cout / self.group_) 4 * Ho * Wo) + c4Index (Ho * Wo) c s)
    hg (by rw [Nat.mul_comm _ N]; exact hk)
  have haddr : GetBlobHandlePtr
      (({ self with
        group_inputs_ := (self.splitSide (inputs.getD 0 default) self.group_inputs_ : List Blob × List α).1
        group_outputs_ := (self.splitSide (outputs.getD 0 default) self.group_outputs_ : List Blob × List α).1
        } : ArmConvLayerGroup).group_outputs_.getD g default).handle
        + b * (ROUND_UP (Cout / self.group_) 4 * Ho * Wo) + c4Index (Ho * Wo) c s
      = g * (ROUND_UP (Cout / self.group_) 4 * Ho * Wo * N)
        + (b * (ROUND_UP (Cout / self.group_) 4 * Ho * Wo) + c4Index (Ho * Wo) c s) := by
    show GetBlobHandlePtr ((self.splitSide (outputs.getD 0 default) self.group_outputs_ :
        List Blob × List α).1.getD g default).handle + _ + _ = _
    rw [(hO g hg).2, Nat.add_assoc]
  rw [haddr, hsf1]
  have hreg := CopyInputSplitBlob_region
    { self with
      group_inputs_ := (self.splitSide (inputs.getD 0 default) self.group_inputs_ : List Blob × List α).1
      group_outputs_ := (self.splitSide (outputs.getD 0 default) self.group_outputs_ : List Blob × List α).1 }
    (inputs.getD 0 default) input_mem
    (self.splitSide (inputs.getD 0 default) self.group_inputs_ : List Blob × List α).2
    N Cin H W hxf hxd hdivI (by rw [(hI 0 hG).1]) (fun g1 hg1 => (hI g1 hg1).2) hlI
    (splitSide_fresh α self _ _ hG hlenI hxf) g hg
  have hpc : packedCount (({ self with
        group_inputs_ := (self.splitSide (inputs.getD 0 default) self.group_inputs_ : List Blob × List α).1
        group_outputs_ := (self.splitSide (outputs.getD 0 default) self.group_outputs_ : List Blob × List α).1
        } : ArmConvLayerGroup).group_inputs_.getD g default).desc.dims
      = N * (ROUND_UP (Cin / self.group_) 4 * H * W) := by
    show packedCount ((self.splitSide (inputs.getD 0 default) self.group_inputs_ :
        List Blob × List α).1.getD g default).desc.dims = _
    rw [(hI g hg).1]
    simp [packedCount, dim]
  rw [hpc, hreg]
  show (env.accForward (accs g)
    ((self.splitSide (inputs.getD 0 default) self.group_inputs_ : List Blob × List α).1.getD g default).desc
    ((self.splitSide (outputs.getD 0 default) self.group_outputs_ : List Blob × List α).1.getD g default).desc
    _).2.getD _ default = _
  rw [(hI g hg).1, (hO g hg).1]

/-- C4. End-to-end composition of `DoForward`: with `1 ≤ group_` dividing the input
channels `Cin` and the output channels `Cout`, `group_` group blobs per side, `group_`
sub-kernels whose forward always succeeds, float aggregate blobs and an output memory
that holds the output tensor, `DoForward` returns `TNN_OK` and the real elements of the
aggregate output in channel block `g` are those of the output of sub-kernel `g` run on
`groupSlice`, the lane-packed channel block `g` of the aggregate input; and the output
block `g` is the same for any two input memories that agree on the input channel block
`g`. -/
theorem DoForward_composition {α : Type} [Inhabited α] (env : Env α) (self : ArmConvLayerGroup)
    (inputs outputs : List Blob) (input_mem output_mem : List α) (accs : Nat → ArmLayerAcc)
    (N Cin H W Cout Ho Wo : Nat)
    (hG : 1 ≤ self.group_) (hlenI : self.group_inputs_.length = self.group_)
    (hlenO : self.group_outputs_.length = self.group_)
    (hlenA : self.conv_acc_impls_.length = self.group_)
    (haccs : ∀ g, g < self.group_ → self.conv_acc_impls_.getD g none = some (accs g))
    (hfwd : ∀ acc d1 d2 data, (env.accForward acc d1 d2 data).1.isOk = true)
    (hxf : (inputs.getD 0 default).desc.data_type = DataType.DATA_TYPE_FLOAT)
    (hxd : (inputs.getD 0 default).desc.dims = [N, Cin, H, W])
    (hyf : (outputs.getD 0 default).desc.data_type = DataType.DATA_TYPE_FLOAT)
    (hyd : (outputs.getD 0 default).desc.dims = [N, Cout, Ho, Wo])
    (hdivI : Cin % self.group_ = 0) (hdivO : Cout % self.group_ = 0)
    (hmem : GetBlobHandlePtr (outputs.getD 0 default).handle + N * (ROUND_UP Cout 4 * Ho * Wo)
      ≤ output_mem.length) :
    (DoForward env self inputs outputs input_mem output_mem).status = TNN_OK ∧
    (∀ b g c s, b < N → g < self.group_ → c < Cout / self.group_ → s < Ho * Wo →
      (DoForward env self inputs outputs input_mem output_mem).output_mem.getD
        (GetBlobHandlePtr (outputs.getD 0 default).handle + b * (ROUND_UP Cout 4 * Ho * Wo)
          + c4Index (Ho * Wo) (g * (Cout / self.group_) + c) s) default
      = (env.accForward (accs g)
          { (inputs.getD 0 default).desc with dims := [N, Cin / self.group_, H, W] }
          { (outputs.getD 0 default).desc with dims := [N, Cout / self.group_, Ho, Wo] }
          (groupSlice input_mem (GetBlobHandlePtr (inputs.getD 0 default).handle)
            N Cin H W self.group_ g)).2.getD
        (b * (ROUND_UP (Cout / self.group_) 4 * Ho * Wo) + c4Index (Ho * Wo) c s) default) ∧
    (∀ (input_mem1 : List α) g, g < self.group_ →
      (∀ b c s, b < N → c < Cin / self.group_ → s < H * W →
        input_mem1.getD (GetBlobHandlePtr (inputs.getD 0 default).handle
            + b * (ROUND_UP Cin 4 * H * W) + c4Index (H * W) (g * (Cin / self.group_) + c) s) default
          = input_mem.getD (GetBlobHandlePtr (inputs.getD 0 default).handle
            + b * (ROUND_UP Cin 4 * H * W) + c4Index (H * W) (g * (Cin / self.group_) + c) s) default) →
      ∀ b c s, b < N → c < Cout / self.group_ → s < Ho * Wo →
        (DoForward env self inputs outputs input_mem1 output_mem).output_mem.getD
          (GetBlobHandlePtr (outputs.getD 0 default).handle + b * (ROUND_UP Cout 4 * Ho * Wo)
            + c4Index (Ho * Wo) (g * (Cout / self.group_) + c) s) default
        = (DoForward env self inputs outputs input_mem output_mem).output_mem.getD
          (GetBlobHandlePtr (outputs.getD 0 default).handle + b * (ROUND_UP Cout 4 * Ho * Wo)
            + c4Index (Ho * Wo) (g * (Cout / self.group_) + c) s) default) := by
  have h0 := DoForward_output env self inputs outputs input_mem output_mem accs
    N Cin H W Cout Ho Wo hG hlenI hlenO hlenA haccs hfwd hxf hxd hyf hyd hdivI hdivO hmem
  refine ⟨h0.1, h0.2, ?_⟩
  intro input_mem1 g hg hagree b c s hb hc hs
  have h1 := DoForward_output env self inputs outputs input_mem1 output_mem accs
    N Cin H W Cout Ho Wo hG hlenI hlenO hlenA haccs hfwd hxf hxd hyf hyd hdivI hdivO hmem
  rw [h1.2 b g c s hb hg hc hs, h0.2 b g c s hb hg hc hs,
    groupSlice_congr input_mem input_mem1 _ N Cin H W self.group_ g hagree]

/-- C4 at a concrete input: the object `Init` built for two groups on dims `(2, 6, 1, 2)`,
whose sub-kernels add 1000 to every cell. -/
theorem DoForward_composition_witness :
    1 ≤ readyGroup.group_ ∧ 6 % readyGroup.group_ = 0 ∧
    (DoForward exampleEnv readyGroup [exampleBlob] [exampleBlob] exampleMem exampleOut).status
      = TNN_OK :=
  ⟨by decide, by decide,
    (DoForward_composition exampleEnv readyGroup [exampleBlob] [exampleBlob] exampleMem exampleOut
      readyAcc 2 6 1 2 6 1 2 (by decide) (by decide) (by decide) (by decide) (by decide)
      (fun _ _ _ _ => rfl) rfl rfl rfl rfl (by decide) (by decide) (by decide)).1⟩

/-! ## The selector -/

/-- C11. Selector priority for float inputs: from an empty slot, `CreateImpFP` returns a
fresh instance of the variant that the spec's priority list gives for the outcomes of the
two predicates: 3x3 whenever the 3x3 predicate accepts, 1x1 when only the 1x1 predicate
accepts, the generic dense variant when neither accepts.  The result is never null and
depends on the two outcomes only. -/
theorem CreateImpFP_priority {α : Type} (env : Env α) (self : ArmConvLayerGroup)
    (inputs outputs : List Blob) (param : Option ConvLayerParam) :
    CreateImpFP env self inputs outputs param none
      = some (make_shared (specSelectFP (env.isPrefered3x3 self.param_ inputs outputs)
          (env.isPrefered1x1 self.param_ inputs outputs))) := by
  unfold CreateImpFP specSelectFP
  cases env.isPrefered3x3 self.param_ inputs outputs <;>
    cases env.isPrefered1x1 self.param_ inputs outputs <;>
    simp [dynamic_cast]

/-- C12 fails on the code: the call of `Init` passes the flattened group parameters
(`group = 1`) as `param`, but `CreateImpFP` evaluates the predicates on the member
`param_`, the aggregate parameters.  With two groups, 3x3 kernels and a 3x3 predicate
that accepts ungrouped convolutions only, the predicate accepts the flattened group
parameters, so the variant for the group is 3x3, yet `CreateImpFP` returns the generic
dense variant. -/
theorem CreateImpFP_uses_aggregate_param :
    exampleGroup.param_.group = 2 ∧
    (exampleGroup.SetGroupParam none).2.2
      = some { exampleParam with output_channel := 3, group := 1 } ∧
    specSelectFP
      (ungroupedOnlyEnv.isPrefered3x3 { exampleParam with output_channel := 3, group := 1 }
        [exampleBlob] [exampleBlob])
      (ungroupedOnlyEnv.isPrefered1x1 { exampleParam with output_channel := 3, group := 1 }
        [exampleBlob] [exampleBlob]) = ConvImpl.ArmConvLayer3x3 ∧
    CreateImpFP ungroupedOnlyEnv exampleGroup [exampleBlob] [exampleBlob]
      (some { exampleParam with output_channel := 3, group := 1 }) none
      = some (make_shared ConvImpl.ArmConvLayerCommon) := by
  decide

theorem CreateImpFP_keep {α : Type} (env : Env α) (self : ArmConvLayerGroup)
    (inputs outputs : List Blob) (param : Option ConvLayerParam) (acc : ArmLayerAcc)
    (h : acc.impl = specSelectFP (env.isPrefered3x3 self.param_ inputs outputs)
        (env.isPrefered1x1 self.param_ inputs outputs) ∨
      (env.isPrefered3x3 self.param_ inputs outputs = false ∧
        env.isPrefered1x1 self.param_ inputs outputs = false)) :
    CreateImpFP env self inputs outputs param (some acc) = some acc := by
  unfold CreateImpFP
  unfold specSelectFP at h
  cases h3 : env.isPrefered3x3 self.param_ inputs outputs <;>
    cases h1 : env.isPrefered1x1 self.param_ inputs outputs <;>
    simp [h3, h1, dynamic_cast, Option.filter] at h ⊢ <;>
    simp [h]

theorem CreateImpFP_impl {α : Type} (env : Env α) (self : ArmConvLayerGroup)
    (inputs outputs : List Blob) (param : Option ConvLayerParam) (held : Option ArmLayerAcc)
    (r : ArmLayerAcc) (h : CreateImpFP env self inputs outputs param held = some r) :
    r.impl = specSelectFP (env.isPrefered3x3 self.param_ inputs outputs)
        (env.isPrefered1x1 self.param_ inputs outputs) ∨
      (env.isPrefered3x3 self.param_ inputs outputs = false ∧
        env.isPrefered1x1 self.param_ inputs outputs = false) := by
  unfold CreateImpFP at h
  unfold specSelectFP
  cases h3 : env.isPrefered3x3 self.param_ inputs outputs <;>
    cases h1 : env.isPrefered1x1 self.param_ inputs outputs <;>
    simp only [h3, h1, if_true, if_false, Bool.false_eq_true, and_self, or_true] at h ⊢
  · left
    by_cases hk : (dynamic_cast ConvImpl.ArmConvLayer1x1 held).isNone = true
    · simp [hk, make_shared] at h
      rw [← h]
    · cases held with
      | none => simp [dynamic_cast] at hk
      | some a =>
        simp [hk] at h
        subst h
        by_cases ha : a.impl = ConvImpl.ArmConvLayer1x1
        · exact ha
        · simp [dynamic_cast, Option.filter, ha] at hk
  · left
    by_cases hk : (dynamic_cast ConvImpl.ArmConvLayer3x3 held).isNone = true
    · simp [hk, make_shared] at h
      rw [← h]
    · cases held with
      | none => simp [dynamic_cast] at hk
      | some a =>
        simp [hk] at h
        subst h
        by_cases ha : a.impl = ConvImpl.ArmConvLayer3x3
        · exact ha
        · simp [dynamic_cast, Option.filter, ha] at hk
  · left
    by_cases hk : (dynamic_cast ConvImpl.ArmConvLayer3x3 held).isNone = true
    · simp [hk, make_shared] at h
      rw [← h]
    · cases held with
      | none => simp [dynamic_cast] at hk
      | some a =>
        simp [hk] at h
        subst h
        by_cases ha : a.impl = ConvImpl.ArmConvLayer3x3
        · exact ha
        · simp [dynamic_cast, Option.filter, ha] at hk

theorem CreateImpInt8_keep (self : ArmConvLayerGroup)
    (inputs outputs : List Blob) (param : Option ConvLayerParam) (acc : ArmLayerAcc)
    (h : acc.impl = ConvImpl.ArmConvInt8LayerCommon) :
    CreateImpInt8 self inputs outputs param (some acc) = some acc := by
  simp [CreateImpInt8, dynamic_cast, Option.filter, h]

theorem CreateImpInt8_impl (self : ArmConvLayerGroup)
    (inputs outputs : List Blob) (param : Option ConvLayerParam) (held : Option ArmLayerAcc)
    (r : ArmLayerAcc) (h : CreateImpInt8 self inputs outputs param held = some r) :
    r.impl = ConvImpl.ArmConvInt8LayerCommon := by
  unfold CreateImpInt8 at h
  by_cases hk : (dynamic_cast ConvImpl.ArmConvInt8LayerCommon held).isNone = true
  · simp [hk, make_shared] at h
    rw [← h]
  · cases held with
    | none => simp [dynamic_cast] at hk
    | some a =>
      simp [hk] at h
      subst h
      by_cases ha : a.impl = ConvImpl.ArmConvInt8LayerCommon
      · exact ha
      · simp [dynamic_cast, Option.filter, ha] at hk

/-- C13. Idempotent re-selection: whatever the predicates answer and whatever was held,
`CreateImpFP` (resp. `CreateImpInt8`) called again on the instance `r` it returned gives
back `r`; and any held instance of the same variant as `r`, with whatever state it has
acquired since, is given back as it is, so no fresh instance takes its place. -/
theorem CreateImp_idempotent {α : Type} (env : Env α) (self : ArmConvLayerGroup)
    (inputs outputs : List Blob) (param : Option ConvLayerParam)
    (held : Option ArmLayerAcc) (r acc : ArmLayerAcc) :
    (CreateImpFP env self inputs outputs param held = some r →
      CreateImpFP env self inputs outputs param (some r) = some r ∧
      (acc.impl = r.impl → CreateImpFP env self inputs outputs param (some acc) = some acc)) ∧
    (CreateImpInt8 self inputs outputs param held = some r →
      CreateImpInt8 self inputs outputs param (some r) = some r ∧
      (acc.impl = r.impl → CreateImpInt8 self inputs outputs param (some acc) = some acc)) := by
  constructor
  · intro h
    have hr := CreateImpFP_impl env self inputs outputs param held r h
    exact ⟨CreateImpFP_keep env self inputs outputs param r hr,
      fun ha => CreateImpFP_keep env self inputs outputs param acc (by rw [ha]; exact hr)⟩
  · intro h
    have hr := CreateImpInt8_impl self inputs outputs param held r h
    exact ⟨CreateImpInt8_keep self inputs outputs param r hr,
      fun ha => CreateImpInt8_keep self inputs outputs param acc (by rw [ha]; exact hr)⟩

/-- C13 at a concrete input: an initialised 1x1 instance is held, the 3x3 predicate
accepts; the first call replaces it by a fresh 3x3 instance, the second call keeps
that one. -/
theorem CreateImp_idempotent_witness :
    CreateImpFP exampleEnv exampleGroup [exampleBlob] [exampleBlob] none (some heldAcc)
      = some (make_shared ConvImpl.ArmConvLayer3x3) ∧
    CreateImpFP exampleEnv exampleGroup [exampleBlob] [exampleBlob] none
      (some (make_shared ConvImpl.ArmConvLayer3x3)) = some (make_shared ConvImpl.ArmConvLayer3x3) :=
  ⟨by decide,
    ((CreateImp_idempotent exampleEnv exampleGroup [exampleBlob] [exampleBlob] none
      (some heldAcc) (make_shared ConvImpl.ArmConvLayer3x3) heldAcc).1 (by decide)).1⟩

/-- C19. Fallback to the generic dense variant only from an empty slot: when neither the
3x3 nor the 1x1 predicate accepts, `CreateImpFP` returns a held non-null instance, of
whatever variant and state, unchanged; it does not replace it by the generic dense
variant. -/
theorem CreateImpFP_keeps_held {α : Type} (env : Env α) (self : ArmConvLayerGroup)
    (inputs outputs : List Blob) (param : Option ConvLayerParam) (acc : ArmLayerAcc)
    (h3 : env.isPrefered3x3 self.param_ inputs outputs = false)
    (h1 : env.isPrefered1x1 self.param_ inputs outputs = false) :
    CreateImpFP env self inputs outputs param (some acc) = some acc := by
  simp [CreateImpFP, h3, h1]

/-- C19 at a concrete input: with 5x5 kernels neither predicate of `exampleEnv` accepts,
and the held initialised 1x1 instance stays. -/
theorem CreateImpFP_keeps_held_witness :
    exampleEnv.isPrefered3x3 { exampleGroup with param_ := { exampleParam with kernels := [5, 5] }
      }.param_ [exampleBlob] [exampleBlob] = false ∧
    CreateImpFP exampleEnv { exampleGroup with param_ := { exampleParam with kernels := [5, 5] } }
      [exampleBlob] [exampleBlob] none (some heldAcc) = some heldAcc :=
  ⟨by decide,
    CreateImpFP_keeps_held exampleEnv
      { exampleGroup with param_ := { exampleParam with kernels := [5, 5] } }
      [exampleBlob] [exampleBlob] none heldAcc (by decide) (by decide)⟩

/-! ## Early returns of `DoForward` -/

theorem forReturn_append {ι σ : Type} (body : ι → σ → Option Status × σ) (l1 l2 : List ι) (s : σ) :
    forReturn body (l1 ++ l2) s =
      match forReturn body l1 s with
      | (some st, s1) => (some st, s1)
      | (none, s1) => forReturn body l2 s1 := by
  induction l1 generalizing s with
  | nil => rfl
  | cons i rest ih =>
    simp only [List.cons_append, forReturn]
    rcases hb : body i s with ⟨o, s1⟩
    cases o with
    | none => simp only []; exact ih s1
    | some st => rfl

theorem forwardGroup_null {α : Type} [Inhabited α] (env : Env α) (S : ArmConvLayerGroup)
    (input_buf : List α) (i : Nat) (s : List α × List Event)
    (h : S.conv_acc_impls_.getD i none = none) :
    forwardGroup env S input_buf i s = (some paramNullStatus, s) := by
  unfold forwardGroup
  simp only [h]

theorem forwardGroup_some {α : Type} [Inhabited α] (env : Env α) (S : ArmConvLayerGroup)
    (input_buf : List α) (i : Nat) (s : List α × List Event) (acc : ArmLayerAcc)
    (h : S.conv_acc_impls_.getD i none = some acc) :
    (forwardGroup env S input_buf i s).1
        = (if (subStatus env S input_buf acc i).isOk then none
            else some (subStatus env S input_buf acc i)) ∧
      (forwardGroup env S input_buf i s).2.2 = s.2 ++ [Event.forward i] := by
  unfold forwardGroup subStatus
  simp only [h, accForward]
  cases (env.accForward acc (S.group_inputs_.getD i default).desc
    (S.group_outputs_.getD i default).desc
    (readRegion input_buf (GetBlobHandlePtr (S.group_inputs_.getD i default).handle)
      (packedCount (S.group_inputs_.getD i default).desc.dims))).1.isOk <;> simp

/-- How the sub-kernel loop ends: either every sub-kernel was present and succeeded and
the log gained `forward 0 … forward (n - 1)`, or the loop returned at the first index `i`
whose sub-kernel is null (log up to `forward (i - 1)`) or fails (log up to `forward i`). -/
theorem forward_loop_outcome {α : Type} [Inhabited α] (env : Env α) (S : ArmConvLayerGroup)
    (input_buf : List α) (n : Nat) (s0 : List α × List Event) :
    (∃ sf, forReturn (forwardGroup env S input_buf) (List.range n) s0 = (none, sf) ∧
      sf.2 = s0.2 ++ (List.range n).map Event.forward ∧
      ∀ j, j < n → ∃ acc, S.conv_acc_impls_.getD j none = some acc ∧
        (subStatus env S input_buf acc j).isOk = true) ∨
    (∃ i st sf, i < n ∧
      forReturn (forwardGroup env S input_buf) (List.range n) s0 = (some st, sf) ∧
      (∀ j, j < i → ∃ acc, S.conv_acc_impls_.getD j none = some acc ∧
        (subStatus env S input_buf acc j).isOk = true) ∧
      ((S.conv_acc_impls_.getD i none = none ∧ st = paramNullStatus ∧
          sf.2 = s0.2 ++ (List.range i).map Event.forward) ∨
        (∃ acc, S.conv_acc_impls_.getD i none = some acc ∧
          st = subStatus env S input_buf acc i ∧ st.isOk = false ∧
          sf.2 = s0.2 ++ (List.range (i + 1)).map Event.forward))) := by
  induction n with
  | zero =>
    left
    exact ⟨s0, rfl, by simp, fun j hj => absurd hj (Nat.not_lt_zero j)⟩
  | succ n ih =>
    rw [List.range_succ, forReturn_append]
    rcases ih with ⟨sf, hF, hlog, hall⟩ | ⟨i, st, sf, hi, hF, hall, hcase⟩
    · rw [hF]
      simp only []
      cases himp : S.conv_acc_impls_.getD n none with
      | none =>
        right
        refine ⟨n, paramNullStatus, sf, Nat.lt_succ_self n, ?_, hall, Or.inl ⟨himp, rfl, hlog⟩⟩
        rw [forReturn_of_some _ n [] sf paramNullStatus
          (by rw [forwardGroup_null env S input_buf n sf himp])]
        rw [forwardGroup_null env S input_buf n sf himp]
      | some acc =>
        obtain ⟨h1, h2⟩ := forwardGroup_some env S input_buf n sf acc himp
        by_cases hok : (subStatus env S input_buf acc n).isOk = true
        · left
          rw [if_pos hok] at h1
          refine ⟨(forwardGroup env S input_buf n sf).2, ?_, ?_, ?_⟩
          · rw [forReturn_of_none _ [n] sf (fun j hj s => by
              rw [List.mem_singleton.mp hj]
              exact (forwardGroup_some env S input_buf n s acc himp).1.trans (if_pos hok))]
            rfl
          · rw [h2, hlog, List.map_append, List.append_assoc]
            rfl
          · intro j hj
            rcases Nat.lt_succ_iff_lt_or_eq.mp hj with hlt | heq
            · exact hall j hlt
            · rw [heq]; exact ⟨acc, himp, hok⟩
        · right
          rw [if_neg hok] at h1
          refine ⟨n, subStatus env S input_buf acc n, (forwardGroup env S input_buf n sf).2,
            Nat.lt_succ_self n, forReturn_of_some _ n [] sf _ h1, hall,
            Or.inr ⟨acc, himp, rfl, by simpa using hok, ?_⟩⟩
          rw [h2, hlog, List.range_succ, List.map_append, List.append_assoc]
          rfl
    · right
      rw [hF]
      exact ⟨i, st, sf, Nat.lt_succ_of_lt hi, rfl, hall, hcase⟩

theorem SetSplitBlobHandle_status (α : Type) [Inhabited α] (self : ArmConvLayerGroup) (blob : Blob)
    (blobs : List Blob) (hG : 1 ≤ self.group_) (hlen : blobs.length = self.group_) :
    (self.SetSplitBlobHandle (self.SetSplitBlobDesc blob blobs).2.2 ([] : List α)).1
      = if blob.desc.data_type = DataType.DATA_TYPE_FLOAT then TNN_OK
        else ⟨StatusCode.TNNERR_LAYER_ERR, "split int8 resource not supported"⟩ := by
  have h0 : ((self.SetSplitBlobDesc blob blobs).2.2.getD 0 default).desc.data_type
      = blob.desc.data_type := by
    rw [SetSplitBlobDesc_getD self blob blobs 0 hG (by omega)]
  unfold SetSplitBlobHandle
  simp only [h0]
  split <;> rfl

/-- The result of `DoForward` on float aggregate blobs: the setters succeed, and the rest
is decided by the sub-kernel list and loop. -/
theorem DoForward_float {α : Type} [Inhabited α] (env : Env α) (self : ArmConvLayerGroup)
    (inputs outputs : List Blob) (input_mem output_mem : List α)
    (hG : 1 ≤ self.group_) (hlenI : self.group_inputs_.length = self.group_)
    (hlenO : self.group_outputs_.length = self.group_)
    (hxf : (inputs.getD 0 default).desc.data_type = DataType.DATA_TYPE_FLOAT)
    (hyf : (outputs.getD 0 default).desc.data_type = DataType.DATA_TYPE_FLOAT) :
    DoForward env self inputs outputs input_mem output_mem =
      if self.conv_acc_impls_.length ≠ 0 then
        match forReturn
          (forwardGroup env (forwardSelf α self inputs outputs)
            (forwardInput self inputs outputs input_mem))
          (List.range self.conv_acc_impls_.length)
          ((self.splitSide (outputs.getD 0 default) self.group_outputs_ : List Blob × List α).2,
            [Event.split]) with
        | (some st, s) => ForwardResult.mk st (forwardSelf α self inputs outputs) output_mem s.2
        | (none, s) =>
          ForwardResult.mk TNN_OK (forwardSelf α self inputs outputs)
            ((forwardSelf α self inputs outputs).CopyOutputSplitBlob (outputs.getD 0 default)
              output_mem s.1).2
            (s.2 ++ [Event.merge])
      else
        ForwardResult.mk ⟨StatusCode.TNNERR_LAYER_ERR, "conv_acc_impl_ is nil"⟩
          (forwardSelf α self inputs outputs) output_mem [Event.split] := by
  have hsI := SetSplitBlobHandle_status α self (inputs.getD 0 default) self.group_inputs_ hG hlenI
  have hsO := SetSplitBlobHandle_status α self (outputs.getD 0 default) self.group_outputs_ hG hlenO
  rw [if_pos hxf] at hsI
  rw [if_pos hyf] at hsO
  rw [DoForward_eq, hsI, hsO]
  simp only [TNN_OK_isOk, Bool.not_true, Bool.false_eq_true, if_false]
  rfl

/-- The result of `DoForward` when an aggregate blob is not float: the error of
`SetSplitBlobHandle`, nothing logged, the aggregate output memory as it was. -/
theorem DoForward_nonfloat {α : Type} [Inhabited α] (env : Env α) (self : ArmConvLayerGroup)
    (inputs outputs : List Blob) (input_mem output_mem : List α)
    (hG : 1 ≤ self.group_) (hlenI : self.group_inputs_.length = self.group_)
    (hlenO : self.group_outputs_.length = self.group_)
    (hnf : (inputs.getD 0 default).desc.data_type ≠ DataType.DATA_TYPE_FLOAT ∨
      (outputs.getD 0 default).desc.data_type ≠ DataType.DATA_TYPE_FLOAT) :
    (DoForward env self inputs outputs input_mem output_mem).status
        = ⟨StatusCode.TNNERR_LAYER_ERR, "split int8 resource not supported"⟩ ∧
      (DoForward env self inputs outputs input_mem output_mem).log = [] ∧
      (DoForward env self inputs outputs input_mem output_mem).output_mem = output_mem := by
  have hsI := SetSplitBlobHandle_status α self (inputs.getD 0 default) self.group_inputs_ hG hlenI
  have hsO := SetSplitBlobHandle_status α self (outputs.getD 0 default) self.group_outputs_ hG hlenO
  rw [DoForward_eq]
  by_cases hxf : (inputs.getD 0 default).desc.data_type = DataType.DATA_TYPE_FLOAT
  · have hyf : (outputs.getD 0 default).desc.data_type ≠ DataType.DATA_TYPE_FLOAT := by
      rcases hnf with h | h
      · exact absurd hxf h
      · exact h
    rw [if_pos hxf] at hsI
    rw [if_neg hyf] at hsO
    rw [hsI, hsO]
    exact ⟨rfl, rfl, rfl⟩
  · rw [if_neg hxf] at hsI
    rw [hsI]
    exact ⟨rfl, rfl, rfl⟩

/-- C14. Fail-fast group execution in `DoForward` (float aggregate blobs, `group_ ≥ 1`
group blobs per side).  The log is `split`, then `forward 0, forward 1, …` in increasing
index without gaps, then `merge` only after all of them.  If sub-kernel `i` is the first
whose forward fails (the sub-kernels up to `i` being present), `DoForward` returns exactly
the status of that forward, the log ends with `forward i` (no later sub-kernel ran, no
merge) and the aggregate output memory is untouched.  `DoForward` returns success only if
every sub-kernel is present and its forward succeeded. -/
theorem DoForward_fail_fast {α : Type} [Inhabited α] (env : Env α) (self : ArmConvLayerGroup)
    (inputs outputs : List Blob) (input_mem output_mem : List α)
    (hG : 1 ≤ self.group_) (hlenI : self.group_inputs_.length = self.group_)
    (hlenO : self.group_outputs_.length = self.group_)
    (hxf : (inputs.getD 0 default).desc.data_type = DataType.DATA_TYPE_FLOAT)
    (hyf : (outputs.getD 0 default).desc.data_type = DataType.DATA_TYPE_FLOAT) :
    (∃ k, k ≤ self.conv_acc_impls_.length ∧
      ((DoForward env self inputs outputs input_mem output_mem).log
          = Event.split :: (List.range k).map Event.forward ∨
        (k = self.conv_acc_impls_.length ∧
          (DoForward env self inputs outputs input_mem output_mem).log
            = Event.split :: (List.range k).map Event.forward ++ [Event.merge]))) ∧
    (∀ (accs : Nat → ArmLayerAcc) (i : Nat), i < self.conv_acc_impls_.length →
      (∀ j, j ≤ i → self.conv_acc_impls_.getD j none = some (accs j)) →
      (∀ j, j < i → (forwardStatus env self inputs outputs input_mem (accs j) j).isOk = true) →
      (forwardStatus env self inputs outputs input_mem (accs i) i).isOk = false →
      (DoForward env self inputs outputs input_mem output_mem).status
          = forwardStatus env self inputs outputs input_mem (accs i) i ∧
        (DoForward env self inputs outputs input_mem output_mem).log
          = Event.split :: (List.range (i + 1)).map Event.forward ∧
        (DoForward env self inputs outputs input_mem output_mem).output_mem = output_mem) ∧
    ((DoForward env self inputs outputs input_mem output_mem).status.isOk = true →
      ∀ j, j < self.conv_acc_impls_.length → ∃ acc, self.conv_acc_impls_.getD j none = some acc ∧
        (forwardStatus env self inputs outputs input_mem acc j).isOk = true) := by
  rw [DoForward_float env self inputs outputs input_mem output_mem hG hlenI hlenO hxf hyf]
  by_cases hn : self.conv_acc_impls_.length ≠ 0
  · rw [if_pos hn]
    rcases forward_loop_outcome env (forwardSelf α self inputs outputs)
      (forwardInput self inputs outputs input_mem) self.conv_acc_impls_.length
      ((self.splitSide (outputs.getD 0 default) self.group_outputs_ : List Blob × List α).2,
        [Event.split]) with ⟨sf, hF, hlog, hall⟩ | ⟨i1, st, sf, hi1, hF, hall, hcase⟩
    · rw [hF]
      dsimp only
      refine ⟨⟨_, Nat.le_refl _, Or.inr ⟨rfl, by rw [hlog]; rfl⟩⟩, ?_, fun _ => hall⟩
      intro accs i hi haccs _ hfail
      obtain ⟨acc, ha, hok⟩ := hall i hi
      have hacc : acc = accs i := Option.some.inj (ha.symm.trans (haccs i (Nat.le_refl i)))
      rw [hacc] at hok
      exact absurd (hok.symm.trans hfail) (by decide)
    · rw [hF]
      dsimp only
      have hnotok : st.isOk = false := by
        rcases hcase with ⟨_, hst, _⟩ | ⟨_, _, _, hst, _⟩
        · rw [hst]; rfl
        · exact hst
      refine ⟨?_, ?_, fun h => absurd (h.symm.trans hnotok) (by decide)⟩
      · rcases hcase with ⟨_, _, hlog⟩ | ⟨_, _, _, _, hlog⟩
        · exact ⟨i1, Nat.le_of_lt hi1, Or.inl (by rw [hlog]; rfl)⟩
        · exact ⟨i1 + 1, hi1, Or.inl (by rw [hlog]; rfl)⟩
      · intro accs i hi haccs hprev hfail
        rcases Nat.lt_trichotomy i1 i with hlt | heq | hgt
        · rcases hcase with ⟨hnull, _, _⟩ | ⟨acc, ha, hst, hstok, _⟩
          · exact absurd (hnull.symm.trans (haccs i1 (Nat.le_of_lt hlt))) (by simp)
          · have hacc : acc = accs i1 :=
              Option.some.inj (ha.symm.trans (haccs i1 (Nat.le_of_lt hlt)))
            rw [hacc] at hst
            have := hprev i1 hlt
            rw [hst] at hstok
            exact absurd (this.symm.trans hstok) (by decide)
        · subst heq
          rcases hcase with ⟨hnull, _, _⟩ | ⟨acc, ha, hst, _, hlog⟩
          · exact absurd (hnull.symm.trans (haccs i1 (Nat.le_refl i1))) (by simp)
          · have hacc : acc = accs i1 :=
              Option.some.inj (ha.symm.trans (haccs i1 (Nat.le_refl i1)))
            rw [hacc] at hst
            exact ⟨hst, by rw [hlog]; rfl, rfl⟩
        · obtain ⟨acc, ha, hok⟩ := hall i hgt
          have hacc : acc = accs i := Option.some.inj (ha.symm.trans (haccs i (Nat.le_refl i)))
          rw [hacc] at hok
          exact absurd (hok.symm.trans hfail) (by decide)
  · rw [if_neg hn]
    have h0 : self.conv_acc_impls_.length = 0 := by omega
    have hff : ¬ (false = true) := by decide
    refine ⟨⟨0, Nat.zero_le _, Or.inl rfl⟩, ?_, fun h => absurd h hff⟩
    intro accs i hi
    omega

/-- C15. Forward without a configured implementation fails: with an empty sub-kernel
list, `group_ ≥ 1` group blobs per side and float aggregate blobs, `DoForward` returns
the error `TNNERR_LAYER_ERR` ("conv_acc_impl_ is nil"), after the split and without a
merge, and leaves the aggregate output memory as it was. -/
theorem DoForward_no_impl {α : Type} [Inhabited α] (env : Env α) (self : ArmConvLayerGroup)
    (inputs outputs : List Blob) (input_mem output_mem : List α)
    (hG : 1 ≤ self.group_) (hlenI : self.group_inputs_.length = self.group_)
    (hlenO : self.group_outputs_.length = self.group_)
    (hxf : (inputs.getD 0 default).desc.data_type = DataType.DATA_TYPE_FLOAT)
    (hyf : (outputs.getD 0 default).desc.data_type = DataType.DATA_TYPE_FLOAT)
    (hempty : self.conv_acc_impls_ = []) :
    (DoForward env self inputs outputs input_mem output_mem).status
        = ⟨StatusCode.TNNERR_LAYER_ERR, "conv_acc_impl_ is nil"⟩ ∧
      (DoForward env self inputs outputs input_mem output_mem).status.isOk = false ∧
      (DoForward env self inputs outputs input_mem output_mem).output_mem = output_mem ∧
      (DoForward env self inputs outputs input_mem output_mem).log = [Event.split] := by
  rw [DoForward_float env self inputs outputs input_mem output_mem hG hlenI hlenO hxf hyf,
    if_neg (by rw [hempty]; simp)]
  exact ⟨rfl, rfl, rfl, rfl⟩

/-- C15 at a concrete input: `exampleGroup` has two group blobs per side and no
sub-kernel. -/
theorem DoForward_no_impl_witness :
    exampleGroup.conv_acc_impls_ = [] ∧
    (DoForward exampleEnv exampleGroup [exampleBlob] [exampleBlob] exampleMem exampleOut).status.isOk
      = false ∧
    (DoForward exampleEnv exampleGroup [exampleBlob] [exampleBlob] exampleMem exampleOut).output_mem
      = exampleOut :=
  ⟨rfl,
    (DoForward_no_impl exampleEnv exampleGroup [exampleBlob] [exampleBlob] exampleMem exampleOut
      (by decide) (by decide) (by decide) rfl rfl rfl).2.1,
    (DoForward_no_impl exampleEnv exampleGroup [exampleBlob] [exampleBlob] exampleMem exampleOut
      (by decide) (by decide) (by decide) rfl rfl rfl).2.2.1⟩

/-- C18. The statuses that `DoForward` drops carry no error: with `group_ ≥ 1` group blobs
per side, if the `SetSplitBlobHandle` call of the input side succeeds then every call of
`CopyInputSplitBlob` on the aggregate input returns `TNN_OK`, and likewise for the output
side and `CopyOutputSplitBlob`; and when the aggregate input or output is not float,
`DoForward` returns the error of `SetSplitBlobHandle` with an empty log (no split, no
sub-kernel, no merge) and the aggregate output memory as it was. -/
theorem DoForward_dropped_status {α : Type} [Inhabited α] (env : Env α) (self : ArmConvLayerGroup)
    (inputs outputs : List Blob) (input_mem output_mem : List α)
    (hG : 1 ≤ self.group_) (hlenI : self.group_inputs_.length = self.group_)
    (hlenO : self.group_outputs_.length = self.group_) :
    ((self.SetSplitBlobHandle
        (self.SetSplitBlobDesc (inputs.getD 0 default) self.group_inputs_).2.2 ([] : List α)).1.isOk
        = true →
      ∀ (S : ArmConvLayerGroup) (mem group_mem : List α),
        (S.CopyInputSplitBlob (inputs.getD 0 default) mem group_mem).1 = TNN_OK) ∧
    ((self.SetSplitBlobHandle
        (self.SetSplitBlobDesc (outputs.getD 0 default) self.group_outputs_).2.2 ([] : List α)).1.isOk
        = true →
      ∀ (S : ArmConvLayerGroup) (mem group_mem : List α),
        (S.CopyOutputSplitBlob (outputs.getD 0 default) mem group_mem).1 = TNN_OK) ∧
    ((inputs.getD 0 default).desc.data_type ≠ DataType.DATA_TYPE_FLOAT ∨
        (outputs.getD 0 default).desc.data_type ≠ DataType.DATA_TYPE_FLOAT →
      (DoForward env self inputs outputs input_mem output_mem).status.isOk = false ∧
      (DoForward env self inputs outputs input_mem output_mem).log = [] ∧
      (DoForward env self inputs outputs input_mem output_mem).output_mem = output_mem) := by
  have hsI := SetSplitBlobHandle_status α self (inputs.getD 0 default) self.group_inputs_ hG hlenI
  have hsO := SetSplitBlobHandle_status α self (outputs.getD 0 default) self.group_outputs_ hG hlenO
  refine ⟨?_, ?_, ?_⟩
  · intro hok S mem group_mem
    by_cases hxf : (inputs.getD 0 default).desc.data_type = DataType.DATA_TYPE_FLOAT
    · simp only [CopyInputSplitBlob, hxf, if_true]
    · rw [hsI, if_neg hxf] at hok
      exact absurd hok (by decide)
  · intro hok S mem group_mem
    by_cases hyf : (outputs.getD 0 default).desc.data_type = DataType.DATA_TYPE_FLOAT
    · simp only [CopyOutputSplitBlob, hyf, if_true]
    · rw [hsO, if_neg hyf] at hok
      exact absurd hok (by decide)
  · intro hnf
    obtain ⟨h1, h2, h3⟩ := DoForward_nonfloat env self inputs outputs input_mem output_mem
      hG hlenI hlenO hnf
    exact ⟨by rw [h1]; rfl, h2, h3⟩

/-- C18 at a concrete input: a quantized aggregate input on `readyGroup`. -/
theorem DoForward_dropped_status_witness :
    1 ≤ readyGroup.group_ ∧
    (DoForward exampleEnv readyGroup [int8Blob] [exampleBlob] exampleMem exampleOut).status.isOk
      = false ∧
    (DoForward exampleEnv readyGroup [int8Blob] [exampleBlob] exampleMem exampleOut).log = [] :=
  ⟨by decide,
    ((DoForward_dropped_status exampleEnv readyGroup [int8Blob] [exampleBlob] exampleMem exampleOut
      (by decide) (by decide) (by decide)).2.2 (Or.inl (by decide))).1,
    ((DoForward_dropped_status exampleEnv readyGroup [int8Blob] [exampleBlob] exampleMem exampleOut
      (by decide) (by decide) (by decide)).2.2 (Or.inl (by decide))).2.1⟩

/-- C14 at a concrete input: on `readyGroup` with sub-kernels that fail unless their group
input starts with the cell 100, sub-kernel 0 succeeds and sub-kernel 1 is the first to
fail. -/
theorem DoForward_fail_fast_witness :
    1 ≤ readyGroup.group_ ∧
    (forwardStatus failingEnv readyGroup [exampleBlob] [exampleBlob] exampleMem (readyAcc 1) 1).isOk
      = false ∧
    (DoForward failingEnv readyGroup [exampleBlob] [exampleBlob] exampleMem exampleOut).log
      = Event.split :: (List.range (1 + 1)).map Event.forward ∧
    (DoForward failingEnv readyGroup [exampleBlob] [exampleBlob] exampleMem exampleOut).output_mem
      = exampleOut :=
  ⟨by decide, by decide,
    ((DoForward_fail_fast failingEnv readyGroup [exampleBlob] [exampleBlob] exampleMem exampleOut
      (by decide) (by decide) (by decide) rfl rfl).2.1 readyAcc 1 (by decide) (by decide)
      (by decide) (by decide)).2.1,
    ((DoForward_fail_fast failingEnv readyGroup [exampleBlob] [exampleBlob] exampleMem exampleOut
      (by decide) (by decide) (by decide) rfl rfl).2.1 readyAcc 1 (by decide) (by decide)
      (by decide) (by decide)).2.2⟩

/-! ## Bounds of the scratch buffers -/

/-- C17. Scratch indexing stays in bounds under divisibility, for a float blob of dims
`(N, C, H, W)`, `1 ≤ group_` dividing `C`, `r = ROUND_UP (C / group_) 4 * H * W`.
(i) The per-batch scratch that `CopyInputSplitBlob` and `CopyOutputSplitBlob` allocate,
`group_ * r` floats, holds the `C * H * W` unpacked elements, and the range of every
group, `Count(group_dims, 1, 4)` floats from `g * Count(group_dims, 1, 4)` on, lies
inside it.  (ii) The buffer that `SetSplitBlobHandle` allocates has `group_ * N * r`
floats, the handle of group `g` points `g * N * r` floats into it, the row of (group `g`,
batch `b`), `r` floats from there plus `b * r` on, lies inside the buffer, and the rows of
two distinct pairs (group, batch) do not overlap. -/
theorem scratch_in_bounds (α : Type) [Inhabited α] (self : ArmConvLayerGroup) (blob : Blob)
    (blobs : List Blob) (N C H W : Nat) (hG : 1 ≤ self.group_)
    (hlen : blobs.length = self.group_)
    (hfloat : blob.desc.data_type = DataType.DATA_TYPE_FLOAT)
    (hdims : blob.desc.dims = [N, C, H, W]) (hdiv : C % self.group_ = 0) :
    (C * (H * W)
        ≤ (RawBuffer.floats (self.group_ * (ROUND_UP (C / self.group_) 4 * H * W) * 4) : List α).length ∧
      ∀ g, g < self.group_ →
        g * DimsVectorUtils.Count [N, C / self.group_, H, W] 1 4
            + DimsVectorUtils.Count [N, C / self.group_, H, W] 1 4
          ≤ (RawBuffer.floats (self.group_ * (ROUND_UP (C / self.group_) 4 * H * W) * 4) :
              List α).length) ∧
    ((self.splitSide blob blobs : List Blob × List α).2.length
        = self.group_ * N * (ROUND_UP (C / self.group_) 4 * H * W) ∧
      (∀ g, g < self.group_ →
        GetBlobHandlePtr ((self.splitSide blob blobs : List Blob × List α).1.getD g default).handle
          = g * N * (ROUND_UP (C / self.group_) 4 * H * W)) ∧
      (∀ g b, g < self.group_ → b < N →
        GetBlobHandlePtr ((self.splitSide blob blobs : List Blob × List α).1.getD g default).handle
            + b * (ROUND_UP (C / self.group_) 4 * H * W) + ROUND_UP (C / self.group_) 4 * H * W
          ≤ (self.splitSide blob blobs : List Blob × List α).2.length) ∧
      (∀ g b g1 b1, g < self.group_ → b < N → g1 < self.group_ → b1 < N → ¬ (g = g1 ∧ b = b1) →
        GetBlobHandlePtr ((self.splitSide blob blobs : List Blob × List α).1.getD g default).handle
            + b * (ROUND_UP (C / self.group_) 4 * H * W) + ROUND_UP (C / self.group_) 4 * H * W
          ≤ GetBlobHandlePtr
              ((self.splitSide blob blobs : List Blob × List α).1.getD g1 default).handle
            + b1 * (ROUND_UP (C / self.group_) 4 * H * W) ∨
        GetBlobHandlePtr ((self.splitSide blob blobs : List Blob × List α).1.getD g1 default).handle
            + b1 * (ROUND_UP (C / self.group_) 4 * H * W) + ROUND_UP (C / self.group_) 4 * H * W
          ≤ GetBlobHandlePtr
              ((self.splitSide blob blobs : List Blob × List α).1.getD g default).handle
            + b * (ROUND_UP (C / self.group_) 4 * H * W))) := by
  obtain ⟨_, hl, hside⟩ := splitSide_facts α self blob blobs N C H W hG hlen hfloat hdims
  have hC : self.group_ * (C / self.group_) = C := Nat.mul_div_cancel' (Nat.dvd_of_mod_eq_zero hdiv)
  have hlenT : (RawBuffer.floats (self.group_ * (ROUND_UP (C / self.group_) 4 * H * W) * 4) :
      List α).length = self.group_ * (ROUND_UP (C / self.group_) 4 * H * W) := by
    simp only [RawBuffer.floats, List.length_replicate, Nat.mul_div_cancel _ (by decide : 0 < 4)]
  have hq : C / self.group_ * (H * W) ≤ ROUND_UP (C / self.group_) 4 * H * W := by
    rw [Nat.mul_assoc _ H W]
    exact Nat.mul_le_mul_right _ (le_ROUND_UP_four _)
  have hcount : DimsVectorUtils.Count [N, C / self.group_, H, W] 1 4 = C / self.group_ * (H * W) := by
    simp [DimsVectorUtils.Count]
  refine ⟨⟨?_, ?_⟩, hl, ?_, ?_, ?_⟩
  · rw [hlenT]
    calc C * (H * W) = self.group_ * (C / self.group_) * (H * W) := by rw [hC]
      _ = self.group_ * (C / self.group_ * (H * W)) := Nat.mul_assoc _ _ _
      _ ≤ self.group_ * (ROUND_UP (C / self.group_) 4 * H * W) := Nat.mul_le_mul_left _ hq
  · intro g hg
    rw [hlenT, hcount]
    have h1 : (g + 1) * (C / self.group_ * (H * W)) ≤ self.group_ * (C / self.group_ * (H * W)) :=
      Nat.mul_le_mul_right _ hg
    have h2 := Nat.mul_le_mul_left self.group_ hq
    rw [Nat.add_mul, Nat.one_mul] at h1
    omega
  · intro g hg
    rw [(hside g hg).2, Nat.mul_assoc g N, Nat.mul_comm N]
  · intro g b hg hb
    rw [(hside g hg).2, hl]
    rcases Nat.eq_zero_or_pos (ROUND_UP (C / self.group_) 4 * H * W) with h0 | hpos
    · rw [h0]; simp
    · have := region_inside self.group_ N (ROUND_UP (C / self.group_) 4 * H * W) g b
        (ROUND_UP (C / self.group_) 4 * H * W - 1) hg hb (by omega)
      omega
  · intro g b g1 b1 hg hb hg1 hb1 hne
    rw [(hside g hg).2, (hside g1 hg1).2]
    rcases Nat.eq_zero_or_pos (ROUND_UP (C / self.group_) 4 * H * W) with h0 | hpos
    · rw [h0]; simp
    · have d1 := region_disjoint N (ROUND_UP (C / self.group_) 4 * H * W) g b g1 b1 0 hb hb1 hpos hne
      have d2 := region_disjoint N (ROUND_UP (C / self.group_) 4 * H * W) g b g1 b1
        (ROUND_UP (C / self.group_) 4 * H * W - 1) hb hb1 (by omega) hne
      omega

/-- C17 at a concrete input: two groups on dims `(2, 6, 1, 2)`; the shared buffer has 32
floats. -/
theorem scratch_in_bounds_witness :
    1 ≤ exampleGroup.group_ ∧ 6 % exampleGroup.group_ = 0 ∧
    (exampleGroup.splitSide exampleBlob exampleGroup.group_inputs_ : List Blob × List Nat).2.length
      = exampleGroup.group_ * 2 * (ROUND_UP (6 / exampleGroup.group_) 4 * 1 * 2) :=
  ⟨by decide, by decide,
    (scratch_in_bounds Nat exampleGroup exampleBlob exampleGroup.group_inputs_ 2 6 1 2
      (by decide) (by decide) rfl rfl (by decide)).2.1⟩

/-! ## The outcomes of `Init` -/

/-- Normal form of `Init` on present parameters and resource: the status of the base
class, then that of `SplitResource`, then the loop over the groups decide. -/
theorem Init_eq {α : Type} (env : Env α) (self : ArmConvLayerGroup) (p : ConvLayerParam)
    (res : ConvLayerResource) (inputs outputs : List Blob) :
    Init env self (some p) (some res) inputs outputs =
      if !(env.baseInit p res inputs outputs).isOk then
        (env.baseInit p res inputs outputs, { self with param_ := p, resource_ := res })
      else if !((initState self p res inputs outputs).SplitResource []).1.isOk then
        (((initState self p res inputs outputs).SplitResource []).1,
          { initState self p res inputs outputs with
            group_inputs_ :=
              (initBlobs { self with param_ := p, resource_ := res, group_ := p.group }).group_inputs_,
            group_outputs_ :=
              (initBlobs { self with param_ := p, resource_ := res, group_ := p.group }).group_outputs_ })
      else
        match forReturn (initGroup env inputs (initResources self p res inputs outputs))
            (List.range (initState self p res inputs outputs).group_)
            (initState self p res inputs outputs) with
        | (some st, s) => (st, s)
        | (none, s) => (TNN_OK, s) := by
  rfl

theorem initState_facts (self : ArmConvLayerGroup) (p : ConvLayerParam) (res : ConvLayerResource)
    (inputs outputs : List Blob) :
    (initState self p res inputs outputs).param_ = p ∧
    (initState self p res inputs outputs).resource_ = res ∧
    (initState self p res inputs outputs).group_ = p.group ∧
    (initState self p res inputs outputs).conv_acc_impls_ = self.conv_acc_impls_ ∧
    (initState self p res inputs outputs).group_conv_param_
      = some { p with output_channel := p.output_channel / p.group, group := 1 } ∧
    (initState self p res inputs outputs).group_inputs_.length
      = self.group_inputs_.length + p.group ∧
    (initState self p res inputs outputs).group_outputs_.length
      = self.group_outputs_.length + p.group := by
  unfold initState
  simp only [initBlobs_eq, SetSplitBlobDesc_length, SetGroupParam, List.length_append,
    List.length_replicate]
  refine ⟨?_, ?_, ?_, ?_, ?_, ?_, ?_⟩ <;> first | rfl | trivial

/-- One pass of the second loop of `Init`: either it returns an error and leaves the
object as it was, or it pushes one sub-kernel that was initialised with the group
parameters, the resource view and the blobs of the group. -/
theorem initGroup_cases {α : Type} (env : Env α) (inputs : List Blob)
    (resources : List ConvLayerResource) (g : Nat) (s : ArmConvLayerGroup) :
    (∃ st, initGroup env inputs resources g s = (some st, s) ∧ st.isOk = false) ∨
    (∃ acc, initGroup env inputs resources g s
        = (none, { s with conv_acc_impls_ := s.conv_acc_impls_ ++ [some acc] }) ∧
      acc.init_args = some ⟨s.group_conv_param_, resources.get? g,
        [s.group_inputs_.getD g default], [s.group_outputs_.getD g default]⟩) := by
  unfold initGroup
  simp only []
  split
  · exact Or.inl ⟨paramNullStatus, rfl, rfl⟩
  · rename_i acc _
    by_cases hok : (accInit env acc ⟨s.group_conv_param_, resources.get? g,
        [s.group_inputs_.getD g default], [s.group_outputs_.getD g default]⟩).1.isOk = true
    · right
      simp only [hok, Bool.not_true, Bool.false_eq_true, if_false]
      exact ⟨_, rfl, rfl⟩
    · left
      have hno : (accInit env acc ⟨s.group_conv_param_, resources.get? g,
        [s.group_inputs_.getD g default], [s.group_outputs_.getD g default]⟩).1.isOk = false := by
        simpa using hok
      simp only [hno, Bool.not_false, if_true]
      exact ⟨_, rfl, hno⟩

/-- The status of one pass of the second loop of `Init` does not depend on the sub-kernels
pushed so far. -/
theorem initGroup_status_congr {α : Type} (env : Env α) (inputs : List Blob)
    (resources : List ConvLayerResource) (g : Nat) (s : ArmConvLayerGroup)
    (impls : List (Option ArmLayerAcc)) :
    (initGroup env inputs resources g { s with conv_acc_impls_ := impls }).1
      = (initGroup env inputs resources g s).1 := by
  unfold initGroup
  simp only [CreateImpFP, CreateImpInt8]
  split <;> split <;> first | rfl | simp_all

/-- Loop invariant rule for a counting loop with early return that ran to its end. -/
theorem forReturn_range_inv {σ : Type} (body : Nat → σ → Option Status × σ)
    (I : Nat → σ → Prop) (n : Nat) (s0 s1 : σ)
    (h : forReturn body (List.range n) s0 = (none, s1)) (h0 : I 0 s0)
    (hstep : ∀ k s s2, k < n → I k s → body k s = (none, s2) → I (k + 1) s2) : I n s1 := by
  induction n generalizing s1 with
  | zero =>
    have : s0 = s1 := (Prod.mk.inj h).2
    rw [← this]; exact h0
  | succ n ih =>
    rw [List.range_succ, forReturn_append] at h
    rcases hF : forReturn body (List.range n) s0 with ⟨o, sm⟩
    rw [hF] at h
    cases o with
    | some st => exact absurd (Prod.mk.inj h).1 (by simp)
    | none =>
      have hIn := ih sm hF (fun k s s2 hk => hstep k s s2 (Nat.lt_succ_of_lt hk))
      simp only [forReturn] at h
      rcases hb : body n sm with ⟨o2, s2⟩
      rw [hb] at h
      cases o2 with
      | some st => exact absurd (Prod.mk.inj h).1 (by simp)
      | none =>
        have : s2 = s1 := (Prod.mk.inj h).2
        rw [← this]
        exact hstep n sm s2 (Nat.lt_succ_self n) hIn hb

/-- A status returned early by a counting loop was returned by one of its passes. -/
theorem forReturn_range_some {σ : Type} (body : Nat → σ → Option Status × σ)
    (n : Nat) (s0 s1 : σ) (st : Status)
    (h : forReturn body (List.range n) s0 = (some st, s1)) :
    ∃ k s, k < n ∧ (body k s).1 = some st := by
  induction n generalizing s1 with
  | zero => exact absurd (Prod.mk.inj h).1 (by simp)
  | succ n ih =>
    rw [List.range_succ, forReturn_append] at h
    rcases hF : forReturn body (List.range n) s0 with ⟨o, sm⟩
    rw [hF] at h
    cases o with
    | some st1 =>
      have hst : st1 = st := Option.some.inj (Prod.mk.inj h).1
      rw [hst] at hF
      obtain ⟨k, s, hk, hs⟩ := ih sm hF
      exact ⟨k, s, Nat.lt_succ_of_lt hk, hs⟩
    | none =>
      simp only [forReturn] at h
      rcases hb : body n sm with ⟨o2, s2⟩
      rw [hb] at h
      cases o2 with
      | none => exact absurd (Prod.mk.inj h).1 (by simp)
      | some st2 =>
        have : st2 = st := Option.some.inj (Prod.mk.inj h).1
        exact ⟨n, sm, Nat.lt_succ_self n, by rw [hb, this]⟩

theorem forReturn_singleton_none {ι σ : Type} (body : ι → σ → Option Status × σ) (i : ι) (s : σ)
    (h : (body i s).1 = none) : forReturn body [i] s = (none, (body i s).2) := by
  have hb : body i s = (none, (body i s).2) := by rw [← h]
  rw [forReturn, hb]
  rfl

/-- A counting loop with early return returns the status of the first pass that
returns, when the passes before it do not and keep the property `I` that decides it. -/
theorem forReturn_range_first {σ : Type} (body : Nat → σ → Option Status × σ)
    (I : σ → Prop) (n g : Nat) (hg : g < n) (s0 : σ) (st : Status) (h0 : I s0)
    (hprev : ∀ j s, j < g → I s → (body j s).1 = none ∧ I (body j s).2)
    (hfail : ∀ s, I s → (body g s).1 = some st) :
    (forReturn body (List.range n) s0).1 = some st := by
  have hA : ∀ m, m ≤ g → ∃ s1, forReturn body (List.range m) s0 = (none, s1) ∧ I s1 := by
    intro m
    induction m with
    | zero => exact fun _ => ⟨s0, rfl, h0⟩
    | succ m ih =>
      intro hm
      obtain ⟨s1, hF, hI⟩ := ih (Nat.le_of_succ_le hm)
      obtain ⟨hn, hI2⟩ := hprev m s1 hm hI
      refine ⟨(body m s1).2, ?_, hI2⟩
      rw [List.range_succ, forReturn_append, hF]
      exact forReturn_singleton_none body m s1 hn
  have hB : ∀ m, g < m → (forReturn body (List.range m) s0).1 = some st := by
    intro m
    induction m with
    | zero => exact fun h => absurd h (Nat.not_lt_zero g)
    | succ m ih =>
      intro hm
      rw [List.range_succ, forReturn_append]
      rcases Nat.lt_succ_iff_lt_or_eq.mp hm with hlt | heq
      · have h1 := ih hlt
        rcases hF : forReturn body (List.range m) s0 with ⟨o, sm⟩
        rw [hF] at h1
        simp only at h1
        rw [h1]
      · subst heq
        obtain ⟨s1, hF, hI⟩ := hA g (Nat.le_refl g)
        rw [hF]
        simp only []
        rw [forReturn_of_some body g [] s1 st (hfail s1 hI)]
  exact hB n hg

theorem SplitResource_length_of_ok (self : ArmConvLayerGroup)
    (h : (self.SplitResource []).1.isOk = true) :
    (self.SplitResource []).2.length = self.group_ := by
  by_cases hf : self.resource_.filter_handle.GetDataType = DataType.DATA_TYPE_FLOAT
  · rw [SplitResource_float self [] hf]
    simp
  · rcases Nat.eq_zero_or_pos self.group_ with h0 | hpos
    · unfold SplitResource
      simp only [h0, List.range_zero, forReturn]
      rfl
    · obtain ⟨n, hn⟩ : ∃ n, self.group_ = n + 1 := ⟨self.group_ - 1, by omega⟩
      unfold SplitResource at h
      simp only [hf, if_false, hn, List.range_succ_eq_map, forReturn] at h
      exact absurd h (by decide)

/-- C16. `Init` establishes one blob pair and one sub-kernel per group.  On a freshly
constructed object (no blobs, no sub-kernels), with present parameters `p` and resource:
if `Init` returns success, the object has `group_ = p.group`, exactly `p.group` group
input blobs, `p.group` group output blobs, `p.group` resource views and `p.group`
sub-kernels, and sub-kernel `g` is non-null and was initialised with the group
parameters, resource view `g`, group input blob `g` and group output blob `g`.  If a step
fails, `Init` returns the first error: that of the base class; else that of
`SplitResource`; else the one returned by the first group whose pass fails (null
selection or failing sub-kernel `Init`). -/
theorem Init_establishes {α : Type} (env : Env α) (self : ArmConvLayerGroup) (p : ConvLayerParam)
    (res : ConvLayerResource) (inputs outputs : List Blob)
    (hfreshI : self.group_inputs_ = []) (hfreshO : self.group_outputs_ = [])
    (hfreshA : self.conv_acc_impls_ = []) :
    ((Init env self (some p) (some res) inputs outputs).1.isOk = true →
      (Init env self (some p) (some res) inputs outputs).2.group_ = p.group ∧
      (Init env self (some p) (some res) inputs outputs).2.group_inputs_.length = p.group ∧
      (Init env self (some p) (some res) inputs outputs).2.group_outputs_.length = p.group ∧
      (initResources self p res inputs outputs).length = p.group ∧
      (Init env self (some p) (some res) inputs outputs).2.conv_acc_impls_.length = p.group ∧
      ∀ g, g < p.group → ∃ acc,
        (Init env self (some p) (some res) inputs outputs).2.conv_acc_impls_.getD g none = some acc ∧
        acc.init_args = some
          ⟨(Init env self (some p) (some res) inputs outputs).2.group_conv_param_,
            (initResources self p res inputs outputs).get? g,
            [(Init env self (some p) (some res) inputs outputs).2.group_inputs_.getD g default],
            [(Init env self (some p) (some res) inputs outputs).2.group_outputs_.getD g default]⟩) ∧
    ((env.baseInit p res inputs outputs).isOk = false →
      (Init env self (some p) (some res) inputs outputs).1 = env.baseInit p res inputs outputs) ∧
    ((env.baseInit p res inputs outputs).isOk = true →
      ((initState self p res inputs outputs).SplitResource []).1.isOk = false →
      (Init env self (some p) (some res) inputs outputs).1
        = ((initState self p res inputs outputs).SplitResource []).1) ∧
    ((env.baseInit p res inputs outputs).isOk = true →
      ((initState self p res inputs outputs).SplitResource []).1.isOk = true →
      ∀ g st, g < p.group →
        (∀ j, j < g → (initGroup env inputs (initResources self p res inputs outputs) j
          (initState self p res inputs outputs)).1 = none) →
        (initGroup env inputs (initResources self p res inputs outputs) g
          (initState self p res inputs outputs)).1 = some st →
        (Init env self (some p) (some res) inputs outputs).1 = st) := by
  obtain ⟨_, _, hSg, hSa, _, hSi, hSo⟩ := initState_facts self p res inputs outputs
  rw [hfreshI, List.length_nil, Nat.zero_add] at hSi
  rw [hfreshO, List.length_nil, Nat.zero_add] at hSo
  rw [hfreshA] at hSa
  rw [Init_eq]
  refine ⟨?_, ?_, ?_, ?_⟩
  · intro hok
    by_cases hb : (env.baseInit p res inputs outputs).isOk = true
    · by_cases hs : ((initState self p res inputs outputs).SplitResource []).1.isOk = true
      · simp only [hb, hs, Bool.not_true, Bool.false_eq_true, if_false] at hok ⊢
        rcases hF : forReturn (initGroup env inputs (initResources self p res inputs outputs))
          (List.range (initState self p res inputs outputs).group_)
          (initState self p res inputs outputs) with ⟨o, sf⟩
        rw [hF] at hok
        cases o with
        | some st =>
          exfalso
          obtain ⟨k, s, _, hks⟩ := forReturn_range_some _ _ _ _ _ hF
          rcases initGroup_cases env inputs (initResources self p res inputs outputs) k s with
            ⟨st1, h1, hno⟩ | ⟨acc, h1, _⟩
          · rw [h1] at hks
            have : st1 = st := Option.some.inj hks
            rw [this] at hno
            exact absurd (hok.symm.trans hno) (by decide)
          · rw [h1] at hks
            exact absurd hks (by simp)
        | none =>
          have key := forReturn_range_inv _
            (fun k (s : ArmConvLayerGroup) =>
              s.group_ = (initState self p res inputs outputs).group_ ∧
              s.group_inputs_ = (initState self p res inputs outputs).group_inputs_ ∧
              s.group_outputs_ = (initState self p res inputs outputs).group_outputs_ ∧
              s.group_conv_param_ = (initState self p res inputs outputs).group_conv_param_ ∧
              s.conv_acc_impls_.length = k ∧
              ∀ g, g < k → ∃ acc, s.conv_acc_impls_.getD g none = some acc ∧
                acc.init_args = some
                  ⟨(initState self p res inputs outputs).group_conv_param_,
                    (initResources self p res inputs outputs).get? g,
                    [(initState self p res inputs outputs).group_inputs_.getD g default],
                    [(initState self p res inputs outputs).group_outputs_.getD g default]⟩)
            _ _ sf hF
            ⟨rfl, rfl, rfl, rfl, by rw [hSa]; rfl, fun g hg => absurd hg (Nat.not_lt_zero g)⟩ ?_
          · obtain ⟨k1, k2, k3, k4, k5, k6⟩ := key
            rw [hSg] at k5 k6
            refine ⟨by rw [k1, hSg], by rw [k2, hSi], by rw [k3, hSo], ?_, k5, ?_⟩
            · have := SplitResource_length_of_ok _ hs
              rw [hSg] at this
              exact this
            · intro g hg
              obtain ⟨acc, ha, hargs⟩ := k6 g hg
              exact ⟨acc, ha, by rw [hargs, k2, k3, k4]⟩
          · intro k s s2 _ hI hbody
            obtain ⟨i1, i2, i3, i4, i5, i6⟩ := hI
            rcases initGroup_cases env inputs (initResources self p res inputs outputs) k s with
              ⟨st1, h1, _⟩ | ⟨acc, h1, hargs⟩
            · rw [h1] at hbody
              exact absurd (Prod.mk.inj hbody).1 (by simp)
            · rw [h1] at hbody
              have hs2 := (Prod.mk.inj hbody).2
              rw [← hs2]
              refine ⟨i1, i2, i3, i4, by simp [i5], ?_⟩
              intro g hg
              rcases Nat.lt_succ_iff_lt_or_eq.mp hg with hlt | heq
              · obtain ⟨a, ha, hargs1⟩ := i6 g hlt
                refine ⟨a, ?_, hargs1⟩
                show (s.conv_acc_impls_ ++ [some acc]).getD g none = some a
                rw [List.getD_append _ _ _ _ (by rw [i5]; exact hlt)]
                exact ha
              · refine ⟨acc, ?_, ?_⟩
                · show (s.conv_acc_impls_ ++ [some acc]).getD g none = some acc
                  rw [List.getD_append_right _ _ _ _ (by rw [i5, heq]), i5, heq, Nat.sub_self]
                  rfl
                · rw [hargs, i2, i3, i4, heq]
      · have hs1 : ((initState self p res inputs outputs).SplitResource []).1.isOk = false := by
          simpa using hs
        simp only [hb, hs1, Bool.not_true, Bool.not_false, Bool.false_eq_true, if_false,
          if_true] at hok
    · have hb1 : (env.baseInit p res inputs outputs).isOk = false := by simpa using hb
      simp only [hb1, Bool.not_false, if_true] at hok
      exact Bool.noConfusion hok
  · intro hb
    simp only [hb, Bool.not_false, if_true]
  · intro hb hs
    simp only [hb, hs, Bool.not_true, Bool.not_false, Bool.false_eq_true, if_false, if_true]
  · intro hb hs g st hg hprev hfail
    simp only [hb, hs, Bool.not_true, Bool.false_eq_true, if_false]
    have key := forReturn_range_first
      (initGroup env inputs (initResources self p res inputs outputs))
      (fun s => ∃ impls, s = { initState self p res inputs outputs with conv_acc_impls_ := impls })
      (initState self p res inputs outputs).group_ g (by rw [hSg]; exact hg)
      (initState self p res inputs outputs) st ⟨_, rfl⟩ ?_ ?_
    · rcases hF : forReturn (initGroup env inputs (initResources self p res inputs outputs))
        (List.range (initState self p res inputs outputs).group_)
        (initState self p res inputs outputs) with ⟨o, sf⟩
      rw [hF] at key
      simp only at key
      rw [key]
    · intro j s hj hI
      obtain ⟨impls, hs1⟩ := hI
      have hst : (initGroup env inputs (initResources self p res inputs outputs) j s).1 = none := by
        rw [hs1, initGroup_status_congr]
        exact hprev j hj
      refine ⟨hst, ?_⟩
      rcases initGroup_cases env inputs (initResources self p res inputs outputs) j s with
        ⟨st1, h1, _⟩ | ⟨acc, h1, _⟩
      · rw [h1]; exact ⟨impls, hs1⟩
      · rw [h1, hs1]; exact ⟨_, rfl⟩
    · intro s hI
      obtain ⟨impls, hs1⟩ := hI
      rw [hs1, initGroup_status_congr]
      exact hfail

theorem Init_establishes_witness :
    (Init exampleEnv freshGroup (some exampleParam) (some exampleResource) [exampleBlob]
      [exampleBlob]).1.isOk = true ∧
    (Init exampleEnv freshGroup (some exampleParam) (some exampleResource) [exampleBlob]
      [exampleBlob]).2.group_inputs_.length = 2 ∧
    (Init exampleEnv freshGroup (some exampleParam) (some exampleResource) [exampleBlob]
      [exampleBlob]).2.group_outputs_.length = 2 ∧
    (Init exampleEnv freshGroup (some exampleParam) (some exampleResource) [exampleBlob]
      [exampleBlob]).2.conv_acc_impls_.length = 2 ∧
    (initGroup initFailEnv [exampleBlob]
      (initResources freshGroup exampleParam exampleResource [exampleBlob] [exampleBlob]) 0
      (initState freshGroup exampleParam exampleResource [exampleBlob] [exampleBlob])).1 = none ∧
    (initGroup initFailEnv [exampleBlob]
      (initResources freshGroup exampleParam exampleResource [exampleBlob] [exampleBlob]) 1
      (initState freshGroup exampleParam exampleResource [exampleBlob] [exampleBlob])).1
      = some ⟨StatusCode.TNNERR_OTHER 9, "init"⟩ ∧
    (Init initFailEnv freshGroup (some exampleParam) (some exampleResource) [exampleBlob]
      [exampleBlob]).1 = ⟨StatusCode.TNNERR_OTHER 9, "init"⟩ :=
  ⟨by decide,
    ((Init_establishes exampleEnv freshGroup exampleParam exampleResource [exampleBlob]
      [exampleBlob] rfl rfl rfl).1 (by decide)).2.1,
    ((Init_establishes exampleEnv freshGroup exampleParam exampleResource [exampleBlob]
      [exampleBlob] rfl rfl rfl).1 (by decide)).2.2.1,
    ((Init_establishes exampleEnv freshGroup exampleParam exampleResource [exampleBlob]
      [exampleBlob] rfl rfl rfl).1 (by decide)).2.2.2.2.1,
    by decide, by decide,
    (Init_establishes initFailEnv freshGroup exampleParam exampleResource [exampleBlob]
      [exampleBlob] rfl rfl rfl).2.2.2 (by decide) (by decide) 1 _ (by decide)
      (fun j hj => by
        have h0 : j = 0 := by omega
        rw [h0]
        decide)
      (by decide)⟩

end TNN_NS
